import Mathlib

/-
Verification of the TurboPLONK constraint-system builder
(poly-iops, plonk, turbo_plonk_cs, mod.rs).

The Rust code is generic over a prime-field scalar type; we model it by an
arbitrary decidable field F.  The canonical little-endian byte serialization
used by range_check (Scalar::to_bytes followed by compute_binary_le) is
modelled by a class providing the canonical natural-number representative of
a field element.  Machine indices (VarIndex, CsIndex, usize) are Nat.
Rust Vec is List; Vec indexing inside the verifier is modelled by List.getD
with a default (the code only indexes in bounds on the states it is run on).
Fallible functions (Result) are modelled by Option or Except String.
-/

def N_WIRES_PER_GATE : Nat := 5

def N_SELECTORS : Nat := 13

/-- The constraint system state, mirroring struct TurboPlonkConstraintSystem:
13 selector columns, 5 wiring columns, variable and row counts, the two
parallel public-input binding lists, the witness store, and the cached
lazily allocated zero and one variables. -/
structure TurboPlonkConstraintSystem (F : Type) where
  selectors : List (List F)
  wiring : List (List Nat)
  num_vars : Nat
  size : Nat
  public_vars_constraint_indices : List Nat
  public_vars_witness_indices : List Nat
  witness : List F
  zero_var : Option Nat
  one_var : Option Nat

abbrev TPCS := TurboPlonkConstraintSystem

/-- Push x onto the i-th inner list, mirroring self.vec[i].push(x). -/
def pushAt {α : Type} : List (List α) → Nat → α → List (List α)
  | [], _, _ => []
  | c :: cols, 0, x => (c ++ [x]) :: cols
  | c :: cols, i + 1, x => c :: pushAt cols i x

variable {F : Type} [Field F] [DecidableEq F]

/-- TurboPlonkConstraintSystem::new. -/
def TurboPlonkConstraintSystem.new : TPCS F where
  selectors := List.replicate N_SELECTORS []
  wiring := List.replicate N_WIRES_PER_GATE []
  num_vars := 0
  size := 0
  public_vars_constraint_indices := []
  public_vars_witness_indices := []
  witness := []
  zero_var := none
  one_var := none

/-- Reading self.witness at a variable index. -/
def TurboPlonkConstraintSystem.witAt (cs : TPCS F) (i : Nat) : F :=
  cs.witness.getD i 0

/-- get_witness_index: self.wiring[wire_index][cs_index] (minus the asserts). -/
def TurboPlonkConstraintSystem.get_witness_index (cs : TPCS F) (wire_index cs_index : Nat) : Nat :=
  (cs.wiring.getD wire_index []).getD cs_index 0

/-- Reading self.selectors[i][j]. -/
def TurboPlonkConstraintSystem.selAt (cs : TPCS F) (i j : Nat) : F :=
  (cs.selectors.getD i []).getD j 0

/-- zero_var(): lazily allocate the reserved zero variable and return its index. -/
def TurboPlonkConstraintSystem.ensure_zero_var (cs : TPCS F) : TPCS F × Nat :=
  match cs.zero_var with
  | some z => (cs, z)
  | none =>
      ({ cs with zero_var := some cs.num_vars
                 witness := cs.witness ++ [0]
                 num_vars := cs.num_vars + 1 }, cs.num_vars)

/-- one_var(): lazily allocate the reserved one variable and return its index. -/
def TurboPlonkConstraintSystem.ensure_one_var (cs : TPCS F) : TPCS F × Nat :=
  match cs.one_var with
  | some o => (cs, o)
  | none =>
      ({ cs with one_var := some cs.num_vars
                 witness := cs.witness ++ [1]
                 num_vars := cs.num_vars + 1 }, cs.num_vars)

def TurboPlonkConstraintSystem.push_add_selectors (cs : TPCS F) (q1 q2 q3 q4 : F) : TPCS F :=
  { cs with selectors := pushAt (pushAt (pushAt (pushAt cs.selectors 0 q1) 1 q2) 2 q3) 3 q4 }

def TurboPlonkConstraintSystem.push_mul_selectors (cs : TPCS F) (q_mul12 q_mul34 : F) : TPCS F :=
  { cs with selectors := pushAt (pushAt cs.selectors 4 q_mul12) 5 q_mul34 }

def TurboPlonkConstraintSystem.push_constant_selector (cs : TPCS F) (q_c : F) : TPCS F :=
  { cs with selectors := pushAt cs.selectors 6 q_c }

def TurboPlonkConstraintSystem.push_ecc_selector (cs : TPCS F) (q_ecc : F) : TPCS F :=
  { cs with selectors := pushAt cs.selectors 7 q_ecc }

def TurboPlonkConstraintSystem.push_rescue_selectors (cs : TPCS F)
    (q_hash_1 q_hash_2 q_hash_3 q_hash_4 : F) : TPCS F :=
  { cs with selectors :=
      pushAt (pushAt (pushAt (pushAt cs.selectors 8 q_hash_1) 9 q_hash_2) 10 q_hash_3) 11 q_hash_4 }

def TurboPlonkConstraintSystem.push_out_selector (cs : TPCS F) (q_out : F) : TPCS F :=
  { cs with selectors := pushAt cs.selectors 12 q_out }

/-- insert_lc_gate: wo = w1*q1 + w2*q2 + w3*q3 + w4*q4 (wires_in given as
four separate indices). -/
def TurboPlonkConstraintSystem.insert_lc_gate (cs : TPCS F)
    (w1 w2 w3 w4 wire_out : Nat) (q1 q2 q3 q4 : F) : TPCS F :=
  let cs1 := cs.push_add_selectors q1 q2 q3 q4
  let cs2 := cs1.push_mul_selectors 0 0
  let cs3 := cs2.push_constant_selector 0
  let cs4 := cs3.push_ecc_selector 0
  let cs5 := cs4.push_rescue_selectors 0 0 0 0
  let cs6 := cs5.push_out_selector 1
  let wr := pushAt (pushAt (pushAt (pushAt (pushAt cs6.wiring 0 w1) 1 w2) 2 w3) 3 w4) 4 wire_out
  let cs7 := { cs6 with wiring := wr }
  { cs7 with size := cs7.size + 1 }

def TurboPlonkConstraintSystem.insert_add_gate (cs : TPCS F)
    (left_var right_var out_var : Nat) : TPCS F :=
  cs.insert_lc_gate left_var right_var 0 0 out_var 1 1 0 0

def TurboPlonkConstraintSystem.insert_sub_gate (cs : TPCS F)
    (left_var right_var out_var : Nat) : TPCS F :=
  cs.insert_lc_gate left_var right_var 0 0 out_var 1 (-1) 0 0

def TurboPlonkConstraintSystem.insert_mul_gate (cs : TPCS F)
    (left_var right_var out_var : Nat) : TPCS F :=
  let cs1 := cs.push_add_selectors 0 0 0 0
  let cs2 := cs1.push_mul_selectors 1 0
  let cs3 := cs2.push_constant_selector 0
  let cs4 := cs3.push_ecc_selector 0
  let cs5 := cs4.push_rescue_selectors 0 0 0 0
  let cs6 := cs5.push_out_selector 1
  let wr := pushAt (pushAt (pushAt (pushAt (pushAt cs6.wiring 0 left_var) 1 right_var) 2 0) 3 0) 4 out_var
  let cs7 := { cs6 with wiring := wr }
  { cs7 with size := cs7.size + 1 }

/-- new_variable: push the value, bump num_vars, return the old num_vars. -/
def TurboPlonkConstraintSystem.new_variable (cs : TPCS F) (value : F) : TPCS F × Nat :=
  ({ cs with num_vars := cs.num_vars + 1, witness := cs.witness ++ [value] }, cs.num_vars)

/-- add_variables: push a vector of values. -/
def TurboPlonkConstraintSystem.add_variables (cs : TPCS F) (values : List F) : TPCS F :=
  { cs with num_vars := cs.num_vars + values.length, witness := cs.witness ++ values }

/-- linear_combine: create an output variable and insert a linear combination gate. -/
def TurboPlonkConstraintSystem.linear_combine (cs : TPCS F)
    (w1 w2 w3 w4 : Nat) (q1 q2 q3 q4 : F) : TPCS F × Nat :=
  let lc := cs.witAt w1 * q1 + cs.witAt w2 * q2 + cs.witAt w3 * q3 + cs.witAt w4 * q4
  let p := cs.new_variable lc
  (p.1.insert_lc_gate w1 w2 w3 w4 p.2 q1 q2 q3 q4, p.2)

def TurboPlonkConstraintSystem.add (cs : TPCS F) (left_var right_var : Nat) : TPCS F × Nat :=
  let p := cs.new_variable (cs.witAt left_var + cs.witAt right_var)
  (p.1.insert_add_gate left_var right_var p.2, p.2)

def TurboPlonkConstraintSystem.sub (cs : TPCS F) (left_var right_var : Nat) : TPCS F × Nat :=
  let p := cs.new_variable (cs.witAt left_var - cs.witAt right_var)
  (p.1.insert_sub_gate left_var right_var p.2, p.2)

/-- equal: constrain left_var = right_var through a subtraction gate into zero_var. -/
def TurboPlonkConstraintSystem.equal (cs : TPCS F) (left_var right_var : Nat) : TPCS F :=
  let p := cs.ensure_zero_var
  p.1.insert_sub_gate left_var right_var p.2

def TurboPlonkConstraintSystem.mul (cs : TPCS F) (left_var right_var : Nat) : TPCS F × Nat :=
  let p := cs.new_variable (cs.witAt left_var * cs.witAt right_var)
  (p.1.insert_mul_gate left_var right_var p.2, p.2)

def TurboPlonkConstraintSystem.insert_boolean_gate (cs : TPCS F) (var : Nat) : TPCS F :=
  cs.insert_mul_gate var var var

/-- select: wires (bit, var0, bit, var1, out), selectors q2 = qm2 = qo = 1,
qm1 = -1; the output witness is witness[var0] when witness[bit] == 0 and
witness[var1] otherwise. -/
def TurboPlonkConstraintSystem.select (cs : TPCS F) (var0 var1 bit : Nat) : TPCS F × Nat :=
  let cs1 := cs.push_add_selectors 0 1 0 0
  let cs2 := cs1.push_mul_selectors (-1) 1
  let cs3 := cs2.push_constant_selector 0
  let cs4 := cs3.push_ecc_selector 0
  let cs5 := cs4.push_rescue_selectors 0 0 0 0
  let cs6 := cs5.push_out_selector 1
  let out : F := if cs.witAt bit = 0 then cs.witAt var0 else cs.witAt var1
  let p := cs6.new_variable out
  let wr := pushAt (pushAt (pushAt (pushAt (pushAt p.1.wiring 0 bit) 1 var0) 2 bit) 3 var1) 4 p.2
  let cs7 := { p.1 with wiring := wr }
  ({ cs7 with size := cs7.size + 1 }, p.2)

/-- is_equal_or_not_equal.  Rust computes witness[diff].inv().unwrap_or(zero);
in Mathlib fields the inverse of zero is already zero, so Inv.inv models it
directly.  Returns (cs, diff_is_zero, mul_var). -/
def TurboPlonkConstraintSystem.is_equal_or_not_equal (cs : TPCS F)
    (left_var right_var : Nat) : TPCS F × Nat × Nat :=
  let p1 := cs.sub left_var right_var
  let inv_diff_scalar := (p1.1.witAt p1.2)⁻¹
  let p2 := p1.1.new_variable inv_diff_scalar
  let p3 := p2.1.mul p1.2 p2.2
  let p4 := p3.1.ensure_one_var
  let p5 := p4.1.sub p4.2 p3.2
  let p6 := p5.1.ensure_zero_var
  let cs7 := p6.1.insert_mul_gate p1.2 p5.2 p6.2
  (cs7, p5.2, p3.2)

def TurboPlonkConstraintSystem.is_equal (cs : TPCS F) (left_var right_var : Nat) : TPCS F × Nat :=
  let p := cs.is_equal_or_not_equal left_var right_var
  (p.1, p.2.1)

def TurboPlonkConstraintSystem.is_not_equal (cs : TPCS F) (left_var right_var : Nat) : TPCS F × Nat :=
  let p := cs.is_equal_or_not_equal left_var right_var
  (p.1, p.2.2)

/-- insert_constant_gate: wo = constant, all five wires bound to var. -/
def TurboPlonkConstraintSystem.insert_constant_gate (cs : TPCS F) (var : Nat) (constant : F) : TPCS F :=
  let cs1 := cs.push_add_selectors 0 0 0 0
  let cs2 := cs1.push_mul_selectors 0 0
  let cs3 := cs2.push_constant_selector constant
  let cs4 := cs3.push_ecc_selector 0
  let cs5 := cs4.push_rescue_selectors 0 0 0 0
  let cs6 := cs5.push_out_selector 1
  let wr := pushAt (pushAt (pushAt (pushAt (pushAt cs6.wiring 0 var) 1 var) 2 var) 3 var) 4 var
  let cs7 := { cs6 with wiring := wr }
  { cs7 with size := cs7.size + 1 }

/-- prepare_io_variable: record the binding (next row, var), then insert a
constant-zero gate. -/
def TurboPlonkConstraintSystem.prepare_io_variable (cs : TPCS F) (var : Nat) : TPCS F :=
  let cs1 := { cs with
    public_vars_witness_indices := cs.public_vars_witness_indices ++ [var]
    public_vars_constraint_indices := cs.public_vars_constraint_indices ++ [cs.size] }
  cs1.insert_constant_gate var 0

/-- usize::next_power_of_two: the smallest power of two that is >= n
(1 when n = 0). -/
def nextPowerOfTwo (n : Nat) : Nat := 2 ^ Nat.clog 2 n

/-- pad: extend every selector column with zeros and every wiring column with
index 0 up to the next power of two. -/
def TurboPlonkConstraintSystem.pad (cs : TPCS F) : TPCS F :=
  let n := nextPowerOfTwo cs.size
  let diff := n - cs.size
  { cs with
    selectors := cs.selectors.map (fun c => c ++ List.replicate diff 0)
    wiring := cs.wiring.map (fun c => c ++ List.replicate diff 0)
    size := cs.size + diff }

/-- eval_gate_func.  The sum is written in the exact add_assign order of the
source; the length guard mirrors the FuncParamsError branch. -/
def eval_gate_func (wire_vals sel_vals : List F) (pub_input : F) : Option F :=
  if wire_vals.length ≠ N_WIRES_PER_GATE ∨ sel_vals.length ≠ N_SELECTORS then none
  else
    let w : Nat → F := fun i => wire_vals.getD i 0
    let q : Nat → F := fun i => sel_vals.getD i 0
    some (q 0 * w 0 + q 1 * w 1 + q 2 * w 2 + q 3 * w 3
      + q 4 * (w 0 * w 1) + q 5 * (w 2 * w 3)
      + q 7 * w 0 * w 1 * w 2 * w 3 * w 4
      + q 8 * w 0 ^ 5 + q 9 * w 1 ^ 5 + q 10 * w 2 ^ 5 + q 11 * w 3 ^ 5
      + (q 6 + pub_input) - q 12 * w 4)

/-- eval_selector_multipliers.  The guard is the source's strict-less check. -/
def eval_selector_multipliers (wire_vals : List F) : Option (List F) :=
  if wire_vals.length < N_WIRES_PER_GATE then none
  else
    let w : Nat → F := fun i => wire_vals.getD i 0
    some [w 0, w 1, w 2, w 3, w 0 * w 1, w 2 * w 3, 1,
      w 0 * w 1 * w 2 * w 3 * w 4,
      w 0 ^ 5, w 1 ^ 5, w 2 ^ 5, w 3 ^ 5, -(w 4)]

/-- One step of the verifier's linear scan over the zipped public-input
bindings: on a row match, record the online value and fail if the witness at
the bound variable disagrees. -/
def scanStep (witness : List F) (cs_index : Nat) :
    Except String F → (Nat × Nat) × F → Except String F :=
  fun acc p =>
    match acc with
    | Except.error e => Except.error e
    | Except.ok po =>
        if p.1.1 = cs_index then
          if witness.getD p.1.2 0 ≠ p.2 then
            Except.error "online var does not match witness"
          else Except.ok p.2
        else Except.ok po

def publicOnlineScan (bindings : List ((Nat × Nat) × F)) (witness : List F)
    (cs_index : Nat) : Except String F :=
  bindings.foldl (scanStep witness cs_index) (Except.ok 0)

/-- The zipped bindings list the verifier scans:
constraint indices zip witness indices zip online values. -/
def TurboPlonkConstraintSystem.bindingsWith (cs : TPCS F) (online_vars : List F) :
    List ((Nat × Nat) × F) :=
  (cs.public_vars_constraint_indices.zip cs.public_vars_witness_indices).zip online_vars

/-- The five wire values of row j looked up in a witness vector. -/
def TurboPlonkConstraintSystem.wire_vals_at (cs : TPCS F) (witness : List F) (j : Nat) : List F :=
  [witness.getD (cs.get_witness_index 0 j) 0,
   witness.getD (cs.get_witness_index 1 j) 0,
   witness.getD (cs.get_witness_index 2 j) 0,
   witness.getD (cs.get_witness_index 3 j) 0,
   witness.getD (cs.get_witness_index 4 j) 0]

/-- The 13 selector values of row j. -/
def TurboPlonkConstraintSystem.sel_vals_at (cs : TPCS F) (j : Nat) : List F :=
  (List.range N_SELECTORS).map (fun i => (cs.selectors.getD i []).getD j 0)

/-- The verifier's per-row loop. -/
def TurboPlonkConstraintSystem.check_rows (cs : TPCS F) (witness online_vars : List F) :
    List Nat → Except String Unit
  | [] => Except.ok ()
  | j :: rest =>
      match publicOnlineScan (cs.bindingsWith online_vars) witness j with
      | Except.error e => Except.error e
      | Except.ok po =>
          match eval_gate_func (cs.wire_vals_at witness j) (cs.sel_vals_at j) po with
          | none => Except.error "wrong func params for eval_gate_func"
          | some r =>
              if r = 0 then cs.check_rows witness online_vars rest
              else Except.error "gate equation not satisfied"

/-- verify_witness. -/
def TurboPlonkConstraintSystem.verify_witness (cs : TPCS F) (witness online_vars : List F) :
    Except String Unit :=
  if witness.length ≠ cs.num_vars then Except.error "witness length mismatch"
  else if online_vars.length ≠ cs.public_vars_witness_indices.length ∨
      online_vars.length ≠ cs.public_vars_constraint_indices.length then
    Except.error "wrong number of online variables"
  else cs.check_rows witness online_vars (List.range cs.size)

def isOkE : Except String Unit → Bool
  | Except.ok _ => true
  | Except.error _ => false

/-- The canonical natural-number representative that Scalar::to_bytes
serializes (little-endian); casting it back yields the element. -/
class ScalarVal (F : Type) [Field F] where
  val : F → Nat
  natCast_val : ∀ x : F, (val x : F) = x

instance (p : Nat) [Fact p.Prime] : ScalarVal (ZMod p) where
  val := ZMod.val
  natCast_val := fun x => by
    haveI : NeZero p := ⟨(Fact.out : p.Prime).ne_zero⟩
    exact ZMod.natCast_rightInverse x

/-- compute_binary_le applied to to_bytes of a value with canonical
representative x, padded with zeros and truncated to n bits: bit i is
testBit x i rendered as a field element. -/
def compute_binary_le (F : Type) [Field F] (x n : Nat) : List F :=
  (List.range n).map (fun i => if x.testBit i then 1 else 0)

/-- Allocate one new variable per value, in order (the map over new_variable
inside range_check). -/
def TurboPlonkConstraintSystem.new_variables (cs : TPCS F) : List F → TPCS F × List Nat
  | [] => (cs, [])
  | v :: rest =>
      let p := cs.new_variable v
      let q := p.1.new_variables rest
      (q.1, p.2 :: q.2)

/-- range_check: allocate and boolean-constrain the n_bits little-endian bits,
fold them radix-8 from the most significant end, and close with a final
linear-combination gate whose output wire is var itself. -/
def TurboPlonkConstraintSystem.range_check [ScalarVal F] (cs : TPCS F)
    (var n_bits : Nat) : TPCS F × List Nat :=
  let binary_repr : List F := compute_binary_le F (ScalarVal.val (cs.witAt var)) n_bits
  let pb := cs.new_variables binary_repr
  let b := pb.2
  let cs2 := b.foldl (fun c e => c.insert_boolean_gate e) pb.1
  let m := (n_bits - 2) / 3
  let q := (List.range m).foldl
    (fun (st : TPCS F × Nat) i =>
      st.1.linear_combine st.2
        (b.getD (n_bits - 1 - i * 3 - 1) 0)
        (b.getD (n_bits - 1 - i * 3 - 2) 0)
        (b.getD (n_bits - 1 - i * 3 - 3) 0) 8 4 2 1)
    (cs2, b.getD (n_bits - 1) 0)
  let cs4 :=
    match n_bits - 1 - 3 * m with
    | 1 => q.1.insert_lc_gate q.2 (b.getD 0 0) 0 0 var 2 1 0 0
    | 2 => q.1.insert_lc_gate q.2 (b.getD 1 0) (b.getD 0 0) 0 var 4 2 1 0
    | _ => q.1.insert_lc_gate q.2 (b.getD 2 0) (b.getD 1 0) (b.getD 0 0) var 8 4 2 1
  (cs4, b)

/- ---------------------------------------------------------------- -/
/- List helper lemmas.                                              -/
/- ---------------------------------------------------------------- -/

lemma pushAt_length {α : Type} (cols : List (List α)) (i : Nat) (x : α) :
    (pushAt cols i x).length = cols.length := by
  induction cols generalizing i with
  | nil => cases i <;> rfl
  | cons c cols ih => cases i <;> simp [pushAt, ih]

lemma getD_pushAt_ne {α : Type} (cols : List (List α)) (i j : Nat) (x : α) (h : j ≠ i) :
    (pushAt cols i x).getD j [] = cols.getD j [] := by
  induction cols generalizing i j with
  | nil => cases i <;> rfl
  | cons c cols ih =>
      cases i with
      | zero =>
          cases j with
          | zero => exact absurd rfl h
          | succ j => simp [pushAt]
      | succ i =>
          cases j with
          | zero => simp [pushAt]
          | succ j => simpa [pushAt] using ih i j (by omega)

lemma getD_pushAt_eq {α : Type} (cols : List (List α)) (i : Nat) (x : α)
    (h : i < cols.length) : (pushAt cols i x).getD i [] = cols.getD i [] ++ [x] := by
  induction cols generalizing i with
  | nil => simp at h
  | cons c cols ih =>
      cases i with
      | zero => simp [pushAt]
      | succ i => simpa [pushAt] using ih i (by simpa using h)

lemma getD_append_lt {α : Type} (l r : List α) (d : α) (j : Nat) (h : j < l.length) :
    (l ++ r).getD j d = l.getD j d := by
  induction l generalizing j with
  | nil => simp at h
  | cons a l ih =>
      cases j with
      | zero => simp
      | succ j => simpa using ih j (by simpa using h)

lemma getD_append_len {α : Type} (l : List α) (x d : α) :
    (l ++ [x]).getD l.length d = x := by
  induction l with
  | nil => rfl
  | cons a l ih => simpa using ih

lemma getD_of_le {α : Type} (l : List α) (d : α) {j : Nat} (h : l.length ≤ j) :
    l.getD j d = d := by
  induction l generalizing j with
  | nil => rfl
  | cons a l ih =>
      cases j with
      | zero => simp at h
      | succ j => simpa using ih (by simpa using h)

lemma getD_replicate_self {α : Type} (m j : Nat) (z : α) :
    (List.replicate m z).getD j z = z := by
  induction m generalizing j with
  | zero => rfl
  | succ m ih =>
      cases j with
      | zero => rfl
      | succ j => simpa [List.replicate] using ih j

lemma getD_append_replicate_self {α : Type} (l : List α) (m j : Nat) (z : α) :
    (l ++ List.replicate m z).getD j z = l.getD j z := by
  induction l generalizing j with
  | nil => simpa using getD_replicate_self m j z
  | cons a l ih =>
      cases j with
      | zero => rfl
      | succ j => simpa using ih j

lemma getD_map_lt {α β : Type} (f : α → β) (l : List α) (i : Nat) (d : β) (d' : α)
    (h : i < l.length) : (l.map f).getD i d = f (l.getD i d') := by
  rw [List.getD_eq_getElem _ _ (by simpa using h), List.getD_eq_getElem _ _ h]
  simp

lemma getD_mem_of_lt {α : Type} (l : List α) (i : Nat) (d : α) (h : i < l.length) :
    l.getD i d ∈ l := by
  rw [List.getD_eq_getElem _ _ h]
  exact List.getElem_mem h

lemma getD_range' (s n k : Nat) (h : k < n) : (List.range' s n).getD k 0 = s + k := by
  induction n generalizing s k with
  | zero => omega
  | succ n ih =>
      cases k with
      | zero => simp [List.range']
      | succ k =>
          have h2 := ih (s + 1) k (by omega)
          calc (List.range' s (n + 1)).getD (k + 1) 0
              = (List.range' (s + 1) n).getD k 0 := by simp [List.range']
            _ = s + 1 + k := h2
            _ = s + (k + 1) := by omega

/- ---------------------------------------------------------------- -/
/- C1 and C3: the gate equation and the selector multipliers.       -/
/- ---------------------------------------------------------------- -/

lemma eval_gate_func_cons (w1 w2 w3 w4 wo q1 q2 q3 q4 qm1 qm2 qc qecc qh1 qh2 qh3 qh4 qo PI : F) :
    eval_gate_func [w1, w2, w3, w4, wo]
        [q1, q2, q3, q4, qm1, qm2, qc, qecc, qh1, qh2, qh3, qh4, qo] PI
      = some (q1 * w1 + q2 * w2 + q3 * w3 + q4 * w4
          + qm1 * (w1 * w2) + qm2 * (w3 * w4)
          + qecc * w1 * w2 * w3 * w4 * wo
          + qh1 * w1 ^ 5 + qh2 * w2 ^ 5 + qh3 * w3 ^ 5 + qh4 * w4 ^ 5
          + (qc + PI) - qo * wo) := rfl

lemma eval_gate_func_wrong_len (ws qs : List F) (PI : F)
    (h : ws.length ≠ 5 ∨ qs.length ≠ 13) : eval_gate_func ws qs PI = none := by
  unfold eval_gate_func
  rw [if_pos]
  simpa [N_WIRES_PER_GATE, N_SELECTORS] using h

/-- C1: on exactly 5 wire values and 13 selector values, eval_gate_func
returns Ok of the gate polynomial
q1*w1 + q2*w2 + q3*w3 + q4*w4 + qm1*(w1*w2) + qm2*(w3*w4) + qc + PI
+ qecc*(w1*w2*w3*w4*wo) + qh1*w1^5 + qh2*w2^5 + qh3*w3^5 + qh4*w4^5 - qo*wo
(the row being satisfied means this value is zero), and on any other input
lengths it returns an error. -/
theorem C1_eval_gate_func
    (w1 w2 w3 w4 wo q1 q2 q3 q4 qm1 qm2 qc qecc qh1 qh2 qh3 qh4 qo PI : F) :
    eval_gate_func [w1, w2, w3, w4, wo]
        [q1, q2, q3, q4, qm1, qm2, qc, qecc, qh1, qh2, qh3, qh4, qo] PI
      = some (q1 * w1 + q2 * w2 + q3 * w3 + q4 * w4
          + qm1 * (w1 * w2) + qm2 * (w3 * w4) + qc + PI
          + qecc * (w1 * w2 * w3 * w4 * wo)
          + qh1 * w1 ^ 5 + qh2 * w2 ^ 5 + qh3 * w3 ^ 5 + qh4 * w4 ^ 5
          - qo * wo)
    ∧ ∀ ws qs : List F, ws.length ≠ 5 ∨ qs.length ≠ 13 →
        eval_gate_func ws qs PI = none := by
  constructor
  · rw [eval_gate_func_cons]
    exact congrArg some (by ring)
  · intro ws qs h
    exact eval_gate_func_wrong_len ws qs PI h

instance : Fact (Nat.Prime 11) := ⟨by norm_num⟩

/-- C1 witness: concrete instances of both conjuncts over ZMod 11. -/
theorem C1_eval_gate_func_witness :
    eval_gate_func (F := ZMod 11) [1, 2, 3, 4, 5]
        [1, 1, 1, 1, 1, 1, 1, 1, 1, 1, 1, 1, 1] 0
      = some (1 * 1 + 1 * 2 + 1 * 3 + 1 * 4 + 1 * (1 * 2) + 1 * (3 * 4) + 1 + 0
          + 1 * (1 * 2 * 3 * 4 * 5)
          + 1 * 1 ^ 5 + 1 * 2 ^ 5 + 1 * 3 ^ 5 + 1 * 4 ^ 5 - 1 * 5)
    ∧ eval_gate_func (F := ZMod 11) [] [] 0 = none := by
  refine ⟨(C1_eval_gate_func 1 2 3 4 5 1 1 1 1 1 1 1 1 1 1 1 1 1 0).1, ?_⟩
  exact (C1_eval_gate_func (F := ZMod 11) 1 2 3 4 5 1 1 1 1 1 1 1 1 1 1 1 1 1 0).2
    [] [] (by decide)

/-- C3: eval_selector_multipliers on 5 wire values returns exactly
[w1, w2, w3, w4, w1*w2, w3*w4, 1, w1*w2*w3*w4*wo, w1^5, w2^5, w3^5, w4^5, -wo],
and the gate equation equals the selector-wise inner product with this vector
plus the public input. -/
theorem C3_eval_selector_multipliers
    (w1 w2 w3 w4 wo q1 q2 q3 q4 qm1 qm2 qc qecc qh1 qh2 qh3 qh4 qo PI : F) :
    eval_selector_multipliers [w1, w2, w3, w4, wo]
      = some [w1, w2, w3, w4, w1 * w2, w3 * w4, 1, w1 * w2 * w3 * w4 * wo,
          w1 ^ 5, w2 ^ 5, w3 ^ 5, w4 ^ 5, -wo]
    ∧ eval_gate_func [w1, w2, w3, w4, wo]
        [q1, q2, q3, q4, qm1, qm2, qc, qecc, qh1, qh2, qh3, qh4, qo] PI
      = some ((List.zipWith (fun q c => q * c)
          [q1, q2, q3, q4, qm1, qm2, qc, qecc, qh1, qh2, qh3, qh4, qo]
          [w1, w2, w3, w4, w1 * w2, w3 * w4, 1, w1 * w2 * w3 * w4 * wo,
            w1 ^ 5, w2 ^ 5, w3 ^ 5, w4 ^ 5, -wo]).sum + PI) := by
  constructor
  · rfl
  · rw [eval_gate_func_cons]
    exact congrArg some (by simp [List.sum_cons]; ring)

/- ---------------------------------------------------------------- -/
/- Well-formedness invariants and row satisfaction.                 -/
/- ---------------------------------------------------------------- -/

/-- The Constraint Matrix invariant: 13 selector columns and 5 wiring
columns, every column of length exactly size, every wire entry a valid
witness index. -/
abbrev MatrixInv (cs : TPCS F) : Prop :=
  cs.selectors.length = 13 ∧ cs.wiring.length = 5 ∧
  (∀ col ∈ cs.selectors, col.length = cs.size) ∧
  (∀ col ∈ cs.wiring, col.length = cs.size) ∧
  (∀ col ∈ cs.wiring, ∀ v ∈ col, v < cs.num_vars)

/-- Witness-store consistency: length and the cached zero and one variables. -/
abbrev VarsInv (cs : TPCS F) : Prop :=
  cs.witness.length = cs.num_vars ∧
  (match cs.zero_var with
   | none => True
   | some z => z < cs.num_vars ∧ cs.witAt z = 0) ∧
  (match cs.one_var with
   | none => True
   | some o => o < cs.num_vars ∧ cs.witAt o = 1)

abbrev WellFormed (cs : TPCS F) : Prop := MatrixInv cs ∧ VarsInv cs

/-- Row j is satisfied by witness w under public contribution pi. -/
abbrev rowSatisfied (cs : TPCS F) (w : List F) (pi : F) (j : Nat) : Prop :=
  eval_gate_func (cs.wire_vals_at w j) (cs.sel_vals_at j) pi = some 0

/-- Every row satisfied with zero public contribution. -/
abbrev allRowsSatisfied (cs : TPCS F) (w : List F) : Prop :=
  ∀ j, j < cs.size → rowSatisfied cs w 0 j

abbrev GoodState (cs : TPCS F) : Prop := WellFormed cs ∧ allRowsSatisfied cs cs.witness

/- ---------------------------------------------------------------- -/
/- Structural characterization of the gate-inserting operations.    -/
/- ---------------------------------------------------------------- -/

lemma exists_len13 {α : Type} (l : List α) (h : l.length = 13) :
    ∃ x0 x1 x2 x3 x4 x5 x6 x7 x8 x9 x10 x11 x12,
      l = [x0, x1, x2, x3, x4, x5, x6, x7, x8, x9, x10, x11, x12] := by
  rcases l with _ | ⟨x0, rest0⟩; · simp at h
  rcases rest0 with _ | ⟨x1, rest1⟩; · simp at h
  rcases rest1 with _ | ⟨x2, rest2⟩; · simp at h
  rcases rest2 with _ | ⟨x3, rest3⟩; · simp at h
  rcases rest3 with _ | ⟨x4, rest4⟩; · simp at h
  rcases rest4 with _ | ⟨x5, rest5⟩; · simp at h
  rcases rest5 with _ | ⟨x6, rest6⟩; · simp at h
  rcases rest6 with _ | ⟨x7, rest7⟩; · simp at h
  rcases rest7 with _ | ⟨x8, rest8⟩; · simp at h
  rcases rest8 with _ | ⟨x9, rest9⟩; · simp at h
  rcases rest9 with _ | ⟨x10, rest10⟩; · simp at h
  rcases rest10 with _ | ⟨x11, rest11⟩; · simp at h
  rcases rest11 with _ | ⟨x12, rest12⟩; · simp at h
  rcases rest12 with _ | ⟨x13, rest13⟩
  · exact ⟨x0, x1, x2, x3, x4, x5, x6, x7, x8, x9, x10, x11, x12, rfl⟩
  · simp at h

lemma exists_len5 {α : Type} (l : List α) (h : l.length = 5) :
    ∃ y0 y1 y2 y3 y4, l = [y0, y1, y2, y3, y4] := by
  rcases l with _ | ⟨y0, tail0⟩; · simp at h
  rcases tail0 with _ | ⟨y1, tail1⟩; · simp at h
  rcases tail1 with _ | ⟨y2, tail2⟩; · simp at h
  rcases tail2 with _ | ⟨y3, tail3⟩; · simp at h
  rcases tail3 with _ | ⟨y4, tail4⟩; · simp at h
  rcases tail4 with _ | ⟨y5, tail5⟩
  · exact ⟨y0, y1, y2, y3, y4, rfl⟩
  · simp at h

set_option maxHeartbeats 1000000 in
lemma pushSelRow_getD (sels : List (List F)) (hs : sels.length = 13)
    (a1 a2 a3 a4 m1 m2 c e r1 r2 r3 r4 o : F) (i : Nat) (hi : i < 13) :
    (pushAt (pushAt (pushAt (pushAt (pushAt (pushAt (pushAt (pushAt (pushAt (pushAt
      (pushAt (pushAt (pushAt sels 0 a1) 1 a2) 2 a3) 3 a4) 4 m1) 5 m2) 6 c) 7 e)
      8 r1) 9 r2) 10 r3) 11 r4) 12 o).getD i []
      = sels.getD i []
        ++ [([a1, a2, a3, a4, m1, m2, c, e, r1, r2, r3, r4, o] : List F).getD i 0] := by
  obtain ⟨s0, s1, s2, s3, s4, s5, s6, s7, s8, s9, s10, s11, s12, rfl⟩ := exists_len13 sels hs
  interval_cases i <;> rfl

lemma pushAllSelectors_getD (cs : TPCS F) (hs : cs.selectors.length = 13)
    (a1 a2 a3 a4 m1 m2 c e r1 r2 r3 r4 o : F) (i : Nat) (hi : i < 13) :
    ((((((cs.push_add_selectors a1 a2 a3 a4).push_mul_selectors m1
        m2).push_constant_selector c).push_ecc_selector e).push_rescue_selectors r1 r2 r3
        r4).push_out_selector o).selectors.getD i []
      = cs.selectors.getD i []
        ++ [([a1, a2, a3, a4, m1, m2, c, e, r1, r2, r3, r4, o] : List F).getD i 0] :=
  pushSelRow_getD cs.selectors hs a1 a2 a3 a4 m1 m2 c e r1 r2 r3 r4 o i hi

lemma pushAllSelectors_length (cs : TPCS F) (a1 a2 a3 a4 m1 m2 c e r1 r2 r3 r4 o : F) :
    ((((((cs.push_add_selectors a1 a2 a3 a4).push_mul_selectors m1
        m2).push_constant_selector c).push_ecc_selector e).push_rescue_selectors r1 r2 r3
        r4).push_out_selector o).selectors.length = cs.selectors.length := by
  simp [TurboPlonkConstraintSystem.push_add_selectors,
    TurboPlonkConstraintSystem.push_mul_selectors,
    TurboPlonkConstraintSystem.push_constant_selector,
    TurboPlonkConstraintSystem.push_ecc_selector,
    TurboPlonkConstraintSystem.push_rescue_selectors,
    TurboPlonkConstraintSystem.push_out_selector, pushAt_length]

lemma pushWiringRow_getD (ws : List (List Nat)) (hw : ws.length = 5)
    (a b c d e : Nat) (i : Nat) (hi : i < 5) :
    (pushAt (pushAt (pushAt (pushAt (pushAt ws 0 a) 1 b) 2 c) 3 d) 4 e).getD i []
      = ws.getD i [] ++ [([a, b, c, d, e] : List Nat).getD i 0] := by
  obtain ⟨w0, w1, w2, w3, w4, rfl⟩ := exists_len5 ws hw
  interval_cases i <;> rfl

lemma pushWiringRow_length (ws : List (List Nat)) (a b c d e : Nat) :
    (pushAt (pushAt (pushAt (pushAt (pushAt ws 0 a) 1 b) 2 c) 3 d) 4 e).length
      = ws.length := by
  simp [pushAt_length]

lemma forall_mem_iff_getD {α : Type} (l : List α) (d : α) (P : α → Prop) :
    (∀ x ∈ l, P x) ↔ ∀ i, i < l.length → P (l.getD i d) := by
  constructor
  · intro h i hi
    exact h _ (getD_mem_of_lt l i d hi)
  · intro h x hx
    obtain ⟨i, hi, rfl⟩ := List.mem_iff_getElem.mp hx
    have := h i hi
    rwa [List.getD_eq_getElem _ _ hi] at this

lemma range_map_getD {α : Type} (l : List α) (d : α) :
    (List.range l.length).map (fun i => l.getD i d) = l := by
  apply List.ext_getElem
  · simp
  · intro i h1 h2
    simp [List.getElem?_eq_getElem h2]

/-- cs2 is cs with one fully formed gate row appended: selector row selRow,
wire row wRow, size bumped. -/
def IsGatePush (cs cs2 : TPCS F) (selRow : List F) (wRow : List Nat) : Prop :=
  (∀ i, i < 13 → cs2.selectors.getD i [] = cs.selectors.getD i [] ++ [selRow.getD i 0]) ∧
  (∀ i, i < 5 → cs2.wiring.getD i [] = cs.wiring.getD i [] ++ [wRow.getD i 0]) ∧
  cs2.selectors.length = cs.selectors.length ∧
  cs2.wiring.length = cs.wiring.length ∧
  cs2.size = cs.size + 1

lemma IsGatePush.sel_vals_at_lt {cs cs2 : TPCS F} {selRow : List F} {wRow : List Nat}
    (h : IsGatePush cs cs2 selRow wRow) (hs : cs.selectors.length = 13)
    (hlen : ∀ col ∈ cs.selectors, col.length = cs.size)
    (j : Nat) (hj : j < cs.size) : cs2.sel_vals_at j = cs.sel_vals_at j := by
  unfold TurboPlonkConstraintSystem.sel_vals_at
  apply List.map_congr_left
  intro i hi
  have hi13 : i < 13 := by simpa [N_SELECTORS] using List.mem_range.mp hi
  rw [h.1 i hi13]
  exact getD_append_lt _ _ _ _ (by
    rw [hlen _ (getD_mem_of_lt cs.selectors i [] (by omega))]
    exact hj)

lemma IsGatePush.sel_vals_at_new {cs cs2 : TPCS F} {selRow : List F} {wRow : List Nat}
    (h : IsGatePush cs cs2 selRow wRow) (hs : cs.selectors.length = 13)
    (hlen : ∀ col ∈ cs.selectors, col.length = cs.size)
    (hrow : selRow.length = 13) : cs2.sel_vals_at cs.size = selRow := by
  unfold TurboPlonkConstraintSystem.sel_vals_at
  have : ∀ i ∈ List.range N_SELECTORS,
      (cs2.selectors.getD i []).getD cs.size 0 = selRow.getD i 0 := by
    intro i hi
    have hi13 : i < 13 := by simpa [N_SELECTORS] using List.mem_range.mp hi
    rw [h.1 i hi13]
    have hcol : (cs.selectors.getD i []).length = cs.size :=
      hlen _ (getD_mem_of_lt cs.selectors i [] (by omega))
    rw [← hcol, getD_append_len]
  rw [List.map_congr_left this]
  have h13 : N_SELECTORS = selRow.length := by simp [N_SELECTORS, hrow]
  rw [h13, range_map_getD]

lemma IsGatePush.wire_lt {cs cs2 : TPCS F} {selRow : List F} {wRow : List Nat}
    (h : IsGatePush cs cs2 selRow wRow) (hw : cs.wiring.length = 5)
    (hlen : ∀ col ∈ cs.wiring, col.length = cs.size)
    (i j : Nat) (hi : i < 5) (hj : j < cs.size) :
    cs2.get_witness_index i j = cs.get_witness_index i j := by
  unfold TurboPlonkConstraintSystem.get_witness_index
  rw [h.2.1 i hi]
  exact getD_append_lt _ _ _ _ (by
    rw [hlen _ (getD_mem_of_lt cs.wiring i [] (by omega))]
    exact hj)

lemma IsGatePush.wire_new {cs cs2 : TPCS F} {selRow : List F} {wRow : List Nat}
    (h : IsGatePush cs cs2 selRow wRow) (hw : cs.wiring.length = 5)
    (hlen : ∀ col ∈ cs.wiring, col.length = cs.size)
    (i : Nat) (hi : i < 5) :
    cs2.get_witness_index i cs.size = wRow.getD i 0 := by
  unfold TurboPlonkConstraintSystem.get_witness_index
  rw [h.2.1 i hi]
  have hcol : (cs.wiring.getD i []).length = cs.size :=
    hlen _ (getD_mem_of_lt cs.wiring i [] (by omega))
  rw [← hcol, getD_append_len]

lemma IsGatePush.wire_vals_at_lt {cs cs2 : TPCS F} {selRow : List F} {wRow : List Nat}
    (h : IsGatePush cs cs2 selRow wRow) (hw : cs.wiring.length = 5)
    (hlen : ∀ col ∈ cs.wiring, col.length = cs.size)
    (w : List F) (j : Nat) (hj : j < cs.size) :
    cs2.wire_vals_at w j = cs.wire_vals_at w j := by
  unfold TurboPlonkConstraintSystem.wire_vals_at
  rw [h.wire_lt hw hlen 0 j (by omega) hj, h.wire_lt hw hlen 1 j (by omega) hj,
    h.wire_lt hw hlen 2 j (by omega) hj, h.wire_lt hw hlen 3 j (by omega) hj,
    h.wire_lt hw hlen 4 j (by omega) hj]

lemma IsGatePush.rowSatisfied_lt {cs cs2 : TPCS F} {selRow : List F} {wRow : List Nat}
    (h : IsGatePush cs cs2 selRow wRow) (hM : MatrixInv cs)
    (w : List F) (pi : F) (j : Nat) (hj : j < cs.size) :
    rowSatisfied cs2 w pi j ↔ rowSatisfied cs w pi j := by
  unfold rowSatisfied
  rw [h.wire_vals_at_lt hM.2.1 hM.2.2.2.1 w j hj, h.sel_vals_at_lt hM.1 hM.2.2.1 j hj]

lemma IsGatePush.wire_vals_at_new {cs cs2 : TPCS F} {selRow : List F} {wRow : List Nat}
    (h : IsGatePush cs cs2 selRow wRow) (hM : MatrixInv cs) (w : List F) :
    cs2.wire_vals_at w cs.size
      = [w.getD (wRow.getD 0 0) 0, w.getD (wRow.getD 1 0) 0, w.getD (wRow.getD 2 0) 0,
         w.getD (wRow.getD 3 0) 0, w.getD (wRow.getD 4 0) 0] := by
  unfold TurboPlonkConstraintSystem.wire_vals_at
  rw [h.wire_new hM.2.1 hM.2.2.2.1 0 (by omega), h.wire_new hM.2.1 hM.2.2.2.1 1 (by omega),
    h.wire_new hM.2.1 hM.2.2.2.1 2 (by omega), h.wire_new hM.2.1 hM.2.2.2.1 3 (by omega),
    h.wire_new hM.2.1 hM.2.2.2.1 4 (by omega)]

lemma IsGatePush.matrixInv {cs cs2 : TPCS F} {selRow : List F} {wRow : List Nat}
    (h : IsGatePush cs cs2 selRow wRow) (hM : MatrixInv cs)
    (hrl : wRow.length = 5)
    (hmono : cs.num_vars ≤ cs2.num_vars)
    (hwr : ∀ v ∈ wRow, v < cs2.num_vars) : MatrixInv cs2 := by
  obtain ⟨hs, hw, hsl, hwl, hwb⟩ := hM
  refine ⟨h.2.2.1.trans hs, h.2.2.2.1.trans hw, ?_, ?_, ?_⟩
  · rw [forall_mem_iff_getD _ ([] : List F)]
    intro i hi
    have hi13 : i < 13 := by rw [h.2.2.1, hs] at hi; exact hi
    rw [h.1 i hi13, h.2.2.2.2]
    have hcol : (cs.selectors.getD i []).length = cs.size :=
      hsl _ (getD_mem_of_lt cs.selectors i [] (by omega))
    simp only [List.length_append, List.length_cons, List.length_nil, hcol]
  · rw [forall_mem_iff_getD _ ([] : List Nat)]
    intro i hi
    have hi5 : i < 5 := by rw [h.2.2.2.1, hw] at hi; exact hi
    rw [h.2.1 i hi5, h.2.2.2.2]
    have hcol : (cs.wiring.getD i []).length = cs.size :=
      hwl _ (getD_mem_of_lt cs.wiring i [] (by omega))
    simp only [List.length_append, List.length_cons, List.length_nil, hcol]
  · rw [forall_mem_iff_getD _ ([] : List Nat)]
    intro i hi
    have hi5 : i < 5 := by rw [h.2.2.2.1, hw] at hi; exact hi
    rw [h.2.1 i hi5]
    intro v hv
    rcases List.mem_append.mp hv with hv | hv
    · exact lt_of_lt_of_le (hwb _ (getD_mem_of_lt cs.wiring i [] (by omega)) v hv) hmono
    · have hveq : v = wRow.getD i 0 := by simpa using hv
      subst hveq
      exact hwr _ (getD_mem_of_lt wRow i 0 (by omega))

lemma IsGatePush.allRows_push {cs cs2 : TPCS F} {selRow : List F} {wRow : List Nat}
    (h : IsGatePush cs cs2 selRow wRow) (hM : MatrixInv cs) (w : List F)
    (hall : ∀ j, j < cs.size → rowSatisfied cs w 0 j)
    (hnew : rowSatisfied cs2 w 0 cs.size) :
    ∀ j, j < cs2.size → rowSatisfied cs2 w 0 j := by
  intro j hj
  rw [h.2.2.2.2] at hj
  rcases Nat.lt_or_ge j cs.size with hlt | hge
  · exact (h.rowSatisfied_lt hM w 0 j hlt).mpr (hall j hlt)
  · have : j = cs.size := by omega
    subst this
    exact hnew

lemma IsGatePush.rowSatisfied_new_iff {cs cs2 : TPCS F} {selRow : List F} {wRow : List Nat}
    (h : IsGatePush cs cs2 selRow wRow) (hM : MatrixInv cs)
    (hrow : selRow.length = 13) (w : List F) (pi : F) :
    rowSatisfied cs2 w pi cs.size ↔
      eval_gate_func [w.getD (wRow.getD 0 0) 0, w.getD (wRow.getD 1 0) 0,
        w.getD (wRow.getD 2 0) 0, w.getD (wRow.getD 3 0) 0,
        w.getD (wRow.getD 4 0) 0] selRow pi = some 0 := by
  unfold rowSatisfied
  rw [h.wire_vals_at_new hM w, h.sel_vals_at_new hM.1 hM.2.2.1 hrow]

/- Per-operation gate-push instances. -/

lemma insert_lc_gate_isGatePush (cs : TPCS F) (hs : cs.selectors.length = 13)
    (hw : cs.wiring.length = 5) (w1 w2 w3 w4 wo : Nat) (q1 q2 q3 q4 : F) :
    IsGatePush cs (cs.insert_lc_gate w1 w2 w3 w4 wo q1 q2 q3 q4)
      [q1, q2, q3, q4, 0, 0, 0, 0, 0, 0, 0, 0, 1] [w1, w2, w3, w4, wo] := by
  refine ⟨fun i hi => ?_, fun i hi => ?_, ?_, ?_, rfl⟩
  · exact pushAllSelectors_getD cs hs q1 q2 q3 q4 0 0 0 0 0 0 0 0 1 i hi
  · exact pushWiringRow_getD cs.wiring hw w1 w2 w3 w4 wo i hi
  · exact pushAllSelectors_length cs q1 q2 q3 q4 0 0 0 0 0 0 0 0 1
  · exact pushWiringRow_length cs.wiring w1 w2 w3 w4 wo

lemma insert_mul_gate_isGatePush (cs : TPCS F) (hs : cs.selectors.length = 13)
    (hw : cs.wiring.length = 5) (l r o : Nat) :
    IsGatePush cs (cs.insert_mul_gate l r o)
      [0, 0, 0, 0, 1, 0, 0, 0, 0, 0, 0, 0, 1] [l, r, 0, 0, o] := by
  refine ⟨fun i hi => ?_, fun i hi => ?_, ?_, ?_, rfl⟩
  · exact pushAllSelectors_getD cs hs 0 0 0 0 1 0 0 0 0 0 0 0 1 i hi
  · exact pushWiringRow_getD cs.wiring hw l r 0 0 o i hi
  · exact pushAllSelectors_length cs 0 0 0 0 1 0 0 0 0 0 0 0 1
  · exact pushWiringRow_length cs.wiring l r 0 0 o

lemma insert_constant_gate_isGatePush (cs : TPCS F) (hs : cs.selectors.length = 13)
    (hw : cs.wiring.length = 5) (v : Nat) (c : F) :
    IsGatePush cs (cs.insert_constant_gate v c)
      [0, 0, 0, 0, 0, 0, c, 0, 0, 0, 0, 0, 1] [v, v, v, v, v] := by
  refine ⟨fun i hi => ?_, fun i hi => ?_, ?_, ?_, rfl⟩
  · exact pushAllSelectors_getD cs hs 0 0 0 0 0 0 c 0 0 0 0 0 1 i hi
  · exact pushWiringRow_getD cs.wiring hw v v v v v i hi
  · exact pushAllSelectors_length cs 0 0 0 0 0 0 c 0 0 0 0 0 1
  · exact pushWiringRow_length cs.wiring v v v v v

set_option maxHeartbeats 1600000 in
lemma select_isGatePush (cs : TPCS F) (hs : cs.selectors.length = 13)
    (hw : cs.wiring.length = 5) (var0 var1 bit : Nat) :
    IsGatePush cs (cs.select var0 var1 bit).1
      [0, 1, 0, 0, -1, 1, 0, 0, 0, 0, 0, 0, 1] [bit, var0, bit, var1, cs.num_vars] := by
  refine ⟨fun i hi => ?_, fun i hi => ?_, ?_, ?_, rfl⟩
  · exact pushAllSelectors_getD cs hs 0 1 0 0 (-1) 1 0 0 0 0 0 0 1 i hi
  · exact pushWiringRow_getD cs.wiring hw bit var0 bit var1 cs.num_vars i hi
  · exact pushAllSelectors_length cs 0 1 0 0 (-1) 1 0 0 0 0 0 0 1
  · exact pushWiringRow_length cs.wiring bit var0 bit var1 cs.num_vars

/- Projection facts for the state-changing operations. -/

@[simp] lemma insert_lc_gate_num_vars (cs : TPCS F) (w1 w2 w3 w4 wo : Nat) (q1 q2 q3 q4 : F) :
    (cs.insert_lc_gate w1 w2 w3 w4 wo q1 q2 q3 q4).num_vars = cs.num_vars := rfl

@[simp] lemma insert_lc_gate_witness (cs : TPCS F) (w1 w2 w3 w4 wo : Nat) (q1 q2 q3 q4 : F) :
    (cs.insert_lc_gate w1 w2 w3 w4 wo q1 q2 q3 q4).witness = cs.witness := rfl

@[simp] lemma insert_lc_gate_size (cs : TPCS F) (w1 w2 w3 w4 wo : Nat) (q1 q2 q3 q4 : F) :
    (cs.insert_lc_gate w1 w2 w3 w4 wo q1 q2 q3 q4).size = cs.size + 1 := rfl

@[simp] lemma insert_lc_gate_pubc (cs : TPCS F) (w1 w2 w3 w4 wo : Nat) (q1 q2 q3 q4 : F) :
    (cs.insert_lc_gate w1 w2 w3 w4 wo q1 q2 q3 q4).public_vars_constraint_indices
      = cs.public_vars_constraint_indices := rfl

@[simp] lemma insert_lc_gate_pubw (cs : TPCS F) (w1 w2 w3 w4 wo : Nat) (q1 q2 q3 q4 : F) :
    (cs.insert_lc_gate w1 w2 w3 w4 wo q1 q2 q3 q4).public_vars_witness_indices
      = cs.public_vars_witness_indices := rfl

@[simp] lemma insert_lc_gate_zero_var (cs : TPCS F) (w1 w2 w3 w4 wo : Nat) (q1 q2 q3 q4 : F) :
    (cs.insert_lc_gate w1 w2 w3 w4 wo q1 q2 q3 q4).zero_var = cs.zero_var := rfl

@[simp] lemma insert_lc_gate_one_var (cs : TPCS F) (w1 w2 w3 w4 wo : Nat) (q1 q2 q3 q4 : F) :
    (cs.insert_lc_gate w1 w2 w3 w4 wo q1 q2 q3 q4).one_var = cs.one_var := rfl

@[simp] lemma insert_mul_gate_num_vars (cs : TPCS F) (l r o : Nat) :
    (cs.insert_mul_gate l r o).num_vars = cs.num_vars := rfl

@[simp] lemma insert_mul_gate_witness (cs : TPCS F) (l r o : Nat) :
    (cs.insert_mul_gate l r o).witness = cs.witness := rfl

@[simp] lemma insert_mul_gate_size (cs : TPCS F) (l r o : Nat) :
    (cs.insert_mul_gate l r o).size = cs.size + 1 := rfl

@[simp] lemma insert_mul_gate_pubc (cs : TPCS F) (l r o : Nat) :
    (cs.insert_mul_gate l r o).public_vars_constraint_indices
      = cs.public_vars_constraint_indices := rfl

@[simp] lemma insert_mul_gate_pubw (cs : TPCS F) (l r o : Nat) :
    (cs.insert_mul_gate l r o).public_vars_witness_indices
      = cs.public_vars_witness_indices := rfl

@[simp] lemma insert_mul_gate_zero_var (cs : TPCS F) (l r o : Nat) :
    (cs.insert_mul_gate l r o).zero_var = cs.zero_var := rfl

@[simp] lemma insert_mul_gate_one_var (cs : TPCS F) (l r o : Nat) :
    (cs.insert_mul_gate l r o).one_var = cs.one_var := rfl

@[simp] lemma insert_constant_gate_num_vars (cs : TPCS F) (v : Nat) (c : F) :
    (cs.insert_constant_gate v c).num_vars = cs.num_vars := rfl

@[simp] lemma insert_constant_gate_witness (cs : TPCS F) (v : Nat) (c : F) :
    (cs.insert_constant_gate v c).witness = cs.witness := rfl

@[simp] lemma insert_constant_gate_size (cs : TPCS F) (v : Nat) (c : F) :
    (cs.insert_constant_gate v c).size = cs.size + 1 := rfl

@[simp] lemma insert_constant_gate_pubc (cs : TPCS F) (v : Nat) (c : F) :
    (cs.insert_constant_gate v c).public_vars_constraint_indices
      = cs.public_vars_constraint_indices := rfl

@[simp] lemma insert_constant_gate_pubw (cs : TPCS F) (v : Nat) (c : F) :
    (cs.insert_constant_gate v c).public_vars_witness_indices
      = cs.public_vars_witness_indices := rfl

@[simp] lemma insert_constant_gate_zero_var (cs : TPCS F) (v : Nat) (c : F) :
    (cs.insert_constant_gate v c).zero_var = cs.zero_var := rfl

@[simp] lemma insert_constant_gate_one_var (cs : TPCS F) (v : Nat) (c : F) :
    (cs.insert_constant_gate v c).one_var = cs.one_var := rfl

@[simp] lemma select_num_vars (cs : TPCS F) (var0 var1 bit : Nat) :
    (cs.select var0 var1 bit).1.num_vars = cs.num_vars + 1 := rfl

@[simp] lemma select_witness (cs : TPCS F) (var0 var1 bit : Nat) :
    (cs.select var0 var1 bit).1.witness
      = cs.witness ++ [if cs.witAt bit = 0 then cs.witAt var0 else cs.witAt var1] := rfl

@[simp] lemma select_size (cs : TPCS F) (var0 var1 bit : Nat) :
    (cs.select var0 var1 bit).1.size = cs.size + 1 := rfl

@[simp] lemma select_out (cs : TPCS F) (var0 var1 bit : Nat) :
    (cs.select var0 var1 bit).2 = cs.num_vars := rfl

@[simp] lemma select_pubc (cs : TPCS F) (var0 var1 bit : Nat) :
    (cs.select var0 var1 bit).1.public_vars_constraint_indices
      = cs.public_vars_constraint_indices := rfl

@[simp] lemma select_pubw (cs : TPCS F) (var0 var1 bit : Nat) :
    (cs.select var0 var1 bit).1.public_vars_witness_indices
      = cs.public_vars_witness_indices := rfl

@[simp] lemma select_zero_var (cs : TPCS F) (var0 var1 bit : Nat) :
    (cs.select var0 var1 bit).1.zero_var = cs.zero_var := rfl

@[simp] lemma select_one_var (cs : TPCS F) (var0 var1 bit : Nat) :
    (cs.select var0 var1 bit).1.one_var = cs.one_var := rfl

@[simp] lemma new_variable_fst (cs : TPCS F) (v : F) :
    (cs.new_variable v).1
      = { cs with num_vars := cs.num_vars + 1, witness := cs.witness ++ [v] } := rfl

@[simp] lemma new_variable_snd (cs : TPCS F) (v : F) :
    (cs.new_variable v).2 = cs.num_vars := rfl

/- ---------------------------------------------------------------- -/
/- The verifier: scan and row-loop characterization, claim C2.      -/
/- ---------------------------------------------------------------- -/

/-- Every binding whose recorded constraint index equals row j has witness
value at its bound variable equal to its online value. -/
abbrev AllBindingsMatch (bindings : List ((Nat × Nat) × F)) (w : List F) (j : Nat) : Prop :=
  ∀ p ∈ bindings, p.1.1 = j → w.getD p.1.2 0 = p.2

/-- The public contribution the scan leaves for row j (the last matching
binding's online value; init when no binding matches). -/
def publicContributionFrom (bindings : List ((Nat × Nat) × F)) (j : Nat) (init : F) : F :=
  bindings.foldl (fun po p => if p.1.1 = j then p.2 else po) init

lemma scan_error_absorb (bindings : List ((Nat × Nat) × F)) (w : List F) (j : Nat) (e : String) :
    bindings.foldl (scanStep w j) (Except.error e) = Except.error e := by
  induction bindings with
  | nil => rfl
  | cons p rest ih => simpa [scanStep] using ih

lemma scan_eq (bindings : List ((Nat × Nat) × F)) (w : List F) (j : Nat) (init : F) :
    bindings.foldl (scanStep w j) (Except.ok init) =
      if AllBindingsMatch bindings w j
      then Except.ok (publicContributionFrom bindings j init)
      else Except.error "online var does not match witness" := by
  induction bindings generalizing init with
  | nil => simp [AllBindingsMatch, publicContributionFrom]
  | cons p rest ih =>
      simp only [List.foldl_cons, scanStep]
      by_cases hc : p.1.1 = j
      · rw [if_pos hc]
        by_cases hm : w.getD p.1.2 0 = p.2
        · rw [if_neg (by simpa using hm)]
          rw [ih p.2]
          have hA : AllBindingsMatch (p :: rest) w j ↔ AllBindingsMatch rest w j := by
            constructor
            · intro H q hq hqj
              exact H q (List.mem_cons_of_mem p hq) hqj
            · intro H q hq hqj
              rcases List.mem_cons.mp hq with rfl | hq2
              · exact hm
              · exact H q hq2 hqj
          have hP : publicContributionFrom (p :: rest) j init
              = publicContributionFrom rest j p.2 := by
            simp [publicContributionFrom, hc]
          simp only [hA, hP]
        · rw [if_pos (by simpa using hm), scan_error_absorb]
          rw [if_neg ?hna]
          case hna =>
            intro H
            exact hm (H p (by simp) hc)
      · rw [if_neg hc, ih init]
        have hA : AllBindingsMatch (p :: rest) w j ↔ AllBindingsMatch rest w j := by
          constructor
          · intro H q hq hqj
            exact H q (List.mem_cons_of_mem p hq) hqj
          · intro H q hq hqj
            rcases List.mem_cons.mp hq with rfl | hq2
            · exact absurd hqj hc
            · exact H q hq2 hqj
        have hP : publicContributionFrom (p :: rest) j init
            = publicContributionFrom rest j init := by
          simp [publicContributionFrom, hc]
        simp only [hA, hP]

lemma eval_gate_func_rows_some (cs : TPCS F) (w : List F) (j : Nat) (pi : F) :
    ∃ r, eval_gate_func (cs.wire_vals_at w j) (cs.sel_vals_at j) pi = some r := by
  unfold eval_gate_func
  rw [if_neg ?hcond]
  case hcond =>
    simp [TurboPlonkConstraintSystem.wire_vals_at, TurboPlonkConstraintSystem.sel_vals_at,
      N_WIRES_PER_GATE, N_SELECTORS]
  exact ⟨_, rfl⟩

lemma check_rows_ok_iff (cs : TPCS F) (w ov : List F) (l : List Nat) :
    cs.check_rows w ov l = Except.ok () ↔
      ∀ j ∈ l, AllBindingsMatch (cs.bindingsWith ov) w j ∧
        rowSatisfied cs w (publicContributionFrom (cs.bindingsWith ov) j 0) j := by
  induction l with
  | nil => simp [TurboPlonkConstraintSystem.check_rows]
  | cons j rest ih =>
      rw [TurboPlonkConstraintSystem.check_rows]
      have hscan : publicOnlineScan (cs.bindingsWith ov) w j
          = if AllBindingsMatch (cs.bindingsWith ov) w j
            then Except.ok (publicContributionFrom (cs.bindingsWith ov) j 0)
            else Except.error "online var does not match witness" :=
        scan_eq (cs.bindingsWith ov) w j 0
      by_cases hA : AllBindingsMatch (cs.bindingsWith ov) w j
      · rw [hscan, if_pos hA]
        obtain ⟨r, hr⟩ :=
          eval_gate_func_rows_some cs w j (publicContributionFrom (cs.bindingsWith ov) j 0)
        dsimp only
        rw [hr]
        by_cases hr0 : r = 0
        · subst hr0
          dsimp only
          rw [if_pos rfl]
          constructor
          · intro h x hx
            rcases List.mem_cons.mp hx with rfl | hx2
            · exact ⟨hA, hr⟩
            · exact ih.mp h x hx2
          · intro h
            exact ih.mpr (fun x hx => h x (List.mem_cons_of_mem j hx))
        · dsimp only
          rw [if_neg hr0]
          constructor
          · intro h
            exact absurd h (by simp)
          · intro h
            have hrow := (h j (by simp)).2
            unfold rowSatisfied at hrow
            rw [hr] at hrow
            exact absurd (Option.some_inj.mp hrow) hr0
      · rw [hscan, if_neg hA]
        constructor
        · intro h
          exact absurd h (by simp)
        · intro h
          exact absurd (h j (by simp)).1 hA

lemma verify_witness_ok_iff (cs : TPCS F) (w ov : List F) :
    cs.verify_witness w ov = Except.ok () ↔
      (w.length = cs.num_vars ∧
       ov.length = cs.public_vars_witness_indices.length ∧
       ov.length = cs.public_vars_constraint_indices.length ∧
       ∀ j, j < cs.size → AllBindingsMatch (cs.bindingsWith ov) w j ∧
         rowSatisfied cs w (publicContributionFrom (cs.bindingsWith ov) j 0) j) := by
  unfold TurboPlonkConstraintSystem.verify_witness
  by_cases h1 : w.length ≠ cs.num_vars
  · rw [if_pos h1]
    constructor
    · intro h
      exact absurd h (by simp)
    · intro h
      exact (h1 h.1).elim
  · rw [if_neg h1]
    push_neg at h1
    by_cases h2 : ov.length ≠ cs.public_vars_witness_indices.length ∨
        ov.length ≠ cs.public_vars_constraint_indices.length
    · rw [if_pos h2]
      constructor
      · intro h
        exact absurd h (by simp)
      · intro h
        rcases h2 with h2 | h2
        · exact (h2 h.2.1).elim
        · exact (h2 h.2.2.1).elim
    · rw [if_neg h2]
      push_neg at h2
      rw [check_rows_ok_iff]
      constructor
      · intro h
        exact ⟨h1, h2.1, h2.2, fun j hj => h j (List.mem_range.mpr hj)⟩
      · intro h j hj
        exact h.2.2.2 j (List.mem_range.mp hj)

lemma except_error_of_ne_ok (x : Except String Unit) (h : ¬ x = Except.ok ()) :
    ∃ e, x = Except.error e := by
  cases x with
  | ok u => cases u; exact absurd rfl h
  | error e => exact ⟨e, rfl⟩

lemma isOkE_false_iff (x : Except String Unit) : isOkE x = false ↔ ¬ x = Except.ok () := by
  cases x with
  | ok u => cases u; simp [isOkE]
  | error e => simp [isOkE]

/-- C2: verify_witness errors when the witness length differs from num_vars or
the online-value count differs from the binding counts; with matching lengths
it returns Ok iff every row, scanned in increasing order, has all
exact-row-index-matching bindings agreeing with the witness and the Gate
Equation vanishing under the scanned public contribution (the last matching
online value on bound rows, the additive identity otherwise). -/
theorem C2_verify_witness (cs : TPCS F) (w ov : List F) :
    ((w.length ≠ cs.num_vars ∨ ov.length ≠ cs.public_vars_witness_indices.length ∨
        ov.length ≠ cs.public_vars_constraint_indices.length) →
      ∃ e, cs.verify_witness w ov = Except.error e)
    ∧ (w.length = cs.num_vars →
       ov.length = cs.public_vars_witness_indices.length →
       ov.length = cs.public_vars_constraint_indices.length →
      (cs.verify_witness w ov = Except.ok () ↔
        ∀ j, j < cs.size →
          AllBindingsMatch (cs.bindingsWith ov) w j ∧
          rowSatisfied cs w (publicContributionFrom (cs.bindingsWith ov) j 0) j)) := by
  constructor
  · intro hbad
    apply except_error_of_ne_ok
    intro hok
    have h := (verify_witness_ok_iff cs w ov).mp hok
    rcases hbad with hb | hb | hb
    · exact hb h.1
    · exact hb h.2.1
    · exact hb h.2.2.1
  · intro h1 h2 h3
    rw [verify_witness_ok_iff]
    constructor
    · intro h
      exact h.2.2.2
    · intro h
      exact ⟨h1, h2, h3, h⟩

def exampleIoCS : TPCS (ZMod 11) :=
  ((TurboPlonkConstraintSystem.new).new_variable 7).1.prepare_io_variable 0

/-- C2 witness: both conjuncts applied to a concrete one-binding system. -/
theorem C2_verify_witness_witness :
    (∃ e, exampleIoCS.verify_witness [] [(5 : ZMod 11)] = Except.error e)
    ∧ exampleIoCS.verify_witness [7] [7] = Except.ok () := by
  refine ⟨(C2_verify_witness exampleIoCS [] [5]).1 (by decide), ?_⟩
  exact ((C2_verify_witness exampleIoCS [7] [7]).2 (by decide) (by decide)
    (by decide)).mpr (by decide)

lemma verify_ok_of_goodState (cs : TPCS F) (hG : GoodState cs)
    (hc : cs.public_vars_constraint_indices = [])
    (hw : cs.public_vars_witness_indices = []) :
    cs.verify_witness cs.witness [] = Except.ok () := by
  rw [verify_witness_ok_iff]
  refine ⟨hG.1.2.1, by simp [hw], by simp [hc], ?_⟩
  intro j hj
  have hb : cs.bindingsWith ([] : List F) = [] := by
    simp [TurboPlonkConstraintSystem.bindingsWith]
  rw [hb]
  constructor
  · intro p hp
    simp at hp
  · show rowSatisfied cs cs.witness (publicContributionFrom [] j 0) j
    have hz : publicContributionFrom ([] : List ((Nat × Nat) × F)) j 0 = 0 := rfl
    rw [hz]
    exact hG.2 j hj

lemma verify_not_ok_of_badRow (cs : TPCS F) (j : Nat) (hj : j < cs.size)
    (w ov : List F)
    (hbad : ¬ rowSatisfied cs w (publicContributionFrom (cs.bindingsWith ov) j 0) j) :
    ¬ cs.verify_witness w ov = Except.ok () := by
  intro h
  exact hbad (((verify_witness_ok_iff cs w ov).mp h).2.2.2 j hj).2

/- ---------------------------------------------------------------- -/
/- C10: padding.                                                    -/
/- ---------------------------------------------------------------- -/

@[simp] lemma pad_num_vars (cs : TPCS F) : cs.pad.num_vars = cs.num_vars := rfl

@[simp] lemma pad_witness (cs : TPCS F) : cs.pad.witness = cs.witness := rfl

@[simp] lemma pad_pubc (cs : TPCS F) :
    cs.pad.public_vars_constraint_indices = cs.public_vars_constraint_indices := rfl

@[simp] lemma pad_pubw (cs : TPCS F) :
    cs.pad.public_vars_witness_indices = cs.public_vars_witness_indices := rfl

@[simp] lemma pad_zero_var (cs : TPCS F) : cs.pad.zero_var = cs.zero_var := rfl

@[simp] lemma pad_one_var (cs : TPCS F) : cs.pad.one_var = cs.one_var := rfl

lemma size_le_nextPowerOfTwo (n : Nat) : n ≤ nextPowerOfTwo n :=
  (Nat.le_pow_iff_clog_le (by norm_num)).mpr le_rfl

lemma pad_size (cs : TPCS F) : cs.pad.size = nextPowerOfTwo cs.size := by
  show cs.size + (nextPowerOfTwo cs.size - cs.size) = nextPowerOfTwo cs.size
  have := size_le_nextPowerOfTwo cs.size
  omega

/-- C10: after pad, size is the least power of two at or above the old size,
pre-existing selector and wiring entries are unchanged, the appended rows
carry all-zero selector rows, and an all-zero selector row satisfies the
gate equation for any wire values. -/
theorem C10_pad (cs : TPCS F) (hs : cs.selectors.length = 13)
    (hlen : ∀ col ∈ cs.selectors, col.length = cs.size) :
    (cs.size ≤ cs.pad.size ∧ (∃ k, cs.pad.size = 2 ^ k) ∧
      ∀ k, cs.size ≤ 2 ^ k → cs.pad.size ≤ 2 ^ k)
    ∧ (∀ i j, j < cs.size →
        cs.pad.selAt i j = cs.selAt i j ∧
        cs.pad.get_witness_index i j = cs.get_witness_index i j)
    ∧ (∀ i j, i < 13 → cs.size ≤ j → cs.pad.selAt i j = 0)
    ∧ (∀ a b c d e : F, eval_gate_func [a, b, c, d, e] (List.replicate 13 0) 0 = some 0) := by
  have hsz := pad_size cs
  refine ⟨⟨?_, ⟨Nat.clog 2 cs.size, hsz⟩, ?_⟩, ?_, ?_, ?_⟩
  · rw [hsz]
    exact size_le_nextPowerOfTwo cs.size
  · intro k hk
    rw [hsz]
    exact Nat.pow_le_pow_right (by norm_num)
      ((Nat.le_pow_iff_clog_le (by norm_num)).mp hk)
  · intro i j hj
    constructor
    · show ((cs.selectors.map fun c => c ++ List.replicate _ 0).getD i []).getD j 0
        = (cs.selectors.getD i []).getD j 0
      rcases Nat.lt_or_ge i cs.selectors.length with hi | hi
      · rw [getD_map_lt _ _ i [] [] hi, getD_append_replicate_self]
      · have h1 : (cs.selectors.map
            fun c => c ++ List.replicate (nextPowerOfTwo cs.size - cs.size) 0).getD i
              ([] : List F) = [] :=
          getD_of_le _ _ (by simpa using hi)
        have h2 : cs.selectors.getD i ([] : List F) = [] := getD_of_le _ _ hi
        rw [h1, h2]
    · show ((cs.wiring.map fun c => c ++ List.replicate _ 0).getD i []).getD j 0
        = (cs.wiring.getD i []).getD j 0
      rcases Nat.lt_or_ge i cs.wiring.length with hi | hi
      · rw [getD_map_lt _ _ i [] [] hi, getD_append_replicate_self]
      · have h1 : (cs.wiring.map
            fun c => c ++ List.replicate (nextPowerOfTwo cs.size - cs.size) 0).getD i
              ([] : List Nat) = [] :=
          getD_of_le _ _ (by simpa using hi)
        have h2 : cs.wiring.getD i ([] : List Nat) = [] := getD_of_le _ _ hi
        rw [h1, h2]
  · intro i j hi13 hge
    show ((cs.selectors.map fun c => c ++ List.replicate _ 0).getD i []).getD j 0 = 0
    rw [getD_map_lt _ _ i [] [] (by omega), getD_append_replicate_self]
    exact getD_of_le _ _ (by
      rw [hlen _ (getD_mem_of_lt cs.selectors i [] (by omega))]
      exact hge)
  · intro a b c d e
    rw [show (List.replicate 13 (0 : F))
        = [0, 0, 0, 0, 0, 0, 0, 0, 0, 0, 0, 0, 0] from rfl, eval_gate_func_cons]
    exact congrArg some (by ring)

def examplePadCS : TPCS (ZMod 11) :=
  (exampleIoCS.insert_constant_gate 0 7).insert_constant_gate 0 2

/-- C10 witness: the pad theorem applied to a concrete 3-row system. -/
theorem C10_pad_witness :
    (∀ col ∈ examplePadCS.selectors, col.length = examplePadCS.size) ∧
    examplePadCS.size ≤ examplePadCS.pad.size ∧
    (∃ k, examplePadCS.pad.size = 2 ^ k) ∧
    examplePadCS.pad.selAt 0 3 = 0 ∧
    examplePadCS.pad.selAt 6 1 = examplePadCS.selAt 6 1 ∧
    eval_gate_func [(1 : ZMod 11), 2, 3, 4, 5] (List.replicate 13 0) 0 = some 0 := by
  have h := C10_pad examplePadCS (by decide) (by decide)
  exact ⟨by decide, h.1.1, h.1.2.1, h.2.2.1 0 3 (by decide) (by decide),
    (h.2.1 6 1 (by decide)).1, h.2.2.2 1 2 3 4 5⟩

/- ---------------------------------------------------------------- -/
/- C8 and C9: the select gadget.                                    -/
/- ---------------------------------------------------------------- -/

/-- C8: select inserts one row with wires (bit, var0, bit, var1, out) and
selectors q2 = qm2 = qo = 1, qm1 = -1 (all others zero); that row is
satisfied exactly when out = var0 + bit*(var1 - var0) for any field value of
bit; and the stored output witness is var0's value when bit's value is 0 and
var1's value when it is 1. -/
theorem C8_select (cs : TPCS F) (var0 var1 bit : Nat)
    (hM : MatrixInv cs) (hW : cs.witness.length = cs.num_vars) :
    ((cs.select var0 var1 bit).1.size = cs.size + 1
      ∧ (cs.select var0 var1 bit).1.sel_vals_at cs.size
          = [0, 1, 0, 0, -1, 1, 0, 0, 0, 0, 0, 0, 1]
      ∧ (cs.select var0 var1 bit).1.get_witness_index 0 cs.size = bit
      ∧ (cs.select var0 var1 bit).1.get_witness_index 1 cs.size = var0
      ∧ (cs.select var0 var1 bit).1.get_witness_index 2 cs.size = bit
      ∧ (cs.select var0 var1 bit).1.get_witness_index 3 cs.size = var1
      ∧ (cs.select var0 var1 bit).1.get_witness_index 4 cs.size
          = (cs.select var0 var1 bit).2)
    ∧ (∀ b v0 v1 o : F,
        eval_gate_func [b, v0, b, v1, o] [0, 1, 0, 0, -1, 1, 0, 0, 0, 0, 0, 0, 1] 0 = some 0
          ↔ o = v0 + b * (v1 - v0))
    ∧ (cs.witAt bit = 0 →
        (cs.select var0 var1 bit).1.witAt (cs.select var0 var1 bit).2 = cs.witAt var0)
    ∧ (cs.witAt bit = 1 →
        (cs.select var0 var1 bit).1.witAt (cs.select var0 var1 bit).2 = cs.witAt var1) := by
  have h := select_isGatePush cs hM.1 hM.2.1 var0 var1 bit
  refine ⟨⟨rfl, h.sel_vals_at_new hM.1 hM.2.2.1 rfl, ?_, ?_, ?_, ?_, ?_⟩, ?_, ?_, ?_⟩
  · exact h.wire_new hM.2.1 hM.2.2.2.1 0 (by omega)
  · exact h.wire_new hM.2.1 hM.2.2.2.1 1 (by omega)
  · exact h.wire_new hM.2.1 hM.2.2.2.1 2 (by omega)
  · exact h.wire_new hM.2.1 hM.2.2.2.1 3 (by omega)
  · exact h.wire_new hM.2.1 hM.2.2.2.1 4 (by omega)
  · intro b v0 v1 o
    rw [eval_gate_func_cons, Option.some_inj]
    constructor
    · intro h0
      linear_combination (-1 : F) * h0
    · intro h0
      rw [h0]
      ring
  · intro h0
    show ((cs.select var0 var1 bit).1.witness).getD cs.num_vars 0 = cs.witAt var0
    rw [select_witness, ← hW, getD_append_len, if_pos h0]
  · intro h1
    show ((cs.select var0 var1 bit).1.witness).getD cs.num_vars 0 = cs.witAt var1
    rw [select_witness, ← hW, getD_append_len,
      if_neg (by rw [h1]; exact one_ne_zero)]

def exampleSelectCS : TPCS (ZMod 11) :=
  (TurboPlonkConstraintSystem.new).add_variables [0, 1, 5, 7]

/-- C8 witness: select on a concrete system with a boolean control bit. -/
theorem C8_select_witness :
    MatrixInv exampleSelectCS ∧
    (exampleSelectCS.select 2 3 0).1.sel_vals_at exampleSelectCS.size
      = [0, 1, 0, 0, -1, 1, 0, 0, 0, 0, 0, 0, 1] ∧
    ((7 : ZMod 11) = 5 + 0 * (7 - 5) ↔
      eval_gate_func [(0 : ZMod 11), 5, 0, 7, 7]
        [0, 1, 0, 0, -1, 1, 0, 0, 0, 0, 0, 0, 1] 0 = some 0) ∧
    (exampleSelectCS.select 2 3 0).1.witAt (exampleSelectCS.select 2 3 0).2
      = exampleSelectCS.witAt 2 := by
  have h := C8_select exampleSelectCS 2 3 0 (by decide) (by decide)
  exact ⟨by decide, h.1.2.1, (h.2.1 0 5 7 7).symm, h.2.2.1 (by decide)⟩

/-- C9: for any nonzero control-bit witness value the gadget stores var1's
value into the output; hence for a non-boolean bit with differing candidate
values the inserted row is violated by the gadget's own witness and
verify_witness rejects it. -/
theorem C9_select_nonboolean_witness_value (cs : TPCS F) (var0 var1 bit : Nat)
    (hM : MatrixInv cs) (hW : cs.witness.length = cs.num_vars)
    (hv0 : var0 < cs.num_vars) (hv1 : var1 < cs.num_vars) (hbv : bit < cs.num_vars)
    (hc : cs.public_vars_constraint_indices = [])
    (hwi : cs.public_vars_witness_indices = [])
    (hbit0 : cs.witAt bit ≠ 0) :
    ((cs.select var0 var1 bit).1.witAt (cs.select var0 var1 bit).2 = cs.witAt var1)
    ∧ (∀ b v0 v1 : F, b ≠ 0 → b ≠ 1 → v0 ≠ v1 →
        eval_gate_func [b, v0, b, v1, v1]
          [0, 1, 0, 0, -1, 1, 0, 0, 0, 0, 0, 0, 1] 0 ≠ some 0)
    ∧ (cs.witAt bit ≠ 1 → cs.witAt var0 ≠ cs.witAt var1 →
        isOkE ((cs.select var0 var1 bit).1.verify_witness
          ((cs.select var0 var1 bit).1.witness) []) = false) := by
  have h := select_isGatePush cs hM.1 hM.2.1 var0 var1 bit
  have hstore : (cs.select var0 var1 bit).1.witAt (cs.select var0 var1 bit).2
      = cs.witAt var1 := by
    show ((cs.select var0 var1 bit).1.witness).getD cs.num_vars 0 = cs.witAt var1
    rw [select_witness, ← hW, getD_append_len, if_neg hbit0]
  have hrowbad : ∀ b v0 v1 : F, b ≠ 0 → b ≠ 1 → v0 ≠ v1 →
      eval_gate_func [b, v0, b, v1, v1]
        [0, 1, 0, 0, -1, 1, 0, 0, 0, 0, 0, 0, 1] 0 ≠ some 0 := by
    intro b v0 v1 hb hb1 hne heq
    rw [eval_gate_func_cons] at heq
    have h0 := Option.some_inj.mp heq
    have hfac : (1 - b) * (v0 - v1) = 0 := by linear_combination h0
    rcases mul_eq_zero.mp hfac with hz | hz
    · exact hb1 (by linear_combination (-1 : F) * hz)
    · exact hne (sub_eq_zero.mp hz)
  refine ⟨hstore, hrowbad, ?_⟩
  intro hbit1 hvne
  rw [isOkE_false_iff]
  apply verify_not_ok_of_badRow _ cs.size (by simp)
  have hbnil : ((cs.select var0 var1 bit).1.bindingsWith ([] : List F)) = [] := by
    simp [TurboPlonkConstraintSystem.bindingsWith]
  rw [hbnil]
  have hz : publicContributionFrom ([] : List ((Nat × Nat) × F)) cs.size 0 = 0 := rfl
  rw [hz]
  rw [h.rowSatisfied_new_iff hM rfl]
  have hwit := select_witness cs var0 var1 bit
  have hgb : ((cs.select var0 var1 bit).1.witness).getD bit 0 = cs.witAt bit := by
    rw [hwit]
    exact getD_append_lt _ _ _ _ (by omega)
  have hg0 : ((cs.select var0 var1 bit).1.witness).getD var0 0 = cs.witAt var0 := by
    rw [hwit]
    exact getD_append_lt _ _ _ _ (by omega)
  have hg1 : ((cs.select var0 var1 bit).1.witness).getD var1 0 = cs.witAt var1 := by
    rw [hwit]
    exact getD_append_lt _ _ _ _ (by omega)
  have hgo : ((cs.select var0 var1 bit).1.witness).getD cs.num_vars 0 = cs.witAt var1 := by
    rw [hwit, ← hW, getD_append_len, if_neg hbit0]
  show ¬ eval_gate_func
      [((cs.select var0 var1 bit).1.witness).getD bit 0,
       ((cs.select var0 var1 bit).1.witness).getD var0 0,
       ((cs.select var0 var1 bit).1.witness).getD bit 0,
       ((cs.select var0 var1 bit).1.witness).getD var1 0,
       ((cs.select var0 var1 bit).1.witness).getD cs.num_vars 0]
      [0, 1, 0, 0, -1, 1, 0, 0, 0, 0, 0, 0, 1] 0 = some 0
  rw [hgb, hg0, hg1, hgo]
  exact hrowbad _ _ _ hbit0 hbit1 hvne

def exampleSelectBadCS : TPCS (ZMod 11) :=
  (TurboPlonkConstraintSystem.new).add_variables [2, 5, 7]

/-- C9 witness: a concrete select call with bit value 2 stores var1's value
and produces a row its own witness violates. -/
theorem C9_select_nonboolean_witness :
    (exampleSelectBadCS.select 1 2 0).1.witAt (exampleSelectBadCS.select 1 2 0).2
      = exampleSelectBadCS.witAt 2 ∧
    eval_gate_func [(2 : ZMod 11), 5, 2, 7, 7]
      [0, 1, 0, 0, -1, 1, 0, 0, 0, 0, 0, 0, 1] 0 ≠ some 0 ∧
    isOkE ((exampleSelectBadCS.select 1 2 0).1.verify_witness
      ((exampleSelectBadCS.select 1 2 0).1.witness) []) = false := by
  have h := C9_select_nonboolean_witness_value exampleSelectBadCS 1 2 0
    (by decide) (by decide) (by decide) (by decide) (by decide) (by decide)
    (by decide) (by decide)
  exact ⟨h.1, h.2.1 2 5 7 (by decide) (by decide) (by decide),
    h.2.2 (by decide) (by decide)⟩

/- ---------------------------------------------------------------- -/
/- Preservation of well-formedness and honest-witness satisfaction. -/
/- ---------------------------------------------------------------- -/

lemma new_variable_witAt_lt (cs : TPCS F) (v : F) (hW : cs.witness.length = cs.num_vars)
    (i : Nat) (hi : i < cs.num_vars) : (cs.new_variable v).1.witAt i = cs.witAt i := by
  show (cs.witness ++ [v]).getD i 0 = cs.witness.getD i 0
  exact getD_append_lt _ _ _ _ (by omega)

lemma new_variable_witAt_self (cs : TPCS F) (v : F) (hW : cs.witness.length = cs.num_vars) :
    (cs.new_variable v).1.witAt cs.num_vars = v := by
  show (cs.witness ++ [v]).getD cs.num_vars 0 = v
  rw [← hW, getD_append_len]

lemma get_witness_index_lt_num_vars (cs : TPCS F) (hM : MatrixInv cs)
    (i j : Nat) (hi : i < 5) (hj : j < cs.size) :
    cs.get_witness_index i j < cs.num_vars := by
  obtain ⟨hs, hw, hsl, hwl, hwb⟩ := hM
  have hmem : cs.wiring.getD i [] ∈ cs.wiring := getD_mem_of_lt cs.wiring i [] (by omega)
  have hlen : (cs.wiring.getD i []).length = cs.size := hwl _ hmem
  exact hwb _ hmem _ (getD_mem_of_lt _ j 0 (by omega))

lemma wire_vals_at_extend (cs : TPCS F) (hM : MatrixInv cs)
    (w ext : List F) (hW : w.length = cs.num_vars) (j : Nat) (hj : j < cs.size) :
    cs.wire_vals_at (w ++ ext) j = cs.wire_vals_at w j := by
  unfold TurboPlonkConstraintSystem.wire_vals_at
  rw [getD_append_lt w ext 0 _ (by
      rw [hW]; exact get_witness_index_lt_num_vars cs hM 0 j (by omega) hj),
    getD_append_lt w ext 0 _ (by
      rw [hW]; exact get_witness_index_lt_num_vars cs hM 1 j (by omega) hj),
    getD_append_lt w ext 0 _ (by
      rw [hW]; exact get_witness_index_lt_num_vars cs hM 2 j (by omega) hj),
    getD_append_lt w ext 0 _ (by
      rw [hW]; exact get_witness_index_lt_num_vars cs hM 3 j (by omega) hj),
    getD_append_lt w ext 0 _ (by
      rw [hW]; exact get_witness_index_lt_num_vars cs hM 4 j (by omega) hj)]

lemma allRowsSatisfied_extend (cs : TPCS F) (hM : MatrixInv cs) (w ext : List F)
    (hW : w.length = cs.num_vars) (hall : allRowsSatisfied cs w) :
    allRowsSatisfied cs (w ++ ext) := by
  intro j hj
  unfold rowSatisfied
  rw [wire_vals_at_extend cs hM w ext hW j hj]
  exact hall j hj

lemma new_variable_goodState (cs : TPCS F) (v : F) (hG : GoodState cs) :
    GoodState (cs.new_variable v).1 := by
  obtain ⟨⟨hM, hV⟩, hall⟩ := hG
  obtain ⟨hW, hz, ho⟩ := hV
  refine ⟨⟨?_, ?_, ?_⟩, ?_⟩
  · obtain ⟨h1, h2, h3, h4, h5⟩ := hM
    exact ⟨h1, h2, h3, h4, fun col hc x hx => Nat.lt_succ_of_lt (h5 col hc x hx)⟩
  · show (cs.witness ++ [v]).length = cs.num_vars + 1
    simp [hW]
  · refine ⟨?_, ?_⟩
    · show (match cs.zero_var with
        | none => True
        | some z => z < cs.num_vars + 1 ∧ (cs.new_variable v).1.witAt z = 0)
      rcases hzc : cs.zero_var with _ | z
      · trivial
      · rw [hzc] at hz
        exact ⟨by omega, by rw [new_variable_witAt_lt cs v hW z (by omega)]; exact hz.2⟩
    · show (match cs.one_var with
        | none => True
        | some o => o < cs.num_vars + 1 ∧ (cs.new_variable v).1.witAt o = 1)
      rcases hoc : cs.one_var with _ | o
      · trivial
      · rw [hoc] at ho
        exact ⟨by omega, by rw [new_variable_witAt_lt cs v hW o (by omega)]; exact ho.2⟩
  · show allRowsSatisfied cs (cs.witness ++ [v])
    exact allRowsSatisfied_extend cs hM cs.witness [v] hW hall

lemma ensure_zero_var_spec (cs : TPCS F) (hG : GoodState cs) :
    GoodState cs.ensure_zero_var.1 ∧
    cs.ensure_zero_var.2 < cs.ensure_zero_var.1.num_vars ∧
    cs.ensure_zero_var.1.witAt cs.ensure_zero_var.2 = 0 ∧
    cs.num_vars ≤ cs.ensure_zero_var.1.num_vars ∧
    (∀ i, i < cs.num_vars → cs.ensure_zero_var.1.witAt i = cs.witAt i) ∧
    cs.ensure_zero_var.1.size = cs.size ∧
    cs.ensure_zero_var.1.selectors = cs.selectors ∧
    cs.ensure_zero_var.1.wiring = cs.wiring ∧
    cs.ensure_zero_var.1.public_vars_constraint_indices = cs.public_vars_constraint_indices ∧
    cs.ensure_zero_var.1.public_vars_witness_indices = cs.public_vars_witness_indices ∧
    cs.ensure_zero_var.1.one_var = cs.one_var ∧
    cs.ensure_zero_var.1.witness.length = cs.ensure_zero_var.1.num_vars := by
  obtain ⟨⟨hM, hV⟩, hall⟩ := hG
  obtain ⟨hW, hz, ho⟩ := hV
  rcases hzc : cs.zero_var with _ | z
  · have he : cs.ensure_zero_var
        = ({ cs with zero_var := some cs.num_vars
                     witness := cs.witness ++ [0]
                     num_vars := cs.num_vars + 1 }, cs.num_vars) := by
      unfold TurboPlonkConstraintSystem.ensure_zero_var
      rw [hzc]
    have hval : (cs.witness ++ [(0 : F)]).getD cs.num_vars 0 = 0 := by
      rw [← hW, getD_append_len]
    rw [he]
    refine ⟨⟨⟨?_, ?_, ?_, ?_⟩, ?_⟩, ?_, ?_, ?_, ?_, rfl, rfl, rfl, rfl, rfl, rfl, ?_⟩
    · obtain ⟨h1, h2, h3, h4, h5⟩ := hM
      exact ⟨h1, h2, h3, h4, fun col hc x hx => Nat.lt_succ_of_lt (h5 col hc x hx)⟩
    · show (cs.witness ++ [0]).length = cs.num_vars + 1
      simp [hW]
    · exact ⟨Nat.lt_succ_self _, hval⟩
    · dsimp only
      rcases hoc : cs.one_var with _ | o
      · exact trivial
      · rw [hoc] at ho
        obtain ⟨ho1, ho2⟩ := ho
        refine ⟨by omega, ?_⟩
        have hstep : (cs.witness ++ [(0 : F)]).getD o (0 : F) = cs.witness.getD o (0 : F) :=
          getD_append_lt _ _ _ _ (by omega)
        exact hstep.trans ho2
    · show allRowsSatisfied cs (cs.witness ++ [0])
      exact allRowsSatisfied_extend cs hM cs.witness [0] hW hall
    · show cs.num_vars < cs.num_vars + 1
      omega
    · exact hval
    · show cs.num_vars ≤ cs.num_vars + 1
      omega
    · intro i hi
      show (cs.witness ++ [0]).getD i 0 = cs.witness.getD i 0
      exact getD_append_lt _ _ _ _ (by omega)
    · show (cs.witness ++ [0]).length = cs.num_vars + 1
      simp [hW]
  · have he : cs.ensure_zero_var = (cs, z) := by
      unfold TurboPlonkConstraintSystem.ensure_zero_var
      rw [hzc]
    rw [he]
    rw [hzc] at hz
    have hzz : (match cs.zero_var with
        | none => True
        | some z => z < cs.num_vars ∧ cs.witAt z = 0) := by
      rw [hzc]
      exact hz
    exact ⟨⟨⟨hM, hW, hzz, ho⟩, hall⟩, hz.1, hz.2, le_rfl,
      fun i _ => rfl, rfl, rfl, rfl, rfl, rfl, rfl, hW⟩

lemma ensure_one_var_spec (cs : TPCS F) (hG : GoodState cs) :
    GoodState cs.ensure_one_var.1 ∧
    cs.ensure_one_var.2 < cs.ensure_one_var.1.num_vars ∧
    cs.ensure_one_var.1.witAt cs.ensure_one_var.2 = 1 ∧
    cs.num_vars ≤ cs.ensure_one_var.1.num_vars ∧
    (∀ i, i < cs.num_vars → cs.ensure_one_var.1.witAt i = cs.witAt i) ∧
    cs.ensure_one_var.1.size = cs.size ∧
    cs.ensure_one_var.1.selectors = cs.selectors ∧
    cs.ensure_one_var.1.wiring = cs.wiring ∧
    cs.ensure_one_var.1.public_vars_constraint_indices = cs.public_vars_constraint_indices ∧
    cs.ensure_one_var.1.public_vars_witness_indices = cs.public_vars_witness_indices ∧
    cs.ensure_one_var.1.zero_var = cs.zero_var ∧
    cs.ensure_one_var.1.witness.length = cs.ensure_one_var.1.num_vars := by
  obtain ⟨⟨hM, hV⟩, hall⟩ := hG
  obtain ⟨hW, hz, ho⟩ := hV
  rcases hoc : cs.one_var with _ | o
  · have he : cs.ensure_one_var
        = ({ cs with one_var := some cs.num_vars
                     witness := cs.witness ++ [1]
                     num_vars := cs.num_vars + 1 }, cs.num_vars) := by
      unfold TurboPlonkConstraintSystem.ensure_one_var
      rw [hoc]
    have hval : (cs.witness ++ [(1 : F)]).getD cs.num_vars 0 = 1 := by
      rw [← hW, getD_append_len]
    rw [he]
    refine ⟨⟨⟨?_, ?_, ?_, ?_⟩, ?_⟩, ?_, ?_, ?_, ?_, rfl, rfl, rfl, rfl, rfl, rfl, ?_⟩
    · obtain ⟨h1, h2, h3, h4, h5⟩ := hM
      exact ⟨h1, h2, h3, h4, fun col hc x hx => Nat.lt_succ_of_lt (h5 col hc x hx)⟩
    · show (cs.witness ++ [1]).length = cs.num_vars + 1
      simp [hW]
    · dsimp only
      rcases hzc : cs.zero_var with _ | z
      · exact trivial
      · rw [hzc] at hz
        obtain ⟨hz1, hz2⟩ := hz
        refine ⟨by omega, ?_⟩
        have hstep : (cs.witness ++ [(1 : F)]).getD z (0 : F) = cs.witness.getD z (0 : F) :=
          getD_append_lt _ _ _ _ (by omega)
        exact hstep.trans hz2
    · exact ⟨Nat.lt_succ_self _, hval⟩
    · show allRowsSatisfied cs (cs.witness ++ [1])
      exact allRowsSatisfied_extend cs hM cs.witness [1] hW hall
    · show cs.num_vars < cs.num_vars + 1
      omega
    · exact hval
    · show cs.num_vars ≤ cs.num_vars + 1
      omega
    · intro i hi
      show (cs.witness ++ [1]).getD i 0 = cs.witness.getD i 0
      exact getD_append_lt _ _ _ _ (by omega)
    · show (cs.witness ++ [1]).length = cs.num_vars + 1
      simp [hW]
  · have he : cs.ensure_one_var = (cs, o) := by
      unfold TurboPlonkConstraintSystem.ensure_one_var
      rw [hoc]
    rw [he]
    rw [hoc] at ho
    have hoo : (match cs.one_var with
        | none => True
        | some o => o < cs.num_vars ∧ cs.witAt o = 1) := by
      rw [hoc]
      exact ho
    exact ⟨⟨⟨hM, hW, hz, hoo⟩, hall⟩, ho.1, ho.2, le_rfl,
      fun i _ => rfl, rfl, rfl, rfl, rfl, rfl, rfl, hW⟩

set_option maxHeartbeats 1600000 in
lemma insert_lc_gate_goodState (cs : TPCS F) (w1 w2 w3 w4 wo : Nat) (q1 q2 q3 q4 : F)
    (hG : GoodState cs) (hw1 : w1 < cs.num_vars) (hw2 : w2 < cs.num_vars)
    (hw3 : w3 < cs.num_vars) (hw4 : w4 < cs.num_vars) (hwo : wo < cs.num_vars)
    (hval : q1 * cs.witAt w1 + q2 * cs.witAt w2 + q3 * cs.witAt w3 + q4 * cs.witAt w4
      = cs.witAt wo) :
    GoodState (cs.insert_lc_gate w1 w2 w3 w4 wo q1 q2 q3 q4) := by
  obtain ⟨⟨hM, hV⟩, hall⟩ := hG
  have h := insert_lc_gate_isGatePush cs hM.1 hM.2.1 w1 w2 w3 w4 wo q1 q2 q3 q4
  refine ⟨⟨h.matrixInv hM rfl le_rfl ?_, hV⟩, ?_⟩
  · intro v hv
    simp only [List.mem_cons, List.not_mem_nil, or_false] at hv
    rcases hv with rfl | rfl | rfl | rfl | rfl
    · exact hw1
    · exact hw2
    · exact hw3
    · exact hw4
    · exact hwo
  · refine h.allRows_push hM cs.witness hall ?_
    apply (h.rowSatisfied_new_iff hM rfl cs.witness 0).mpr
    show eval_gate_func [cs.witAt w1, cs.witAt w2, cs.witAt w3, cs.witAt w4, cs.witAt wo]
      [q1, q2, q3, q4, 0, 0, 0, 0, 0, 0, 0, 0, 1] (0 : F) = some 0
    rw [eval_gate_func_cons]
    exact congrArg some (by linear_combination hval)

set_option maxHeartbeats 1600000 in
lemma insert_mul_gate_goodState (cs : TPCS F) (l r o : Nat)
    (hG : GoodState cs) (hl : l < cs.num_vars) (hr : r < cs.num_vars)
    (ho : o < cs.num_vars)
    (hval : cs.witAt l * cs.witAt r = cs.witAt o) :
    GoodState (cs.insert_mul_gate l r o) := by
  obtain ⟨⟨hM, hV⟩, hall⟩ := hG
  have h := insert_mul_gate_isGatePush cs hM.1 hM.2.1 l r o
  refine ⟨⟨h.matrixInv hM rfl le_rfl ?_, hV⟩, ?_⟩
  · intro v hv
    simp only [List.mem_cons, List.not_mem_nil, or_false] at hv
    rcases hv with rfl | rfl | rfl | rfl | rfl
    · exact hl
    · exact hr
    · exact (show 0 < cs.num_vars by omega)
    · exact (show 0 < cs.num_vars by omega)
    · exact ho
  · refine h.allRows_push hM cs.witness hall ?_
    apply (h.rowSatisfied_new_iff hM rfl cs.witness 0).mpr
    show eval_gate_func [cs.witAt l, cs.witAt r, cs.witAt 0, cs.witAt 0, cs.witAt o]
      [0, 0, 0, 0, 1, 0, 0, 0, 0, 0, 0, 0, 1] (0 : F) = some 0
    rw [eval_gate_func_cons]
    exact congrArg some (by linear_combination hval)

lemma insert_boolean_gate_goodState (cs : TPCS F) (v : Nat)
    (hG : GoodState cs) (hv : v < cs.num_vars)
    (hbool : cs.witAt v = 0 ∨ cs.witAt v = 1) :
    GoodState (cs.insert_boolean_gate v) := by
  apply insert_mul_gate_goodState cs v v v hG hv hv hv
  rcases hbool with hb | hb
  · rw [hb]
    ring
  · rw [hb]
    ring

lemma sub_goodState (cs : TPCS F) (l r : Nat) (hG : GoodState cs)
    (hl : l < cs.num_vars) (hr : r < cs.num_vars) :
    GoodState (cs.sub l r).1 := by
  have hW := hG.1.2.1
  have hG1 := new_variable_goodState cs (cs.witAt l - cs.witAt r) hG
  apply insert_lc_gate_goodState (cs.new_variable (cs.witAt l - cs.witAt r)).1
    l r 0 0 cs.num_vars 1 (-1) 0 0 hG1
    (show l < cs.num_vars + 1 by omega) (show r < cs.num_vars + 1 by omega)
    (show 0 < cs.num_vars + 1 by omega) (show 0 < cs.num_vars + 1 by omega)
    (show cs.num_vars < cs.num_vars + 1 by omega)
  rw [new_variable_witAt_lt cs _ hW l hl, new_variable_witAt_lt cs _ hW r hr,
    new_variable_witAt_self cs _ hW]
  ring

lemma mul_goodState (cs : TPCS F) (l r : Nat) (hG : GoodState cs)
    (hl : l < cs.num_vars) (hr : r < cs.num_vars) :
    GoodState (cs.mul l r).1 := by
  have hW := hG.1.2.1
  have hG1 := new_variable_goodState cs (cs.witAt l * cs.witAt r) hG
  apply insert_mul_gate_goodState (cs.new_variable (cs.witAt l * cs.witAt r)).1
    l r cs.num_vars hG1
    (show l < cs.num_vars + 1 by omega) (show r < cs.num_vars + 1 by omega)
    (show cs.num_vars < cs.num_vars + 1 by omega)
  rw [new_variable_witAt_lt cs _ hW l hl, new_variable_witAt_lt cs _ hW r hr,
    new_variable_witAt_self cs _ hW]

lemma linear_combine_goodState (cs : TPCS F) (w1 w2 w3 w4 : Nat) (q1 q2 q3 q4 : F)
    (hG : GoodState cs) (h1 : w1 < cs.num_vars) (h2 : w2 < cs.num_vars)
    (h3 : w3 < cs.num_vars) (h4 : w4 < cs.num_vars) :
    GoodState (cs.linear_combine w1 w2 w3 w4 q1 q2 q3 q4).1 := by
  have hW := hG.1.2.1
  have hG1 := new_variable_goodState cs
    (cs.witAt w1 * q1 + cs.witAt w2 * q2 + cs.witAt w3 * q3 + cs.witAt w4 * q4) hG
  apply insert_lc_gate_goodState _ w1 w2 w3 w4 cs.num_vars q1 q2 q3 q4 hG1
    (show w1 < cs.num_vars + 1 by omega) (show w2 < cs.num_vars + 1 by omega)
    (show w3 < cs.num_vars + 1 by omega) (show w4 < cs.num_vars + 1 by omega)
    (show cs.num_vars < cs.num_vars + 1 by omega)
  rw [new_variable_witAt_lt cs _ hW w1 h1, new_variable_witAt_lt cs _ hW w2 h2,
    new_variable_witAt_lt cs _ hW w3 h3, new_variable_witAt_lt cs _ hW w4 h4,
    new_variable_witAt_self cs _ hW]
  ring

lemma linear_combine_out_val (cs : TPCS F) (w1 w2 w3 w4 : Nat) (q1 q2 q3 q4 : F)
    (hW : cs.witness.length = cs.num_vars) :
    (cs.linear_combine w1 w2 w3 w4 q1 q2 q3 q4).1.witAt
        (cs.linear_combine w1 w2 w3 w4 q1 q2 q3 q4).2
      = cs.witAt w1 * q1 + cs.witAt w2 * q2 + cs.witAt w3 * q3 + cs.witAt w4 * q4 := by
  have hstep : (cs.witness
      ++ [cs.witAt w1 * q1 + cs.witAt w2 * q2 + cs.witAt w3 * q3 + cs.witAt w4 * q4]).getD
        cs.num_vars (0 : F)
      = cs.witAt w1 * q1 + cs.witAt w2 * q2 + cs.witAt w3 * q3 + cs.witAt w4 * q4 := by
    rw [← hW, getD_append_len]
  exact hstep

lemma linear_combine_witAt_lt (cs : TPCS F) (w1 w2 w3 w4 : Nat) (q1 q2 q3 q4 : F)
    (hW : cs.witness.length = cs.num_vars) (i : Nat) (hi : i < cs.num_vars) :
    (cs.linear_combine w1 w2 w3 w4 q1 q2 q3 q4).1.witAt i = cs.witAt i := by
  have hstep : (cs.witness
      ++ [cs.witAt w1 * q1 + cs.witAt w2 * q2 + cs.witAt w3 * q3 + cs.witAt w4 * q4]).getD
        i (0 : F) = cs.witness.getD i (0 : F) :=
    getD_append_lt _ _ _ _ (by omega)
  exact hstep

lemma sub_out_val (cs : TPCS F) (l r : Nat) (hW : cs.witness.length = cs.num_vars) :
    (cs.sub l r).1.witAt (cs.sub l r).2 = cs.witAt l - cs.witAt r := by
  have hstep : (cs.witness ++ [cs.witAt l - cs.witAt r]).getD cs.num_vars (0 : F)
      = cs.witAt l - cs.witAt r := by
    rw [← hW, getD_append_len]
  exact hstep

lemma sub_witAt_lt (cs : TPCS F) (l r : Nat) (hW : cs.witness.length = cs.num_vars)
    (i : Nat) (hi : i < cs.num_vars) : (cs.sub l r).1.witAt i = cs.witAt i := by
  have hstep : (cs.witness ++ [cs.witAt l - cs.witAt r]).getD i (0 : F)
      = cs.witness.getD i (0 : F) :=
    getD_append_lt _ _ _ _ (by omega)
  exact hstep

lemma mul_out_val (cs : TPCS F) (l r : Nat) (hW : cs.witness.length = cs.num_vars) :
    (cs.mul l r).1.witAt (cs.mul l r).2 = cs.witAt l * cs.witAt r := by
  have hstep : (cs.witness ++ [cs.witAt l * cs.witAt r]).getD cs.num_vars (0 : F)
      = cs.witAt l * cs.witAt r := by
    rw [← hW, getD_append_len]
  exact hstep

lemma mul_witAt_lt (cs : TPCS F) (l r : Nat) (hW : cs.witness.length = cs.num_vars)
    (i : Nat) (hi : i < cs.num_vars) : (cs.mul l r).1.witAt i = cs.witAt i := by
  have hstep : (cs.witness ++ [cs.witAt l * cs.witAt r]).getD i (0 : F)
      = cs.witness.getD i (0 : F) :=
    getD_append_lt _ _ _ _ (by omega)
  exact hstep

lemma ensure_one_var_num_vars (cs : TPCS F) :
    cs.ensure_one_var.1.num_vars
      = cs.num_vars + (if cs.one_var = none then 1 else 0) := by
  rcases hoc : cs.one_var with _ | o
  · have he : cs.ensure_one_var
        = ({ cs with one_var := some cs.num_vars
                     witness := cs.witness ++ [1]
                     num_vars := cs.num_vars + 1 }, cs.num_vars) := by
      unfold TurboPlonkConstraintSystem.ensure_one_var
      rw [hoc]
    rw [he, if_pos rfl]
  · have he : cs.ensure_one_var = (cs, o) := by
      unfold TurboPlonkConstraintSystem.ensure_one_var
      rw [hoc]
    rw [he, if_neg (by simp [hoc])]
    rfl

lemma ensure_zero_var_num_vars (cs : TPCS F) :
    cs.ensure_zero_var.1.num_vars
      = cs.num_vars + (if cs.zero_var = none then 1 else 0) := by
  rcases hzc : cs.zero_var with _ | z
  · have he : cs.ensure_zero_var
        = ({ cs with zero_var := some cs.num_vars
                     witness := cs.witness ++ [0]
                     num_vars := cs.num_vars + 1 }, cs.num_vars) := by
      unfold TurboPlonkConstraintSystem.ensure_zero_var
      rw [hzc]
    rw [he, if_pos rfl]
  · have he : cs.ensure_zero_var = (cs, z) := by
      unfold TurboPlonkConstraintSystem.ensure_zero_var
      rw [hzc]
    rw [he, if_neg (by simp [hzc])]
    rfl

set_option maxHeartbeats 800000 in
lemma is_equal_or_not_equal_spec (cs : TPCS F) (left_var right_var : Nat)
    (hG : GoodState cs) (hl : left_var < cs.num_vars) (hr : right_var < cs.num_vars) :
    GoodState (cs.is_equal_or_not_equal left_var right_var).1 ∧
    (cs.is_equal_or_not_equal left_var right_var).1.witAt
        (cs.is_equal_or_not_equal left_var right_var).2.1
      = (if cs.witAt left_var = cs.witAt right_var then (1 : F) else 0) ∧
    (cs.is_equal_or_not_equal left_var right_var).1.witAt
        (cs.is_equal_or_not_equal left_var right_var).2.2
      = (if cs.witAt left_var = cs.witAt right_var then (0 : F) else 1) ∧
    (cs.is_equal_or_not_equal left_var right_var).1.size = cs.size + 4 ∧
    (cs.is_equal_or_not_equal left_var right_var).1.num_vars
      = cs.num_vars + 4 + (if cs.one_var = none then 1 else 0)
        + (if cs.zero_var = none then 1 else 0) ∧
    (cs.is_equal_or_not_equal left_var right_var).1.witAt (cs.num_vars + 1)
      = (cs.witAt left_var - cs.witAt right_var)⁻¹ := by
  have hW := hG.1.2.1
  rcases e1 : cs.sub left_var right_var with ⟨cs1, i1⟩
  have f1 : (cs.sub left_var right_var).1 = cs1 := by rw [e1]
  have g1 : (cs.sub left_var right_var).2 = i1 := by rw [e1]
  have hG1 : GoodState cs1 := by
    rw [← f1]
    exact sub_goodState cs left_var right_var hG hl hr
  have hW1 : cs1.witness.length = cs1.num_vars := hG1.1.2.1
  have hn1 : cs1.num_vars = cs.num_vars + 1 := by rw [← f1]; rfl
  have hi1 : i1 = cs.num_vars := by rw [← g1]; rfl
  have hd1 : cs1.witAt i1 = cs.witAt left_var - cs.witAt right_var := by
    rw [← f1, ← g1]
    exact sub_out_val cs left_var right_var hW
  have hst1 : ∀ i, i < cs.num_vars → cs1.witAt i = cs.witAt i := fun i hi => by
    rw [← f1]
    exact sub_witAt_lt cs left_var right_var hW i hi
  rcases e2 : cs1.new_variable (cs1.witAt i1)⁻¹ with ⟨cs2, i2⟩
  have f2 : (cs1.new_variable (cs1.witAt i1)⁻¹).1 = cs2 := by rw [e2]
  have g2 : (cs1.new_variable (cs1.witAt i1)⁻¹).2 = i2 := by rw [e2]
  have hG2 : GoodState cs2 := by
    rw [← f2]
    exact new_variable_goodState cs1 _ hG1
  have hW2 : cs2.witness.length = cs2.num_vars := hG2.1.2.1
  have hn2 : cs2.num_vars = cs1.num_vars + 1 := by rw [← f2]; rfl
  have hi2 : i2 = cs1.num_vars := by rw [← g2]; rfl
  have hv2 : cs2.witAt i2 = (cs1.witAt i1)⁻¹ := by
    rw [← f2, ← g2]
    exact new_variable_witAt_self cs1 _ hW1
  have hst2 : ∀ i, i < cs1.num_vars → cs2.witAt i = cs1.witAt i := fun i hi => by
    rw [← f2]
    exact new_variable_witAt_lt cs1 _ hW1 i hi
  rcases e3 : cs2.mul i1 i2 with ⟨cs3, i3⟩
  have f3 : (cs2.mul i1 i2).1 = cs3 := by rw [e3]
  have g3 : (cs2.mul i1 i2).2 = i3 := by rw [e3]
  have hG3 : GoodState cs3 := by
    rw [← f3]
    exact mul_goodState cs2 i1 i2 hG2 (by omega) (by omega)
  have hW3 : cs3.witness.length = cs3.num_vars := hG3.1.2.1
  have hn3 : cs3.num_vars = cs2.num_vars + 1 := by rw [← f3]; rfl
  have hi3 : i3 = cs2.num_vars := by rw [← g3]; rfl
  have hv3 : cs3.witAt i3 = cs2.witAt i1 * cs2.witAt i2 := by
    rw [← f3, ← g3]
    exact mul_out_val cs2 i1 i2 hW2
  have hst3 : ∀ i, i < cs2.num_vars → cs3.witAt i = cs2.witAt i := fun i hi => by
    rw [← f3]
    exact mul_witAt_lt cs2 i1 i2 hW2 i hi
  rcases e4 : cs3.ensure_one_var with ⟨cs4, i4⟩
  have f4 : cs3.ensure_one_var.1 = cs4 := by rw [e4]
  obtain ⟨hG4, hlt4, hv4, hmono4, hst4, hsz4, -, -, -, -, hzv4, hW4⟩ :=
    ensure_one_var_spec cs3 hG3
  rw [e4] at hG4 hlt4 hv4 hmono4 hst4 hsz4 hzv4 hW4
  dsimp only at hG4 hlt4 hv4 hmono4 hst4 hsz4 hzv4 hW4
  rcases e5 : cs4.sub i4 i3 with ⟨cs5, i5⟩
  have f5 : (cs4.sub i4 i3).1 = cs5 := by rw [e5]
  have g5 : (cs4.sub i4 i3).2 = i5 := by rw [e5]
  have hG5 : GoodState cs5 := by
    rw [← f5]
    exact sub_goodState cs4 i4 i3 hG4 hlt4 (by omega)
  have hW5 : cs5.witness.length = cs5.num_vars := hG5.1.2.1
  have hn5 : cs5.num_vars = cs4.num_vars + 1 := by rw [← f5]; rfl
  have hi5 : i5 = cs4.num_vars := by rw [← g5]; rfl
  have hv5 : cs5.witAt i5 = cs4.witAt i4 - cs4.witAt i3 := by
    rw [← f5, ← g5]
    exact sub_out_val cs4 i4 i3 hW4
  have hst5 : ∀ i, i < cs4.num_vars → cs5.witAt i = cs4.witAt i := fun i hi => by
    rw [← f5]
    exact sub_witAt_lt cs4 i4 i3 hW4 i hi
  rcases e6 : cs5.ensure_zero_var with ⟨cs6, i6⟩
  have f6 : cs5.ensure_zero_var.1 = cs6 := by rw [e6]
  obtain ⟨hG6, hlt6, hv6, hmono6, hst6, hsz6, -, -, -, -, hov6, hW6⟩ :=
    ensure_zero_var_spec cs5 hG5
  rw [e6] at hG6 hlt6 hv6 hmono6 hst6 hsz6 hov6 hW6
  dsimp only at hG6 hlt6 hv6 hmono6 hst6 hsz6 hov6 hW6
  have hie : cs.is_equal_or_not_equal left_var right_var
      = (cs6.insert_mul_gate i1 i5 i6, i5, i3) := by
    unfold TurboPlonkConstraintSystem.is_equal_or_not_equal
    rw [e1]
    dsimp only
    rw [e2]
    dsimp only
    rw [e3]
    dsimp only
    rw [e4]
    dsimp only
    rw [e5]
    dsimp only
    rw [e6]
  have hval_diff : cs6.witAt i1 = cs.witAt left_var - cs.witAt right_var := by
    rw [hst6 i1 (by omega), hst5 i1 (by omega), hst4 i1 (by omega),
      hst3 i1 (by omega), hst2 i1 (by omega)]
    exact hd1
  have hval_mul : cs6.witAt i3
      = (cs.witAt left_var - cs.witAt right_var)
        * (cs.witAt left_var - cs.witAt right_var)⁻¹ := by
    rw [hst6 i3 (by omega), hst5 i3 (by omega), hst4 i3 (by omega), hv3,
      hst2 i1 (by omega), hv2, hd1]
  have hval_flag : cs6.witAt i5
      = 1 - (cs.witAt left_var - cs.witAt right_var)
        * (cs.witAt left_var - cs.witAt right_var)⁻¹ := by
    rw [hst6 i5 (by omega), hv5, hv4, hst4 i3 (by omega), hv3,
      hst2 i1 (by omega), hv2, hd1]
  have hval7 : cs6.witAt i1 * cs6.witAt i5 = cs6.witAt i6 := by
    rw [hval_diff, hval_flag, hv6]
    by_cases hd : cs.witAt left_var - cs.witAt right_var = 0
    · rw [hd]
      ring
    · rw [mul_inv_cancel₀ hd]
      ring
  have hG7 : GoodState (cs6.insert_mul_gate i1 i5 i6) :=
    insert_mul_gate_goodState cs6 i1 i5 i6 hG6 (by omega) (by omega) hlt6 hval7
  have hw7 : ∀ j, (cs6.insert_mul_gate i1 i5 i6).witAt j = cs6.witAt j := fun j => rfl
  rw [hie]
  refine ⟨hG7, ?_, ?_, ?_, ?_, ?_⟩
  · show (cs6.insert_mul_gate i1 i5 i6).witAt i5
      = (if cs.witAt left_var = cs.witAt right_var then (1 : F) else 0)
    rw [hw7, hval_flag]
    by_cases he : cs.witAt left_var = cs.witAt right_var
    · rw [if_pos he, sub_eq_zero_of_eq he]
      simp
    · rw [if_neg he, mul_inv_cancel₀ (sub_ne_zero.mpr he)]
      ring
  · show (cs6.insert_mul_gate i1 i5 i6).witAt i3
      = (if cs.witAt left_var = cs.witAt right_var then (0 : F) else 1)
    rw [hw7, hval_mul]
    by_cases he : cs.witAt left_var = cs.witAt right_var
    · rw [if_pos he, sub_eq_zero_of_eq he]
      simp
    · rw [if_neg he, mul_inv_cancel₀ (sub_ne_zero.mpr he)]
  · show (cs6.insert_mul_gate i1 i5 i6).size = cs.size + 4
    have s7 : (cs6.insert_mul_gate i1 i5 i6).size = cs6.size + 1 := rfl
    have s5 : cs5.size = cs4.size + 1 := by rw [← f5]; rfl
    have s3 : cs3.size = cs2.size + 1 := by rw [← f3]; rfl
    have s2 : cs2.size = cs1.size := by rw [← f2]; rfl
    have s1 : cs1.size = cs.size + 1 := by rw [← f1]; rfl
    omega
  · show (cs6.insert_mul_gate i1 i5 i6).num_vars
      = cs.num_vars + 4 + (if cs.one_var = none then 1 else 0)
        + (if cs.zero_var = none then 1 else 0)
    have n7 : (cs6.insert_mul_gate i1 i5 i6).num_vars = cs6.num_vars := rfl
    have hz1 : cs1.zero_var = cs.zero_var := by rw [← f1]; rfl
    have hz2 : cs2.zero_var = cs1.zero_var := by rw [← f2]; rfl
    have hz3 : cs3.zero_var = cs2.zero_var := by rw [← f3]; rfl
    have hz5 : cs5.zero_var = cs4.zero_var := by rw [← f5]; rfl
    have ho1 : cs1.one_var = cs.one_var := by rw [← f1]; rfl
    have ho2 : cs2.one_var = cs1.one_var := by rw [← f2]; rfl
    have ho3 : cs3.one_var = cs2.one_var := by rw [← f3]; rfl
    have hnz6 : cs6.num_vars = cs5.num_vars + (if cs5.zero_var = none then 1 else 0) := by
      rw [← f6]
      exact ensure_zero_var_num_vars cs5
    have hno4 : cs4.num_vars = cs3.num_vars + (if cs3.one_var = none then 1 else 0) := by
      rw [← f4]
      exact ensure_one_var_num_vars cs3
    rw [n7, hnz6, hz5, hzv4, hz3, hz2, hz1, hn5, hno4, ho3, ho2, ho1, hn3, hn2, hn1]
    omega
  · show (cs6.insert_mul_gate i1 i5 i6).witAt (cs.num_vars + 1)
      = (cs.witAt left_var - cs.witAt right_var)⁻¹
    rw [hw7]
    rw [show cs.num_vars + 1 = i2 by omega]
    rw [hst6 i2 (by omega), hst5 i2 (by omega), hst4 i2 (by omega),
      hst3 i2 (by omega), hv2, hd1]

/-- C6: for in-range variables of a well-formed satisfied system, the variable
returned by is_equal carries witness value 1 when the two witness values are
equal and 0 otherwise, the variable returned by is_not_equal carries the
complementary flag, whose value is exactly the product diff * inv_diff, and the
updated system is again well-formed with every row — including the soundness
row enforcing diff * equal_flag = 0 — satisfied by the witness the gadget
itself wrote. -/
theorem C6_is_equal (cs : TPCS F) (left_var right_var : Nat) (hG : GoodState cs)
    (hl : left_var < cs.num_vars) (hr : right_var < cs.num_vars) :
    (cs.is_equal left_var right_var).1.witAt (cs.is_equal left_var right_var).2
      = (if cs.witAt left_var = cs.witAt right_var then (1 : F) else 0) ∧
    (cs.is_not_equal left_var right_var).1.witAt
        (cs.is_not_equal left_var right_var).2
      = (if cs.witAt left_var = cs.witAt right_var then (0 : F) else 1) ∧
    (cs.is_not_equal left_var right_var).1.witAt
        (cs.is_not_equal left_var right_var).2
      = (cs.witAt left_var - cs.witAt right_var)
        * (cs.witAt left_var - cs.witAt right_var)⁻¹ ∧
    GoodState (cs.is_equal left_var right_var).1 ∧
    allRowsSatisfied (cs.is_equal left_var right_var).1
        (cs.is_equal left_var right_var).1.witness := by
  obtain ⟨hGs, hveq, hvne, hsz, hnv, hinv⟩ :=
    is_equal_or_not_equal_spec cs left_var right_var hG hl hr
  have e1 : (cs.is_equal left_var right_var).1
      = (cs.is_equal_or_not_equal left_var right_var).1 := rfl
  have e2 : (cs.is_equal left_var right_var).2
      = (cs.is_equal_or_not_equal left_var right_var).2.1 := rfl
  have e3 : (cs.is_not_equal left_var right_var).1
      = (cs.is_equal_or_not_equal left_var right_var).1 := rfl
  have e4 : (cs.is_not_equal left_var right_var).2
      = (cs.is_equal_or_not_equal left_var right_var).2.2 := rfl
  refine ⟨?_, ?_, ?_, ?_, ?_⟩
  · rw [e1, e2]
    exact hveq
  · rw [e3, e4]
    exact hvne
  · rw [e3, e4, hvne]
    by_cases he : cs.witAt left_var = cs.witAt right_var
    · rw [if_pos he, sub_eq_zero_of_eq he]
      simp
    · rw [if_neg he, mul_inv_cancel₀ (sub_ne_zero.mpr he)]
  · rw [e1]
    exact hGs
  · rw [e1]
    exact hGs.2

def exampleEqCS : TPCS (ZMod 11) :=
  TurboPlonkConstraintSystem.new.add_variables [3, 7, 3]

theorem C6_is_equal_witness :
    GoodState exampleEqCS ∧
    (exampleEqCS.is_equal 0 1).1.witAt (exampleEqCS.is_equal 0 1).2 = 0 ∧
    (exampleEqCS.is_not_equal 0 1).1.witAt (exampleEqCS.is_not_equal 0 1).2 = 1 ∧
    allRowsSatisfied (exampleEqCS.is_equal 0 1).1
        (exampleEqCS.is_equal 0 1).1.witness := by
  have hGx : GoodState exampleEqCS := ⟨⟨by decide, by decide, trivial, trivial⟩, by decide⟩
  have h := C6_is_equal exampleEqCS 0 1 hGx (by decide) (by decide)
  refine ⟨hGx, ?_, ?_, h.2.2.2.2⟩
  · have h1 := h.1
    rwa [if_neg (by decide)] at h1
  · have h2 := h.2.1
    rwa [if_neg (by decide)] at h2

def exampleEqCountCS : TPCS (ZMod 11) :=
  TurboPlonkConstraintSystem.new.add_variables [3, 7]

/-- C5 counterexample: the equality-test gadget does not insert exactly 3
gates — on a two-variable system it grows the row count by 4, because the
chain sub, mul, sub (for equal_flag = 1 - diff * inv_diff) each insert a gate
before the final soundness multiplication gate. -/
theorem C5_counterexample :
    (exampleEqCountCS.is_equal_or_not_equal 0 1).1.size
      ≠ exampleEqCountCS.size + 3 := by
  decide

/-- C5 (amended): every call to the equality-test gadget on a well-formed
satisfied system inserts exactly 4 gates — the subtraction gate computing
diff, the multiplication gate producing diff * inv_diff, the subtraction gate
computing equal_flag = 1 - diff * inv_diff, and the multiplication gate
enforcing diff * equal_flag = 0 — and beyond the output variables of those
constituent gadgets it allocates exactly one fresh witness entry, holding
inv_diff, plus the lazily created one/zero constant variables when absent. -/
theorem C5_equality_gadget_gate_count (cs : TPCS F) (left_var right_var : Nat)
    (hG : GoodState cs) (hl : left_var < cs.num_vars)
    (hr : right_var < cs.num_vars) :
    (cs.is_equal_or_not_equal left_var right_var).1.size = cs.size + 4 ∧
    (cs.is_equal_or_not_equal left_var right_var).1.num_vars
      = cs.num_vars + 4 + (if cs.one_var = none then 1 else 0)
        + (if cs.zero_var = none then 1 else 0) ∧
    (cs.is_equal_or_not_equal left_var right_var).1.witAt (cs.num_vars + 1)
      = (cs.witAt left_var - cs.witAt right_var)⁻¹ := by
  obtain ⟨h1, h2, h3, h4, h5, h6⟩ :=
    is_equal_or_not_equal_spec cs left_var right_var hG hl hr
  exact ⟨h4, h5, h6⟩

theorem C5_equality_gadget_gate_count_witness :
    GoodState exampleEqCountCS ∧
    (exampleEqCountCS.is_equal_or_not_equal 0 1).1.size
      = exampleEqCountCS.size + 4 ∧
    (exampleEqCountCS.is_equal_or_not_equal 0 1).1.num_vars
      = exampleEqCountCS.num_vars + 6 := by
  have hGx : GoodState exampleEqCountCS :=
    ⟨⟨by decide, by decide, trivial, trivial⟩, by decide⟩
  have h := C5_equality_gadget_gate_count exampleEqCountCS 0 1
    hGx (by decide) (by decide)
  refine ⟨hGx, h.1, ?_⟩
  have h2 := h.2.1
  rw [if_pos (show exampleEqCountCS.one_var = none from rfl),
    if_pos (show exampleEqCountCS.zero_var = none from rfl)] at h2
  omega

/- ---------------------------------------------------------------- -/
/- C7: the structural (matrix-shape and wire-bound) invariant.      -/
/- Well-formedness is preserved by every public operation, with no  -/
/- assumption on row satisfaction.                                  -/
/- ---------------------------------------------------------------- -/

lemma wellFormed_new : WellFormed (TurboPlonkConstraintSystem.new : TPCS F) := by
  refine ⟨⟨rfl, rfl, ?_, ?_, ?_⟩, rfl, trivial, trivial⟩
  · intro col hc
    rw [List.eq_of_mem_replicate hc]
    rfl
  · intro col hc
    rw [List.eq_of_mem_replicate hc]
    rfl
  · intro col hc v hv
    rw [List.eq_of_mem_replicate hc] at hv
    simp at hv

lemma new_variable_wf (cs : TPCS F) (v : F) (h : WellFormed cs) :
    WellFormed (cs.new_variable v).1 := by
  obtain ⟨hM, hW, hz, ho⟩ := h
  refine ⟨?_, ?_, ?_, ?_⟩
  · obtain ⟨h1, h2, h3, h4, h5⟩ := hM
    exact ⟨h1, h2, h3, h4, fun col hc x hx => Nat.lt_succ_of_lt (h5 col hc x hx)⟩
  · show (cs.witness ++ [v]).length = cs.num_vars + 1
    simp [hW]
  · show (match cs.zero_var with
      | none => True
      | some z => z < cs.num_vars + 1 ∧ (cs.new_variable v).1.witAt z = 0)
    rcases hzc : cs.zero_var with _ | z
    · trivial
    · rw [hzc] at hz
      exact ⟨by omega, by rw [new_variable_witAt_lt cs v hW z (by omega)]; exact hz.2⟩
  · show (match cs.one_var with
      | none => True
      | some o => o < cs.num_vars + 1 ∧ (cs.new_variable v).1.witAt o = 1)
    rcases hoc : cs.one_var with _ | o
    · trivial
    · rw [hoc] at ho
      exact ⟨by omega, by rw [new_variable_witAt_lt cs v hW o (by omega)]; exact ho.2⟩

lemma add_variables_wf (cs : TPCS F) (vs : List F) (h : WellFormed cs) :
    WellFormed (cs.add_variables vs) := by
  obtain ⟨hM, hW, hz, ho⟩ := h
  refine ⟨?_, ?_, ?_, ?_⟩
  · obtain ⟨h1, h2, h3, h4, h5⟩ := hM
    exact ⟨h1, h2, h3, h4,
      fun col hc x hx => lt_of_lt_of_le (h5 col hc x hx) (Nat.le_add_right _ _)⟩
  · show (cs.witness ++ vs).length = cs.num_vars + vs.length
    simp [hW]
  · show (match cs.zero_var with
      | none => True
      | some z => z < cs.num_vars + vs.length ∧ (cs.add_variables vs).witAt z = 0)
    rcases hzc : cs.zero_var with _ | z
    · trivial
    · rw [hzc] at hz
      refine ⟨by omega, ?_⟩
      have hstep : (cs.witness ++ vs).getD z (0 : F) = cs.witness.getD z (0 : F) :=
        getD_append_lt _ _ _ _ (by omega)
      exact hstep.trans hz.2
  · show (match cs.one_var with
      | none => True
      | some o => o < cs.num_vars + vs.length ∧ (cs.add_variables vs).witAt o = 1)
    rcases hoc : cs.one_var with _ | o
    · trivial
    · rw [hoc] at ho
      refine ⟨by omega, ?_⟩
      have hstep : (cs.witness ++ vs).getD o (0 : F) = cs.witness.getD o (0 : F) :=
        getD_append_lt _ _ _ _ (by omega)
      exact hstep.trans ho.2

lemma ensure_zero_var_wf (cs : TPCS F) (h : WellFormed cs) :
    WellFormed cs.ensure_zero_var.1 ∧
    cs.ensure_zero_var.2 < cs.ensure_zero_var.1.num_vars ∧
    cs.num_vars ≤ cs.ensure_zero_var.1.num_vars ∧
    cs.ensure_zero_var.1.selectors = cs.selectors ∧
    cs.ensure_zero_var.1.wiring = cs.wiring ∧
    cs.ensure_zero_var.1.size = cs.size := by
  obtain ⟨hM, hW, hz, ho⟩ := h
  rcases hzc : cs.zero_var with _ | z
  · have he : cs.ensure_zero_var
        = ({ cs with zero_var := some cs.num_vars
                     witness := cs.witness ++ [0]
                     num_vars := cs.num_vars + 1 }, cs.num_vars) := by
      unfold TurboPlonkConstraintSystem.ensure_zero_var
      rw [hzc]
    have hval : (cs.witness ++ [(0 : F)]).getD cs.num_vars 0 = 0 := by
      rw [← hW, getD_append_len]
    rw [he]
    refine ⟨⟨?_, ?_, ?_, ?_⟩, ?_, ?_, rfl, rfl, rfl⟩
    · obtain ⟨h1, h2, h3, h4, h5⟩ := hM
      exact ⟨h1, h2, h3, h4, fun col hc x hx => Nat.lt_succ_of_lt (h5 col hc x hx)⟩
    · show (cs.witness ++ [0]).length = cs.num_vars + 1
      simp [hW]
    · exact ⟨Nat.lt_succ_self _, hval⟩
    · dsimp only
      rcases hoc : cs.one_var with _ | o
      · exact trivial
      · rw [hoc] at ho
        refine ⟨by omega, ?_⟩
        have hstep : (cs.witness ++ [(0 : F)]).getD o (0 : F) = cs.witness.getD o (0 : F) :=
          getD_append_lt _ _ _ _ (by omega)
        exact hstep.trans ho.2
    · show cs.num_vars < cs.num_vars + 1
      omega
    · show cs.num_vars ≤ cs.num_vars + 1
      omega
  · have he : cs.ensure_zero_var = (cs, z) := by
      unfold TurboPlonkConstraintSystem.ensure_zero_var
      rw [hzc]
    rw [he]
    rw [hzc] at hz
    have hzz : (match cs.zero_var with
        | none => True
        | some z => z < cs.num_vars ∧ cs.witAt z = 0) := by
      rw [hzc]
      exact hz
    exact ⟨⟨hM, hW, hzz, ho⟩, hz.1, le_rfl, rfl, rfl, rfl⟩

lemma ensure_one_var_wf (cs : TPCS F) (h : WellFormed cs) :
    WellFormed cs.ensure_one_var.1 ∧
    cs.ensure_one_var.2 < cs.ensure_one_var.1.num_vars ∧
    cs.num_vars ≤ cs.ensure_one_var.1.num_vars ∧
    cs.ensure_one_var.1.selectors = cs.selectors ∧
    cs.ensure_one_var.1.wiring = cs.wiring ∧
    cs.ensure_one_var.1.size = cs.size := by
  obtain ⟨hM, hW, hz, ho⟩ := h
  rcases hoc : cs.one_var with _ | o
  · have he : cs.ensure_one_var
        = ({ cs with one_var := some cs.num_vars
                     witness := cs.witness ++ [1]
                     num_vars := cs.num_vars + 1 }, cs.num_vars) := by
      unfold TurboPlonkConstraintSystem.ensure_one_var
      rw [hoc]
    have hval : (cs.witness ++ [(1 : F)]).getD cs.num_vars 0 = 1 := by
      rw [← hW, getD_append_len]
    rw [he]
    refine ⟨⟨?_, ?_, ?_, ?_⟩, ?_, ?_, rfl, rfl, rfl⟩
    · obtain ⟨h1, h2, h3, h4, h5⟩ := hM
      exact ⟨h1, h2, h3, h4, fun col hc x hx => Nat.lt_succ_of_lt (h5 col hc x hx)⟩
    · show (cs.witness ++ [1]).length = cs.num_vars + 1
      simp [hW]
    · dsimp only
      rcases hzc : cs.zero_var with _ | z
      · exact trivial
      · rw [hzc] at hz
        refine ⟨by omega, ?_⟩
        have hstep : (cs.witness ++ [(1 : F)]).getD z (0 : F) = cs.witness.getD z (0 : F) :=
          getD_append_lt _ _ _ _ (by omega)
        exact hstep.trans hz.2
    · exact ⟨Nat.lt_succ_self _, hval⟩
    · show cs.num_vars < cs.num_vars + 1
      omega
    · show cs.num_vars ≤ cs.num_vars + 1
      omega
  · have he : cs.ensure_one_var = (cs, o) := by
      unfold TurboPlonkConstraintSystem.ensure_one_var
      rw [hoc]
    rw [he]
    rw [hoc] at ho
    have hoo : (match cs.one_var with
        | none => True
        | some o => o < cs.num_vars ∧ cs.witAt o = 1) := by
      rw [hoc]
      exact ho
    exact ⟨⟨hM, hW, hz, hoo⟩, ho.1, le_rfl, rfl, rfl, rfl⟩

set_option maxHeartbeats 1600000 in
lemma insert_lc_gate_wf (cs : TPCS F) (w1 w2 w3 w4 wo : Nat) (q1 q2 q3 q4 : F)
    (h : WellFormed cs) (hw1 : w1 < cs.num_vars) (hw2 : w2 < cs.num_vars)
    (hw3 : w3 < cs.num_vars) (hw4 : w4 < cs.num_vars) (hwo : wo < cs.num_vars) :
    WellFormed (cs.insert_lc_gate w1 w2 w3 w4 wo q1 q2 q3 q4) := by
  obtain ⟨hM, hV⟩ := h
  have hp := insert_lc_gate_isGatePush cs hM.1 hM.2.1 w1 w2 w3 w4 wo q1 q2 q3 q4
  refine ⟨hp.matrixInv hM rfl le_rfl ?_, hV⟩
  intro v hv
  simp only [List.mem_cons, List.not_mem_nil, or_false] at hv
  rcases hv with rfl | rfl | rfl | rfl | rfl
  · exact hw1
  · exact hw2
  · exact hw3
  · exact hw4
  · exact hwo

set_option maxHeartbeats 1600000 in
lemma insert_mul_gate_wf (cs : TPCS F) (l r o : Nat)
    (h : WellFormed cs) (hl : l < cs.num_vars) (hr : r < cs.num_vars)
    (ho : o < cs.num_vars) : WellFormed (cs.insert_mul_gate l r o) := by
  obtain ⟨hM, hV⟩ := h
  have hp := insert_mul_gate_isGatePush cs hM.1 hM.2.1 l r o
  refine ⟨hp.matrixInv hM rfl le_rfl ?_, hV⟩
  intro v hv
  simp only [List.mem_cons, List.not_mem_nil, or_false] at hv
  rcases hv with rfl | rfl | rfl | rfl | rfl
  · exact hl
  · exact hr
  · exact (show 0 < cs.num_vars by omega)
  · exact (show 0 < cs.num_vars by omega)
  · exact ho

set_option maxHeartbeats 1600000 in
lemma insert_constant_gate_wf (cs : TPCS F) (v : Nat) (c : F)
    (h : WellFormed cs) (hv : v < cs.num_vars) :
    WellFormed (cs.insert_constant_gate v c) := by
  obtain ⟨hM, hV⟩ := h
  have hp := insert_constant_gate_isGatePush cs hM.1 hM.2.1 v c
  refine ⟨hp.matrixInv hM rfl le_rfl ?_, hV⟩
  intro x hx
  simp only [List.mem_cons, List.not_mem_nil, or_false] at hx
  rcases hx with rfl | rfl | rfl | rfl | rfl
  · exact hv
  · exact hv
  · exact hv
  · exact hv
  · exact hv

set_option maxHeartbeats 800000 in
lemma select_wf (cs : TPCS F) (var0 var1 bit : Nat)
    (h : WellFormed cs) (h0 : var0 < cs.num_vars) (h1 : var1 < cs.num_vars)
    (hb : bit < cs.num_vars) : WellFormed (cs.select var0 var1 bit).1 := by
  obtain ⟨hM, hW, hz, ho⟩ := h
  have hp := select_isGatePush cs hM.1 hM.2.1 var0 var1 bit
  refine ⟨hp.matrixInv hM rfl ?_ ?_, ?_, ?_, ?_⟩
  · rw [select_num_vars]
    omega
  · intro v hv
    simp only [List.mem_cons, List.not_mem_nil, or_false] at hv
    rw [select_num_vars]
    rcases hv with rfl | rfl | rfl | rfl | rfl
    · omega
    · omega
    · omega
    · omega
    · omega
  · show (cs.witness ++ [if cs.witAt bit = 0 then cs.witAt var0 else cs.witAt var1]).length
      = cs.num_vars + 1
    simp [hW]
  · show (match cs.zero_var with
      | none => True
      | some z => z < cs.num_vars + 1 ∧ (cs.select var0 var1 bit).1.witAt z = 0)
    rcases hzc : cs.zero_var with _ | z
    · trivial
    · rw [hzc] at hz
      refine ⟨by omega, ?_⟩
      have hstep : (cs.witness
          ++ [if cs.witAt bit = 0 then cs.witAt var0 else cs.witAt var1]).getD z (0 : F)
          = cs.witness.getD z (0 : F) :=
        getD_append_lt _ _ _ _ (by omega)
      exact hstep.trans hz.2
  · show (match cs.one_var with
      | none => True
      | some o => o < cs.num_vars + 1 ∧ (cs.select var0 var1 bit).1.witAt o = 1)
    rcases hoc : cs.one_var with _ | o
    · trivial
    · rw [hoc] at ho
      refine ⟨by omega, ?_⟩
      have hstep : (cs.witness
          ++ [if cs.witAt bit = 0 then cs.witAt var0 else cs.witAt var1]).getD o (0 : F)
          = cs.witness.getD o (0 : F) :=
        getD_append_lt _ _ _ _ (by omega)
      exact hstep.trans ho.2

lemma linear_combine_wf (cs : TPCS F) (w1 w2 w3 w4 : Nat) (q1 q2 q3 q4 : F)
    (h : WellFormed cs) (h1 : w1 < cs.num_vars) (h2 : w2 < cs.num_vars)
    (h3 : w3 < cs.num_vars) (h4 : w4 < cs.num_vars) :
    WellFormed (cs.linear_combine w1 w2 w3 w4 q1 q2 q3 q4).1 := by
  have hwf := new_variable_wf cs
    (cs.witAt w1 * q1 + cs.witAt w2 * q2 + cs.witAt w3 * q3 + cs.witAt w4 * q4) h
  exact insert_lc_gate_wf _ w1 w2 w3 w4 cs.num_vars q1 q2 q3 q4 hwf
    (show w1 < cs.num_vars + 1 by omega) (show w2 < cs.num_vars + 1 by omega)
    (show w3 < cs.num_vars + 1 by omega) (show w4 < cs.num_vars + 1 by omega)
    (show cs.num_vars < cs.num_vars + 1 by omega)

lemma add_wf (cs : TPCS F) (l r : Nat) (h : WellFormed cs)
    (hl : l < cs.num_vars) (hr : r < cs.num_vars) : WellFormed (cs.add l r).1 := by
  have hwf := new_variable_wf cs (cs.witAt l + cs.witAt r) h
  exact insert_lc_gate_wf _ l r 0 0 cs.num_vars 1 1 0 0 hwf
    (show l < cs.num_vars + 1 by omega) (show r < cs.num_vars + 1 by omega)
    (show 0 < cs.num_vars + 1 by omega) (show 0 < cs.num_vars + 1 by omega)
    (show cs.num_vars < cs.num_vars + 1 by omega)

lemma sub_wf (cs : TPCS F) (l r : Nat) (h : WellFormed cs)
    (hl : l < cs.num_vars) (hr : r < cs.num_vars) : WellFormed (cs.sub l r).1 := by
  have hwf := new_variable_wf cs (cs.witAt l - cs.witAt r) h
  exact insert_lc_gate_wf _ l r 0 0 cs.num_vars 1 (-1) 0 0 hwf
    (show l < cs.num_vars + 1 by omega) (show r < cs.num_vars + 1 by omega)
    (show 0 < cs.num_vars + 1 by omega) (show 0 < cs.num_vars + 1 by omega)
    (show cs.num_vars < cs.num_vars + 1 by omega)

lemma mul_wf (cs : TPCS F) (l r : Nat) (h : WellFormed cs)
    (hl : l < cs.num_vars) (hr : r < cs.num_vars) : WellFormed (cs.mul l r).1 := by
  have hwf := new_variable_wf cs (cs.witAt l * cs.witAt r) h
  exact insert_mul_gate_wf _ l r cs.num_vars hwf
    (show l < cs.num_vars + 1 by omega) (show r < cs.num_vars + 1 by omega)
    (show cs.num_vars < cs.num_vars + 1 by omega)

lemma equal_wf (cs : TPCS F) (l r : Nat) (h : WellFormed cs)
    (hl : l < cs.num_vars) (hr : r < cs.num_vars) : WellFormed (cs.equal l r) := by
  obtain ⟨hwf0, hlt0, hmono0, -, -, -⟩ := ensure_zero_var_wf cs h
  exact insert_lc_gate_wf _ l r 0 0 cs.ensure_zero_var.2 1 (-1) 0 0 hwf0
    (by omega) (by omega) (by omega) (by omega) hlt0

lemma is_equal_or_not_equal_wf (cs : TPCS F) (left_var right_var : Nat)
    (h : WellFormed cs) (hl : left_var < cs.num_vars) (hr : right_var < cs.num_vars) :
    WellFormed (cs.is_equal_or_not_equal left_var right_var).1 := by
  rcases e1 : cs.sub left_var right_var with ⟨cs1, i1⟩
  have f1 : (cs.sub left_var right_var).1 = cs1 := by rw [e1]
  have g1 : (cs.sub left_var right_var).2 = i1 := by rw [e1]
  have h1 : WellFormed cs1 := by
    rw [← f1]
    exact sub_wf cs left_var right_var h hl hr
  have hn1 : cs1.num_vars = cs.num_vars + 1 := by rw [← f1]; rfl
  have hi1 : i1 = cs.num_vars := by rw [← g1]; rfl
  rcases e2 : cs1.new_variable (cs1.witAt i1)⁻¹ with ⟨cs2, i2⟩
  have f2 : (cs1.new_variable (cs1.witAt i1)⁻¹).1 = cs2 := by rw [e2]
  have g2 : (cs1.new_variable (cs1.witAt i1)⁻¹).2 = i2 := by rw [e2]
  have h2 : WellFormed cs2 := by
    rw [← f2]
    exact new_variable_wf cs1 _ h1
  have hn2 : cs2.num_vars = cs1.num_vars + 1 := by rw [← f2]; rfl
  have hi2 : i2 = cs1.num_vars := by rw [← g2]; rfl
  rcases e3 : cs2.mul i1 i2 with ⟨cs3, i3⟩
  have f3 : (cs2.mul i1 i2).1 = cs3 := by rw [e3]
  have g3 : (cs2.mul i1 i2).2 = i3 := by rw [e3]
  have h3 : WellFormed cs3 := by
    rw [← f3]
    exact mul_wf cs2 i1 i2 h2 (by omega) (by omega)
  have hn3 : cs3.num_vars = cs2.num_vars + 1 := by rw [← f3]; rfl
  have hi3 : i3 = cs2.num_vars := by rw [← g3]; rfl
  rcases e4 : cs3.ensure_one_var with ⟨cs4, i4⟩
  obtain ⟨h4, hlt4, hmono4, -, -, -⟩ := ensure_one_var_wf cs3 h3
  rw [e4] at h4 hlt4 hmono4
  dsimp only at h4 hlt4 hmono4
  rcases e5 : cs4.sub i4 i3 with ⟨cs5, i5⟩
  have f5 : (cs4.sub i4 i3).1 = cs5 := by rw [e5]
  have g5 : (cs4.sub i4 i3).2 = i5 := by rw [e5]
  have h5 : WellFormed cs5 := by
    rw [← f5]
    exact sub_wf cs4 i4 i3 h4 hlt4 (by omega)
  have hn5 : cs5.num_vars = cs4.num_vars + 1 := by rw [← f5]; rfl
  have hi5 : i5 = cs4.num_vars := by rw [← g5]; rfl
  rcases e6 : cs5.ensure_zero_var with ⟨cs6, i6⟩
  obtain ⟨h6, hlt6, hmono6, -, -, -⟩ := ensure_zero_var_wf cs5 h5
  rw [e6] at h6 hlt6 hmono6
  dsimp only at h6 hlt6 hmono6
  have hie : cs.is_equal_or_not_equal left_var right_var
      = (cs6.insert_mul_gate i1 i5 i6, i5, i3) := by
    unfold TurboPlonkConstraintSystem.is_equal_or_not_equal
    rw [e1]
    dsimp only
    rw [e2]
    dsimp only
    rw [e3]
    dsimp only
    rw [e4]
    dsimp only
    rw [e5]
    dsimp only
    rw [e6]
  rw [hie]
  exact insert_mul_gate_wf cs6 i1 i5 i6 h6 (by omega) (by omega) hlt6

lemma prepare_io_variable_wf (cs : TPCS F) (v : Nat) (h : WellFormed cs)
    (hv : v < cs.num_vars) : WellFormed (cs.prepare_io_variable v) := by
  exact insert_constant_gate_wf _ v 0 (by exact h) (by exact hv)

lemma pad_wf (cs : TPCS F) (h : WellFormed cs) (h1 : 1 ≤ cs.num_vars) :
    WellFormed cs.pad := by
  obtain ⟨⟨hs, hw, hsl, hwl, hwb⟩, hV⟩ := h
  refine ⟨⟨?_, ?_, ?_, ?_, ?_⟩, ?_⟩
  · show (cs.selectors.map _).length = 13
    rw [List.length_map]
    exact hs
  · show (cs.wiring.map _).length = 5
    rw [List.length_map]
    exact hw
  · intro col hc
    obtain ⟨c0, hc0, rfl⟩ := List.mem_map.mp hc
    show (c0 ++ List.replicate (nextPowerOfTwo cs.size - cs.size) 0).length
      = cs.size + (nextPowerOfTwo cs.size - cs.size)
    rw [List.length_append, List.length_replicate, hsl c0 hc0]
  · intro col hc
    obtain ⟨c0, hc0, rfl⟩ := List.mem_map.mp hc
    show (c0 ++ List.replicate (nextPowerOfTwo cs.size - cs.size) 0).length
      = cs.size + (nextPowerOfTwo cs.size - cs.size)
    rw [List.length_append, List.length_replicate, hwl c0 hc0]
  · intro col hc v hv
    obtain ⟨c0, hc0, rfl⟩ := List.mem_map.mp hc
    rcases List.mem_append.mp hv with hv | hv
    · exact hwb c0 hc0 v hv
    · rw [List.eq_of_mem_replicate hv]
      show 0 < cs.num_vars
      omega
  · exact hV

lemma new_variables_wf (vs : List F) : ∀ cs : TPCS F, WellFormed cs →
    WellFormed (cs.new_variables vs).1 ∧
    (cs.new_variables vs).1.num_vars = cs.num_vars + vs.length ∧
    (∀ x ∈ (cs.new_variables vs).2, x < (cs.new_variables vs).1.num_vars) := by
  induction vs with
  | nil =>
      intro cs h
      have he : cs.new_variables ([] : List F) = (cs, []) := rfl
      rw [he]
      exact ⟨h, rfl, by intro x hx; simp at hx⟩
  | cons v rest ih =>
      intro cs h
      have he : cs.new_variables (v :: rest)
          = (((cs.new_variable v).1.new_variables rest).1,
             (cs.new_variable v).2 :: ((cs.new_variable v).1.new_variables rest).2) := rfl
      rw [he]
      obtain ⟨ih1, ih2, ih3⟩ := ih (cs.new_variable v).1 (new_variable_wf cs v h)
      have hnv : (cs.new_variable v).1.num_vars = cs.num_vars + 1 := rfl
      refine ⟨ih1, ?_, ?_⟩
      · show ((cs.new_variable v).1.new_variables rest).1.num_vars
          = cs.num_vars + (v :: rest).length
        rw [ih2, hnv]
        simp only [List.length_cons]
        omega
      · intro x hx
        rcases List.mem_cons.mp hx with rfl | hx
        · show (cs.new_variable v).2 < _
          rw [new_variable_snd, ih2, hnv]
          omega
        · exact ih3 x hx

lemma boolean_fold_wf (l : List Nat) : ∀ cs : TPCS F, WellFormed cs →
    (∀ e ∈ l, e < cs.num_vars) →
    WellFormed (l.foldl (fun c e => c.insert_boolean_gate e) cs) ∧
    (l.foldl (fun c e => c.insert_boolean_gate e) cs).num_vars = cs.num_vars := by
  induction l with
  | nil =>
      intro cs h _
      exact ⟨h, rfl⟩
  | cons e rest ih =>
      intro cs h hb
      rw [List.foldl_cons]
      have he : e < cs.num_vars := hb e (by simp)
      have hwf : WellFormed (cs.insert_boolean_gate e) :=
        insert_mul_gate_wf cs e e e h he he he
      have hnv : (cs.insert_boolean_gate e).num_vars = cs.num_vars := rfl
      obtain ⟨w1, w2⟩ := ih (cs.insert_boolean_gate e) hwf
        (fun x hx => by rw [hnv]; exact hb x (by simp [hx]))
      exact ⟨w1, by rw [w2, hnv]⟩

lemma getD_nat_lt (b : List Nat) (n k : Nat) (hall : ∀ x ∈ b, x < n) (h0 : 0 < n) :
    b.getD k 0 < n := by
  rcases Nat.lt_or_ge k b.length with hk | hk
  · exact hall _ (getD_mem_of_lt b k 0 hk)
  · rw [getD_of_le b 0 hk]
    exact h0

lemma lc_fold_wf (b : List Nat) (n_bits : Nat) (L : List Nat) :
    ∀ st : TPCS F × Nat, WellFormed st.1 → st.2 < st.1.num_vars →
    (∀ x ∈ b, x < st.1.num_vars) →
    WellFormed (L.foldl (fun (st : TPCS F × Nat) i => st.1.linear_combine st.2
        (b.getD (n_bits - 1 - i * 3 - 1) 0) (b.getD (n_bits - 1 - i * 3 - 2) 0)
        (b.getD (n_bits - 1 - i * 3 - 3) 0) 8 4 2 1) st).1 ∧
    (L.foldl (fun (st : TPCS F × Nat) i => st.1.linear_combine st.2
        (b.getD (n_bits - 1 - i * 3 - 1) 0) (b.getD (n_bits - 1 - i * 3 - 2) 0)
        (b.getD (n_bits - 1 - i * 3 - 3) 0) 8 4 2 1) st).2
      < (L.foldl (fun (st : TPCS F × Nat) i => st.1.linear_combine st.2
        (b.getD (n_bits - 1 - i * 3 - 1) 0) (b.getD (n_bits - 1 - i * 3 - 2) 0)
        (b.getD (n_bits - 1 - i * 3 - 3) 0) 8 4 2 1) st).1.num_vars ∧
    st.1.num_vars ≤ (L.foldl (fun (st : TPCS F × Nat) i => st.1.linear_combine st.2
        (b.getD (n_bits - 1 - i * 3 - 1) 0) (b.getD (n_bits - 1 - i * 3 - 2) 0)
        (b.getD (n_bits - 1 - i * 3 - 3) 0) 8 4 2 1) st).1.num_vars := by
  induction L with
  | nil =>
      intro st h1 h2 h3
      exact ⟨h1, h2, le_rfl⟩
  | cons i rest ih =>
      intro st h1 h2 h3
      rw [List.foldl_cons]
      have h0 : 0 < st.1.num_vars := by omega
      have hb1 : b.getD (n_bits - 1 - i * 3 - 1) 0 < st.1.num_vars := getD_nat_lt b _ _ h3 h0
      have hb2 : b.getD (n_bits - 1 - i * 3 - 2) 0 < st.1.num_vars := getD_nat_lt b _ _ h3 h0
      have hb3 : b.getD (n_bits - 1 - i * 3 - 3) 0 < st.1.num_vars := getD_nat_lt b _ _ h3 h0
      have hwf : WellFormed (st.1.linear_combine st.2
          (b.getD (n_bits - 1 - i * 3 - 1) 0) (b.getD (n_bits - 1 - i * 3 - 2) 0)
          (b.getD (n_bits - 1 - i * 3 - 3) 0) 8 4 2 1).1 :=
        linear_combine_wf st.1 _ _ _ _ _ _ _ _ h1 h2 hb1 hb2 hb3
      have hnv : (st.1.linear_combine st.2
          (b.getD (n_bits - 1 - i * 3 - 1) 0) (b.getD (n_bits - 1 - i * 3 - 2) 0)
          (b.getD (n_bits - 1 - i * 3 - 3) 0) 8 4 2 1).1.num_vars
          = st.1.num_vars + 1 := rfl
      have hout : (st.1.linear_combine st.2
          (b.getD (n_bits - 1 - i * 3 - 1) 0) (b.getD (n_bits - 1 - i * 3 - 2) 0)
          (b.getD (n_bits - 1 - i * 3 - 3) 0) 8 4 2 1).2 = st.1.num_vars := rfl
      obtain ⟨w1, w2, w3⟩ := ih (st.1.linear_combine st.2
          (b.getD (n_bits - 1 - i * 3 - 1) 0) (b.getD (n_bits - 1 - i * 3 - 2) 0)
          (b.getD (n_bits - 1 - i * 3 - 3) 0) 8 4 2 1) hwf
        (by rw [hout, hnv]; omega)
        (fun x hx => by rw [hnv]; exact lt_of_lt_of_le (h3 x hx) (Nat.le_succ _))
      refine ⟨w1, w2, ?_⟩
      rw [hnv] at w3
      omega

lemma range_check_wf [ScalarVal F] (cs : TPCS F) (var n_bits : Nat)
    (h : WellFormed cs) (hv : var < cs.num_vars) (hn : 2 ≤ n_bits) :
    WellFormed (cs.range_check var n_bits).1 := by
  rcases e1 : cs.new_variables (compute_binary_le F (ScalarVal.val (cs.witAt var)) n_bits)
    with ⟨cs1, b⟩
  obtain ⟨w1, w2, w3⟩ :=
    new_variables_wf (compute_binary_le F (ScalarVal.val (cs.witAt var)) n_bits) cs h
  rw [e1] at w1 w2 w3
  dsimp only at w1 w2 w3
  have hlen : (compute_binary_le F (ScalarVal.val (cs.witAt var)) n_bits).length = n_bits := by
    simp [compute_binary_le]
  rw [hlen] at w2
  obtain ⟨x1, x2⟩ := boolean_fold_wf b cs1 w1 w3
  have hpos : 0 < cs1.num_vars := by omega
  have hacc : b.getD (n_bits - 1) 0
      < (b.foldl (fun c e => c.insert_boolean_gate e) cs1).num_vars := by
    rw [x2]
    exact getD_nat_lt b cs1.num_vars _ w3 hpos
  have hball : ∀ x ∈ b, x < (b.foldl (fun c e => c.insert_boolean_gate e) cs1).num_vars := by
    intro x hx
    rw [x2]
    exact w3 x hx
  obtain ⟨y1, y2, y3⟩ := lc_fold_wf b n_bits (List.range ((n_bits - 2) / 3))
    (b.foldl (fun c e => c.insert_boolean_gate e) cs1, b.getD (n_bits - 1) 0) x1 hacc hball
  dsimp only at y3
  rw [x2] at y3
  set Q := (List.range ((n_bits - 2) / 3)).foldl (fun (st : TPCS F × Nat) i =>
      st.1.linear_combine st.2 (b.getD (n_bits - 1 - i * 3 - 1) 0)
        (b.getD (n_bits - 1 - i * 3 - 2) 0) (b.getD (n_bits - 1 - i * 3 - 3) 0) 8 4 2 1)
    (b.foldl (fun c e => c.insert_boolean_gate e) cs1, b.getD (n_bits - 1) 0) with hQ
  have hQb : ∀ x ∈ b, x < Q.1.num_vars := fun x hx => lt_of_lt_of_le (w3 x hx) y3
  have hQvar : var < Q.1.num_vars := lt_of_lt_of_le (by omega) y3
  have hQ0 : 0 < Q.1.num_vars := by omega
  have hgb0 : b.getD 0 0 < Q.1.num_vars := getD_nat_lt b _ 0 hQb hQ0
  have hgb1 : b.getD 1 0 < Q.1.num_vars := getD_nat_lt b _ 1 hQb hQ0
  have hgb2 : b.getD 2 0 < Q.1.num_vars := getD_nat_lt b _ 2 hQb hQ0
  unfold TurboPlonkConstraintSystem.range_check
  dsimp only
  rw [e1]
  dsimp only
  rw [← hQ]
  rcases hr3 : n_bits - 1 - 3 * ((n_bits - 2) / 3) with _ | _ | _ | k
  · show WellFormed (Q.1.insert_lc_gate Q.2 (b.getD 2 0) (b.getD 1 0) (b.getD 0 0) var 8 4 2 1)
    exact insert_lc_gate_wf Q.1 Q.2 (b.getD 2 0) (b.getD 1 0) (b.getD 0 0) var
      8 4 2 1 y1 y2 hgb2 hgb1 hgb0 hQvar
  · show WellFormed (Q.1.insert_lc_gate Q.2 (b.getD 0 0) 0 0 var 2 1 0 0)
    exact insert_lc_gate_wf Q.1 Q.2 (b.getD 0 0) 0 0 var 2 1 0 0 y1 y2 hgb0 hQ0 hQ0 hQvar
  · show WellFormed (Q.1.insert_lc_gate Q.2 (b.getD 1 0) (b.getD 0 0) 0 var 4 2 1 0)
    exact insert_lc_gate_wf Q.1 Q.2 (b.getD 1 0) (b.getD 0 0) 0 var
      4 2 1 0 y1 y2 hgb1 hgb0 hQ0 hQvar
  · show WellFormed (Q.1.insert_lc_gate Q.2 (b.getD 2 0) (b.getD 1 0) (b.getD 0 0) var 8 4 2 1)
    exact insert_lc_gate_wf Q.1 Q.2 (b.getD 2 0) (b.getD 1 0) (b.getD 0 0) var
      8 4 2 1 y1 y2 hgb2 hgb1 hgb0 hQvar

/-- All states reachable through the public constraint-system API, each
operation invoked under the preconditions its Rust asserts demand (wire and
variable indices in range, n_bits at least 2 for range_check), and pad only
on a system that owns at least one variable.  is_equal and is_not_equal
produce the same state as is_equal_or_not_equal, so the eq_or_ne constructor
covers all three. -/
inductive Reachable [ScalarVal F] : TPCS F → Prop where
  | base : Reachable TurboPlonkConstraintSystem.new
  | new_variable {cs : TPCS F} (v : F) : Reachable cs → Reachable (cs.new_variable v).1
  | add_variables {cs : TPCS F} (vs : List F) : Reachable cs →
      Reachable (cs.add_variables vs)
  | zero_var {cs : TPCS F} : Reachable cs → Reachable cs.ensure_zero_var.1
  | one_var {cs : TPCS F} : Reachable cs → Reachable cs.ensure_one_var.1
  | lc_gate {cs : TPCS F} (w1 w2 w3 w4 wo : Nat) (q1 q2 q3 q4 : F) : Reachable cs →
      w1 < cs.num_vars → w2 < cs.num_vars → w3 < cs.num_vars → w4 < cs.num_vars →
      wo < cs.num_vars → Reachable (cs.insert_lc_gate w1 w2 w3 w4 wo q1 q2 q3 q4)
  | add_gate {cs : TPCS F} (l r o : Nat) : Reachable cs → l < cs.num_vars →
      r < cs.num_vars → o < cs.num_vars → Reachable (cs.insert_add_gate l r o)
  | sub_gate {cs : TPCS F} (l r o : Nat) : Reachable cs → l < cs.num_vars →
      r < cs.num_vars → o < cs.num_vars → Reachable (cs.insert_sub_gate l r o)
  | mul_gate {cs : TPCS F} (l r o : Nat) : Reachable cs → l < cs.num_vars →
      r < cs.num_vars → o < cs.num_vars → Reachable (cs.insert_mul_gate l r o)
  | boolean_gate {cs : TPCS F} (v : Nat) : Reachable cs → v < cs.num_vars →
      Reachable (cs.insert_boolean_gate v)
  | constant_gate {cs : TPCS F} (v : Nat) (c : F) : Reachable cs → v < cs.num_vars →
      Reachable (cs.insert_constant_gate v c)
  | lin_comb {cs : TPCS F} (w1 w2 w3 w4 : Nat) (q1 q2 q3 q4 : F) : Reachable cs →
      w1 < cs.num_vars → w2 < cs.num_vars → w3 < cs.num_vars → w4 < cs.num_vars →
      Reachable (cs.linear_combine w1 w2 w3 w4 q1 q2 q3 q4).1
  | add_op {cs : TPCS F} (l r : Nat) : Reachable cs → l < cs.num_vars →
      r < cs.num_vars → Reachable (cs.add l r).1
  | sub_op {cs : TPCS F} (l r : Nat) : Reachable cs → l < cs.num_vars →
      r < cs.num_vars → Reachable (cs.sub l r).1
  | mul_op {cs : TPCS F} (l r : Nat) : Reachable cs → l < cs.num_vars →
      r < cs.num_vars → Reachable (cs.mul l r).1
  | equal_op {cs : TPCS F} (l r : Nat) : Reachable cs → l < cs.num_vars →
      r < cs.num_vars → Reachable (cs.equal l r)
  | select_op {cs : TPCS F} (v0 v1 b : Nat) : Reachable cs → v0 < cs.num_vars →
      v1 < cs.num_vars → b < cs.num_vars → Reachable (cs.select v0 v1 b).1
  | eq_or_ne {cs : TPCS F} (l r : Nat) : Reachable cs → l < cs.num_vars →
      r < cs.num_vars → Reachable (cs.is_equal_or_not_equal l r).1
  | range_check {cs : TPCS F} (v n : Nat) : Reachable cs → v < cs.num_vars → 2 ≤ n →
      Reachable (cs.range_check v n).1
  | prepare_io {cs : TPCS F} (v : Nat) : Reachable cs → v < cs.num_vars →
      Reachable (cs.prepare_io_variable v)
  | pad {cs : TPCS F} : Reachable cs → 1 ≤ cs.num_vars → Reachable cs.pad

lemma reachable_wellFormed [ScalarVal F] {cs : TPCS F} (h : Reachable cs) :
    WellFormed cs := by
  induction h with
  | base => exact wellFormed_new
  | new_variable v _ ih => exact new_variable_wf _ v ih
  | add_variables vs _ ih => exact add_variables_wf _ vs ih
  | zero_var _ ih => exact (ensure_zero_var_wf _ ih).1
  | one_var _ ih => exact (ensure_one_var_wf _ ih).1
  | lc_gate w1 w2 w3 w4 wo q1 q2 q3 q4 _ h1 h2 h3 h4 h5 ih =>
      exact insert_lc_gate_wf _ w1 w2 w3 w4 wo q1 q2 q3 q4 ih h1 h2 h3 h4 h5
  | add_gate l r o _ h1 h2 h3 ih =>
      exact insert_lc_gate_wf _ l r 0 0 o 1 1 0 0 ih h1 h2 (by omega) (by omega) h3
  | sub_gate l r o _ h1 h2 h3 ih =>
      exact insert_lc_gate_wf _ l r 0 0 o 1 (-1) 0 0 ih h1 h2 (by omega) (by omega) h3
  | mul_gate l r o _ h1 h2 h3 ih => exact insert_mul_gate_wf _ l r o ih h1 h2 h3
  | boolean_gate v _ h1 ih => exact insert_mul_gate_wf _ v v v ih h1 h1 h1
  | constant_gate v c _ h1 ih => exact insert_constant_gate_wf _ v c ih h1
  | lin_comb w1 w2 w3 w4 q1 q2 q3 q4 _ h1 h2 h3 h4 ih =>
      exact linear_combine_wf _ w1 w2 w3 w4 q1 q2 q3 q4 ih h1 h2 h3 h4
  | add_op l r _ h1 h2 ih => exact add_wf _ l r ih h1 h2
  | sub_op l r _ h1 h2 ih => exact sub_wf _ l r ih h1 h2
  | mul_op l r _ h1 h2 ih => exact mul_wf _ l r ih h1 h2
  | equal_op l r _ h1 h2 ih => exact equal_wf _ l r ih h1 h2
  | select_op v0 v1 b _ h1 h2 h3 ih => exact select_wf _ v0 v1 b ih h1 h2 h3
  | eq_or_ne l r _ h1 h2 ih => exact is_equal_or_not_equal_wf _ l r ih h1 h2
  | range_check v n _ h1 h2 ih => exact range_check_wf _ v n ih h1 h2
  | prepare_io v _ h1 ih => exact prepare_io_variable_wf _ v ih h1
  | pad _ h1 ih => exact pad_wf _ ih h1

/-- C7 (amended): in every state reachable from construction through the
public operations — each gate insertion and gadget invoked with its wire and
variable indices below the current variable count, as the source asserts
demand, and pad invoked only on a system owning at least one variable — the
13 selector columns and 5 wiring columns all have length exactly the declared
size, and every wire entry stored in the wiring columns is strictly below the
current variable count. -/
theorem C7_matrix_invariant [ScalarVal F] (cs : TPCS F) (h : Reachable cs) :
    MatrixInv cs :=
  (reachable_wellFormed h).1

def exampleReachCS : TPCS (ZMod 11) :=
  ((((TurboPlonkConstraintSystem.new.new_variable 4).1.new_variable
      6).1.insert_constant_gate 0 4).prepare_io_variable 1).pad

theorem C7_matrix_invariant_witness :
    Reachable exampleReachCS ∧ MatrixInv exampleReachCS := by
  have hr : Reachable exampleReachCS :=
    Reachable.pad (Reachable.prepare_io 1
      (Reachable.constant_gate 0 4
        (Reachable.new_variable 6 (Reachable.new_variable 4 Reachable.base))
        (by decide))
      (by decide)) (by decide)
  exact ⟨hr, C7_matrix_invariant _ hr⟩

/-- C7 counterexample: pad is itself a public operation, yet padding the
freshly constructed system appends a row whose wiring entries store index 0
while num_vars is still 0, so the wire-entry bound of the invariant fails
after this operation sequence. -/
theorem C7_counterexample :
    MatrixInv (TurboPlonkConstraintSystem.new : TPCS (ZMod 11)) ∧
    (TurboPlonkConstraintSystem.new : TPCS (ZMod 11)).pad.size = 1 ∧
    ¬ MatrixInv (TurboPlonkConstraintSystem.new : TPCS (ZMod 11)).pad := by
  have hnp : nextPowerOfTwo 0 = 1 := by
    show 2 ^ Nat.clog 2 0 = 1
    rw [Nat.clog_zero_right, pow_zero]
  refine ⟨by decide, ?_, ?_⟩
  · rw [pad_size]
    exact hnp
  · intro hM
    have hw : (TurboPlonkConstraintSystem.new : TPCS (ZMod 11)).pad.wiring
        = (List.replicate 5 ([] : List Nat)).map
            (fun c => c ++ List.replicate (nextPowerOfTwo 0 - 0) 0) := rfl
    rw [hnp] at hw
    simp only [Nat.sub_zero, List.map_replicate, List.nil_append,
      List.replicate_one] at hw
    have hmem : ([0] : List Nat)
        ∈ (TurboPlonkConstraintSystem.new : TPCS (ZMod 11)).pad.wiring := by
      rw [hw]
      exact List.mem_replicate.mpr ⟨by omega, rfl⟩
    have h0 := hM.2.2.2.2 _ hmem 0 (by simp)
    rw [pad_num_vars] at h0
    exact Nat.lt_irrefl 0 h0

/- ---------------------------------------------------------------- -/
/- C4: range_check.                                                 -/
/- ---------------------------------------------------------------- -/

lemma testBit_cast (x j : Nat) :
    (if x.testBit j then (1 : F) else 0) = ((x / 2 ^ j % 2 : Nat) : F) := by
  have h2 : x.testBit j = true ↔ x / 2 ^ j % 2 = 1 := by
    rw [Nat.testBit_to_div_mod]
    exact decide_eq_true_iff
  cases hb : x.testBit j with
  | false =>
      have hne : ¬ (x / 2 ^ j % 2 = 1) := by
        rw [← h2, hb]
        simp
      have h0 : x / 2 ^ j % 2 = 0 := by omega
      rw [h0]
      simp
  | true =>
      have h1 : x / 2 ^ j % 2 = 1 := h2.mp hb
      rw [h1]
      simp

lemma div_pow_succ (x k : Nat) : x / 2 ^ (k + 1) = x / 2 ^ k / 2 := by
  rw [pow_succ, Nat.div_div_eq_div_mul]

lemma div_pow_bits (x k : Nat) :
    x / 2 ^ k = 8 * (x / 2 ^ (k + 3)) + 4 * (x / 2 ^ (k + 2) % 2)
      + 2 * (x / 2 ^ (k + 1) % 2) + x / 2 ^ k % 2 := by
  have h1 : x / 2 ^ (k + 1) = x / 2 ^ k / 2 := div_pow_succ x k
  have h2 : x / 2 ^ (k + 2) = x / 2 ^ (k + 1) / 2 := div_pow_succ x (k + 1)
  have h3 : x / 2 ^ (k + 3) = x / 2 ^ (k + 2) / 2 := div_pow_succ x (k + 2)
  omega

lemma div_lt_two (x n : Nat) (hn : 1 ≤ n) (hx : x < 2 ^ n) : x / 2 ^ (n - 1) < 2 := by
  apply Nat.div_lt_of_lt_mul
  calc x < 2 ^ n := hx
    _ = 2 ^ (n - 1) * 2 := by
        rw [← pow_succ]
        congr 1
        omega

lemma compute_binary_le_getD (x n k : Nat) (hk : k < n) :
    (compute_binary_le F x n).getD k 0 = (if x.testBit k then (1 : F) else 0) := by
  unfold compute_binary_le
  rw [getD_map_lt _ _ k 0 0 (by simpa using hk),
    show (List.range n).getD k 0 = k from by
      rw [List.getD_eq_getElem?_getD, List.getElem?_range hk]
      rfl]

lemma new_variables_spec (vs : List F) : ∀ cs : TPCS F, GoodState cs →
    GoodState (cs.new_variables vs).1 ∧
    (cs.new_variables vs).1.num_vars = cs.num_vars + vs.length ∧
    (cs.new_variables vs).1.size = cs.size ∧
    (cs.new_variables vs).1.selectors = cs.selectors ∧
    (cs.new_variables vs).1.wiring = cs.wiring ∧
    (cs.new_variables vs).1.public_vars_constraint_indices
      = cs.public_vars_constraint_indices ∧
    (cs.new_variables vs).1.public_vars_witness_indices
      = cs.public_vars_witness_indices ∧
    (cs.new_variables vs).1.zero_var = cs.zero_var ∧
    (cs.new_variables vs).1.one_var = cs.one_var ∧
    (cs.new_variables vs).2 = List.range' cs.num_vars vs.length ∧
    (∀ i, i < cs.num_vars → (cs.new_variables vs).1.witAt i = cs.witAt i) ∧
    (∀ k, k < vs.length → (cs.new_variables vs).1.witAt (cs.num_vars + k)
      = vs.getD k 0) := by
  induction vs with
  | nil =>
      intro cs h
      have he : cs.new_variables ([] : List F) = (cs, []) := rfl
      rw [he]
      refine ⟨h, rfl, rfl, rfl, rfl, rfl, rfl, rfl, rfl, rfl, fun i _ => rfl, ?_⟩
      intro k hk
      simp only [List.length_nil] at hk
      omega
  | cons v rest ih =>
      intro cs h
      have he : cs.new_variables (v :: rest)
          = (((cs.new_variable v).1.new_variables rest).1,
             (cs.new_variable v).2 :: ((cs.new_variable v).1.new_variables rest).2) := rfl
      rw [he]
      obtain ⟨i1, i2, i3, i4, i5, i6, i7, i8, i9, i10, i11, i12⟩ :=
        ih (cs.new_variable v).1 (new_variable_goodState cs v h)
      have hW := h.1.2.1
      have hnv : (cs.new_variable v).1.num_vars = cs.num_vars + 1 := rfl
      refine ⟨i1, ?_, ?_, ?_, ?_, ?_, ?_, ?_, ?_, ?_, ?_, ?_⟩
      · show ((cs.new_variable v).1.new_variables rest).1.num_vars
          = cs.num_vars + (v :: rest).length
        rw [i2, hnv]
        simp only [List.length_cons]
        omega
      · show ((cs.new_variable v).1.new_variables rest).1.size = cs.size
        rw [i3]
        rfl
      · show ((cs.new_variable v).1.new_variables rest).1.selectors = cs.selectors
        rw [i4]
        rfl
      · show ((cs.new_variable v).1.new_variables rest).1.wiring = cs.wiring
        rw [i5]
        rfl
      · show ((cs.new_variable v).1.new_variables rest).1.public_vars_constraint_indices
          = cs.public_vars_constraint_indices
        rw [i6]
        rfl
      · show ((cs.new_variable v).1.new_variables rest).1.public_vars_witness_indices
          = cs.public_vars_witness_indices
        rw [i7]
        rfl
      · show ((cs.new_variable v).1.new_variables rest).1.zero_var = cs.zero_var
        rw [i8]
        rfl
      · show ((cs.new_variable v).1.new_variables rest).1.one_var = cs.one_var
        rw [i9]
        rfl
      · show (cs.new_variable v).2 :: ((cs.new_variable v).1.new_variables rest).2
          = List.range' cs.num_vars (v :: rest).length
        rw [i10, new_variable_snd, hnv, List.length_cons, List.range'_succ]
      · intro i hi
        show ((cs.new_variable v).1.new_variables rest).1.witAt i = cs.witAt i
        rw [i11 i (by rw [hnv]; omega)]
        exact new_variable_witAt_lt cs v hW i hi
      · intro k hk
        show ((cs.new_variable v).1.new_variables rest).1.witAt (cs.num_vars + k)
          = (v :: rest).getD k 0
        rcases k with _ | k2
        · have hstep := i11 cs.num_vars (by rw [hnv]; omega)
          rw [show cs.num_vars + 0 = cs.num_vars from rfl, hstep,
            new_variable_witAt_self cs v hW]
          rfl
        · have hstep := i12 k2 (by simp only [List.length_cons] at hk; omega)
          rw [show cs.num_vars + (k2 + 1) = (cs.new_variable v).1.num_vars + k2 from by
            rw [hnv]; omega]
          rw [hstep]
          rfl

lemma boolean_fold_spec (l : List Nat) : ∀ cs : TPCS F, GoodState cs →
    (∀ e ∈ l, e < cs.num_vars ∧ (cs.witAt e = 0 ∨ cs.witAt e = 1)) →
    GoodState (l.foldl (fun c e => c.insert_boolean_gate e) cs) ∧
    (l.foldl (fun c e => c.insert_boolean_gate e) cs).num_vars = cs.num_vars ∧
    (l.foldl (fun c e => c.insert_boolean_gate e) cs).witness = cs.witness ∧
    (l.foldl (fun c e => c.insert_boolean_gate e) cs).size = cs.size + l.length ∧
    (l.foldl (fun c e => c.insert_boolean_gate e) cs).public_vars_constraint_indices
      = cs.public_vars_constraint_indices ∧
    (l.foldl (fun c e => c.insert_boolean_gate e) cs).public_vars_witness_indices
      = cs.public_vars_witness_indices := by
  induction l with
  | nil =>
      intro cs h _
      exact ⟨h, rfl, rfl, rfl, rfl, rfl⟩
  | cons e rest ih =>
      intro cs h hb
      rw [List.foldl_cons]
      obtain ⟨he, hval⟩ := hb e (by simp)
      have hg : GoodState (cs.insert_boolean_gate e) :=
        insert_boolean_gate_goodState cs e h he hval
      have hnv : (cs.insert_boolean_gate e).num_vars = cs.num_vars := rfl
      have hwit : (cs.insert_boolean_gate e).witness = cs.witness := rfl
      have hsz : (cs.insert_boolean_gate e).size = cs.size + 1 := rfl
      obtain ⟨w1, w2, w3, w4, w5, w6⟩ := ih (cs.insert_boolean_gate e) hg
        (fun x hx => by
          obtain ⟨ha, hv2⟩ := hb x (by simp [hx])
          exact ⟨by rw [hnv]; exact ha, hv2⟩)
      refine ⟨w1, by rw [w2, hnv], by rw [w3, hwit], ?_, by rw [w5]; rfl, by rw [w6]; rfl⟩
      rw [w4, hsz]
      simp only [List.length_cons]
      omega

lemma linear_combine_num_vars (cs : TPCS F) (w1 w2 w3 w4 : Nat) (q1 q2 q3 q4 : F) :
    (cs.linear_combine w1 w2 w3 w4 q1 q2 q3 q4).1.num_vars = cs.num_vars + 1 := rfl

lemma linear_combine_out (cs : TPCS F) (w1 w2 w3 w4 : Nat) (q1 q2 q3 q4 : F) :
    (cs.linear_combine w1 w2 w3 w4 q1 q2 q3 q4).2 = cs.num_vars := rfl

lemma linear_combine_size (cs : TPCS F) (w1 w2 w3 w4 : Nat) (q1 q2 q3 q4 : F) :
    (cs.linear_combine w1 w2 w3 w4 q1 q2 q3 q4).1.size = cs.size + 1 := rfl

lemma linear_combine_pubc (cs : TPCS F) (w1 w2 w3 w4 : Nat) (q1 q2 q3 q4 : F) :
    (cs.linear_combine w1 w2 w3 w4 q1 q2 q3 q4).1.public_vars_constraint_indices
      = cs.public_vars_constraint_indices := rfl

lemma linear_combine_pubw (cs : TPCS F) (w1 w2 w3 w4 : Nat) (q1 q2 q3 q4 : F) :
    (cs.linear_combine w1 w2 w3 w4 q1 q2 q3 q4).1.public_vars_witness_indices
      = cs.public_vars_witness_indices := rfl

set_option maxHeartbeats 1600000 in
lemma insert_lc_gate_spec (cs : TPCS F) (w1 w2 w3 w4 wo : Nat) (q1 q2 q3 q4 : F)
    (hG : GoodState cs) (h1 : w1 < cs.num_vars) (h2 : w2 < cs.num_vars)
    (h3 : w3 < cs.num_vars) (h4 : w4 < cs.num_vars) (h5 : wo < cs.num_vars)
    (hval : q1 * cs.witAt w1 + q2 * cs.witAt w2 + q3 * cs.witAt w3 + q4 * cs.witAt w4
      = cs.witAt wo) :
    GoodState (cs.insert_lc_gate w1 w2 w3 w4 wo q1 q2 q3 q4) ∧
    (cs.insert_lc_gate w1 w2 w3 w4 wo q1 q2 q3 q4).get_witness_index 4 cs.size = wo := by
  refine ⟨insert_lc_gate_goodState cs w1 w2 w3 w4 wo q1 q2 q3 q4 hG h1 h2 h3 h4 h5 hval, ?_⟩
  have hp := insert_lc_gate_isGatePush cs hG.1.1.1 hG.1.1.2.1 w1 w2 w3 w4 wo q1 q2 q3 q4
  rw [hp.wire_new hG.1.1.2.1 hG.1.1.2.2.2.1 4 (by omega)]
  rfl

lemma lc_fold_spec (cs2 : TPCS F) (b : List Nat) (x n_bits nv0 : Nat)
    (hG2 : GoodState cs2) (hb : b = List.range' nv0 n_bits) (hn : 2 ≤ n_bits)
    (hnv2 : nv0 + n_bits ≤ cs2.num_vars)
    (hbits : ∀ k, k < n_bits → cs2.witAt (nv0 + k) = ((x / 2 ^ k % 2 : Nat) : F)) :
    ∀ i, i ≤ (n_bits - 2) / 3 → ∀ st : TPCS F × Nat,
      st = (List.range i).foldl (fun (st : TPCS F × Nat) i => st.1.linear_combine st.2
          (b.getD (n_bits - 1 - i * 3 - 1) 0) (b.getD (n_bits - 1 - i * 3 - 2) 0)
          (b.getD (n_bits - 1 - i * 3 - 3) 0) 8 4 2 1)
        (cs2, b.getD (n_bits - 1) 0) →
      GoodState st.1 ∧
      st.1.num_vars = cs2.num_vars + i ∧
      st.1.size = cs2.size + i ∧
      st.1.public_vars_constraint_indices = cs2.public_vars_constraint_indices ∧
      st.1.public_vars_witness_indices = cs2.public_vars_witness_indices ∧
      st.2 < st.1.num_vars ∧
      (x < 2 ^ n_bits → st.1.witAt st.2 = ((x / 2 ^ (n_bits - 1 - 3 * i) : Nat) : F)) ∧
      (∀ j, j < cs2.num_vars → st.1.witAt j = cs2.witAt j) := by
  intro i
  induction i with
  | zero =>
      intro _ st hst
      simp only [List.range_zero, List.foldl_nil] at hst
      subst hst
      dsimp only
      refine ⟨hG2, rfl, rfl, rfl, rfl, ?_, ?_, fun j hj => rfl⟩
      · rw [hb, getD_range' nv0 n_bits (n_bits - 1) (by omega)]
        omega
      · intro hx
        rw [hb, getD_range' nv0 n_bits (n_bits - 1) (by omega),
          hbits (n_bits - 1) (by omega),
          show n_bits - 1 - 3 * 0 = n_bits - 1 from by omega]
        have hdl : x / 2 ^ (n_bits - 1) < 2 := div_lt_two x n_bits (by omega) hx
        exact congrArg (fun t : Nat => (t : F)) (Nat.mod_eq_of_lt hdl)
  | succ i2 ih =>
      intro hile st hst
      rw [List.range_succ, List.foldl_append, List.foldl_cons, List.foldl_nil] at hst
      obtain ⟨p1, p2, p3, p4, p5, p6, p7, p8⟩ := ih (by omega) _ rfl
      set P := (List.range i2).foldl (fun (st : TPCS F × Nat) i => st.1.linear_combine st.2
          (b.getD (n_bits - 1 - i * 3 - 1) 0) (b.getD (n_bits - 1 - i * 3 - 2) 0)
          (b.getD (n_bits - 1 - i * 3 - 3) 0) 8 4 2 1)
        (cs2, b.getD (n_bits - 1) 0) with hP
      have hWP : P.1.witness.length = P.1.num_vars := p1.1.2.1
      have hb1 : b.getD (n_bits - 1 - i2 * 3 - 1) 0 = nv0 + (n_bits - 2 - 3 * i2) := by
        rw [hb, getD_range' nv0 n_bits _ (by omega)]
        congr 1
        omega
      have hb2 : b.getD (n_bits - 1 - i2 * 3 - 2) 0 = nv0 + (n_bits - 3 - 3 * i2) := by
        rw [hb, getD_range' nv0 n_bits _ (by omega)]
        congr 1
        omega
      have hb3 : b.getD (n_bits - 1 - i2 * 3 - 3) 0 = nv0 + (n_bits - 4 - 3 * i2) := by
        rw [hb, getD_range' nv0 n_bits _ (by omega)]
        congr 1
        omega
      have hlt1 : b.getD (n_bits - 1 - i2 * 3 - 1) 0 < P.1.num_vars := by
        rw [hb1, p2]
        omega
      have hlt2 : b.getD (n_bits - 1 - i2 * 3 - 2) 0 < P.1.num_vars := by
        rw [hb2, p2]
        omega
      have hlt3 : b.getD (n_bits - 1 - i2 * 3 - 3) 0 < P.1.num_vars := by
        rw [hb3, p2]
        omega
      have hv1 : P.1.witAt (b.getD (n_bits - 1 - i2 * 3 - 1) 0)
          = ((x / 2 ^ (n_bits - 2 - 3 * i2) % 2 : Nat) : F) := by
        rw [hb1, p8 _ (by omega), hbits _ (by omega)]
      have hv2 : P.1.witAt (b.getD (n_bits - 1 - i2 * 3 - 2) 0)
          = ((x / 2 ^ (n_bits - 3 - 3 * i2) % 2 : Nat) : F) := by
        rw [hb2, p8 _ (by omega), hbits _ (by omega)]
      have hv3 : P.1.witAt (b.getD (n_bits - 1 - i2 * 3 - 3) 0)
          = ((x / 2 ^ (n_bits - 4 - 3 * i2) % 2 : Nat) : F) := by
        rw [hb3, p8 _ (by omega), hbits _ (by omega)]
      subst hst
      refine ⟨?_, ?_, ?_, ?_, ?_, ?_, ?_, ?_⟩
      · exact linear_combine_goodState P.1 P.2 _ _ _ 8 4 2 1 p1 p6 hlt1 hlt2 hlt3
      · rw [linear_combine_num_vars, p2]
        omega
      · rw [linear_combine_size, p3]
        omega
      · rw [linear_combine_pubc, p4]
      · rw [linear_combine_pubw, p5]
      · rw [linear_combine_out, linear_combine_num_vars]
        omega
      · intro hx
        rw [linear_combine_out_val P.1 P.2 _ _ _ 8 4 2 1 hWP]
        rw [p7 hx, hv1, hv2, hv3]
        have hnat := div_pow_bits x (n_bits - 4 - 3 * i2)
        rw [show n_bits - 4 - 3 * i2 + 3 = n_bits - 1 - 3 * i2 from by omega,
          show n_bits - 4 - 3 * i2 + 2 = n_bits - 2 - 3 * i2 from by omega,
          show n_bits - 4 - 3 * i2 + 1 = n_bits - 3 - 3 * i2 from by omega] at hnat
        have hcast : ((x / 2 ^ (n_bits - 4 - 3 * i2) : Nat) : F)
            = ((8 * (x / 2 ^ (n_bits - 1 - 3 * i2)) + 4 * (x / 2 ^ (n_bits - 2 - 3 * i2) % 2)
              + 2 * (x / 2 ^ (n_bits - 3 - 3 * i2) % 2)
              + x / 2 ^ (n_bits - 4 - 3 * i2) % 2 : Nat) : F) :=
          congrArg (fun t : Nat => (t : F)) hnat
        rw [show n_bits - 1 - 3 * (i2 + 1) = n_bits - 4 - 3 * i2 from by omega]
        rw [hcast]
        push_cast
        ring
      · intro j hj
        rw [linear_combine_witAt_lt P.1 _ _ _ _ 8 4 2 1 hWP j (by omega)]
        exact p8 j hj

set_option maxHeartbeats 1600000 in
lemma range_check_spec [ScalarVal F] (cs : TPCS F) (var n_bits : Nat)
    (hG : GoodState cs) (hv : var < cs.num_vars) (hn : 2 ≤ n_bits) :
    (cs.range_check var n_bits).1.num_vars = cs.num_vars + n_bits + (n_bits - 2) / 3 ∧
    (cs.range_check var n_bits).1.size = cs.size + n_bits + (n_bits - 2) / 3 + 1 ∧
    (cs.range_check var n_bits).1.public_vars_constraint_indices
      = cs.public_vars_constraint_indices ∧
    (cs.range_check var n_bits).1.public_vars_witness_indices
      = cs.public_vars_witness_indices ∧
    (cs.range_check var n_bits).2 = List.range' cs.num_vars n_bits ∧
    (∀ k, k < n_bits → (cs.range_check var n_bits).1.witAt
        ((cs.range_check var n_bits).2.getD k 0)
      = (if (ScalarVal.val (cs.witAt var)).testBit k then (1 : F) else 0)) ∧
    (cs.range_check var n_bits).1.get_witness_index 4
        (cs.size + n_bits + (n_bits - 2) / 3) = var ∧
    (ScalarVal.val (cs.witAt var) < 2 ^ n_bits →
      GoodState (cs.range_check var n_bits).1) := by
  rcases e1 : cs.new_variables (compute_binary_le F (ScalarVal.val (cs.witAt var)) n_bits)
    with ⟨cs1, b⟩
  obtain ⟨a1, a2, a3, a4, a5, a6, a7, a8, a9, a10, a11, a12⟩ :=
    new_variables_spec (compute_binary_le F (ScalarVal.val (cs.witAt var)) n_bits) cs hG
  rw [e1] at a1 a2 a3 a4 a5 a6 a7 a8 a9 a10 a11 a12
  dsimp only at a1 a2 a3 a4 a5 a6 a7 a8 a9 a10 a11 a12
  have hlen : (compute_binary_le F (ScalarVal.val (cs.witAt var)) n_bits).length = n_bits := by
    simp [compute_binary_le]
  rw [hlen] at a2 a10
  have hbit1 : ∀ k, k < n_bits → cs1.witAt (cs.num_vars + k)
      = ((ScalarVal.val (cs.witAt var) / 2 ^ k % 2 : Nat) : F) := by
    intro k hk
    rw [a12 k (by rw [hlen]; exact hk), compute_binary_le_getD _ _ _ hk, testBit_cast]
  have hboolargs : ∀ e ∈ b, e < cs1.num_vars ∧ (cs1.witAt e = 0 ∨ cs1.witAt e = 1) := by
    intro e he
    rw [a10, List.mem_range'_1] at he
    refine ⟨by omega, ?_⟩
    have hek : e = cs.num_vars + (e - cs.num_vars) := by omega
    rw [hek, hbit1 (e - cs.num_vars) (by omega)]
    rcases Nat.mod_two_eq_zero_or_one
        (ScalarVal.val (cs.witAt var) / 2 ^ (e - cs.num_vars)) with hm | hm
    · left
      rw [hm]
      simp
    · right
      rw [hm]
      simp
  obtain ⟨c1, c2, c3, c4, c5, c6⟩ := boolean_fold_spec b cs1 a1 hboolargs
  have hblen : b.length = n_bits := by rw [a10, List.length_range']
  have hfw : ∀ idx, (b.foldl (fun c e => c.insert_boolean_gate e) cs1).witAt idx
      = cs1.witAt idx := by
    intro idx
    unfold TurboPlonkConstraintSystem.witAt
    rw [c3]
  have hbits2 : ∀ k, k < n_bits →
      (b.foldl (fun c e => c.insert_boolean_gate e) cs1).witAt (cs.num_vars + k)
      = ((ScalarVal.val (cs.witAt var) / 2 ^ k % 2 : Nat) : F) :=
    fun k hk => (hfw _).trans (hbit1 k hk)
  have hnv2 : cs.num_vars + n_bits
      ≤ (b.foldl (fun c e => c.insert_boolean_gate e) cs1).num_vars := by
    rw [c2, a2]
  obtain ⟨q1, q2, q3, q4, q5, q6, q7, q8⟩ := lc_fold_spec
    (b.foldl (fun c e => c.insert_boolean_gate e) cs1) b (ScalarVal.val (cs.witAt var))
    n_bits cs.num_vars c1 a10 hn hnv2 hbits2 ((n_bits - 2) / 3) le_rfl _ rfl
  set Q := (List.range ((n_bits - 2) / 3)).foldl (fun (st : TPCS F × Nat) i =>
      st.1.linear_combine st.2 (b.getD (n_bits - 1 - i * 3 - 1) 0)
        (b.getD (n_bits - 1 - i * 3 - 2) 0) (b.getD (n_bits - 1 - i * 3 - 3) 0) 8 4 2 1)
    (b.foldl (fun c e => c.insert_boolean_gate e) cs1, b.getD (n_bits - 1) 0) with hQ
  have hQnum : Q.1.num_vars = cs.num_vars + n_bits + (n_bits - 2) / 3 := by
    rw [q2, c2, a2]
  have hQsize : Q.1.size = cs.size + n_bits + (n_bits - 2) / 3 := by
    rw [q3, c4, hblen, a3]
  have hQpc : Q.1.public_vars_constraint_indices = cs.public_vars_constraint_indices := by
    rw [q4, c5, a6]
  have hQpw : Q.1.public_vars_witness_indices = cs.public_vars_witness_indices := by
    rw [q5, c6, a7]
  have hbget : ∀ k, k < n_bits → b.getD k 0 = cs.num_vars + k := by
    intro k hk
    rw [a10, getD_range' _ _ _ hk]
  have hQbit : ∀ k, k < n_bits → Q.1.witAt (cs.num_vars + k)
      = ((ScalarVal.val (cs.witAt var) / 2 ^ k % 2 : Nat) : F) := by
    intro k hk
    rw [q8 _ (by rw [c2, a2]; omega)]
    exact hbits2 k hk
  have hQvv : Q.1.witAt var = cs.witAt var := by
    rw [q8 var (by rw [c2, a2]; omega), hfw var]
    exact a11 var hv
  have hQvb : var < Q.1.num_vars := by
    rw [hQnum]
    omega
  have h0lt : 0 < Q.1.num_vars := by
    rw [hQnum]
    omega
  rcases hr3 : n_bits - 1 - 3 * ((n_bits - 2) / 3) with _ | _ | _ | k
  · exact absurd hr3 (by omega)
  · have hrc : cs.range_check var n_bits
        = (Q.1.insert_lc_gate Q.2 (b.getD 0 0) 0 0 var 2 1 0 0, b) := by
      unfold TurboPlonkConstraintSystem.range_check
      dsimp only
      rw [e1]
      dsimp only
      rw [← hQ, hr3]
    have hb0v : Q.1.witAt (b.getD 0 0)
        = ((ScalarVal.val (cs.witAt var) / 2 ^ 0 % 2 : Nat) : F) := by
      rw [hbget 0 (by omega)]
      exact hQbit 0 (by omega)
    have hb0lt : b.getD 0 0 < Q.1.num_vars := by
      rw [hbget 0 (by omega), hQnum]
      omega
    have hnat : ScalarVal.val (cs.witAt var)
        = 2 * (ScalarVal.val (cs.witAt var) / 2 ^ 1)
          + ScalarVal.val (cs.witAt var) / 2 ^ 0 % 2 := by
      rw [pow_one, pow_zero]
      omega
    have hcast : ((ScalarVal.val (cs.witAt var) : Nat) : F)
        = ((2 * (ScalarVal.val (cs.witAt var) / 2 ^ 1)
          + ScalarVal.val (cs.witAt var) / 2 ^ 0 % 2 : Nat) : F) :=
      congrArg (fun t : Nat => (t : F)) hnat
    have hp := insert_lc_gate_isGatePush Q.1 q1.1.1.1 q1.1.1.2.1
      Q.2 (b.getD 0 0) 0 0 var 2 1 0 0
    have gwire : (Q.1.insert_lc_gate Q.2 (b.getD 0 0) 0 0 var
        2 1 0 0).get_witness_index 4 Q.1.size = var := by
      rw [hp.wire_new q1.1.1.2.1 q1.1.1.2.2.2.1 4 (by omega)]
      rfl
    rw [hrc]
    dsimp only
    refine ⟨?_, ?_, ?_, ?_, a10, ?_, ?_, ?_⟩
    · rw [insert_lc_gate_num_vars, hQnum]
    · rw [insert_lc_gate_size, hQsize]
    · rw [insert_lc_gate_pubc, hQpc]
    · rw [insert_lc_gate_pubw, hQpw]
    · intro k2 hk2
      rw [hbget k2 hk2]
      have hwI : ∀ idx, (Q.1.insert_lc_gate Q.2 (b.getD 0 0) 0 0 var 2 1 0 0).witAt idx
          = Q.1.witAt idx := fun idx => rfl
      rw [hwI, hQbit k2 hk2, testBit_cast]
    · rw [show cs.size + n_bits + (n_bits - 2) / 3 = Q.1.size from hQsize.symm]
      exact gwire
    · intro hx
      have haccv := q7 hx
      rw [hr3] at haccv
      have hval : (2 : F) * Q.1.witAt Q.2 + 1 * Q.1.witAt (b.getD 0 0)
          + 0 * Q.1.witAt 0 + 0 * Q.1.witAt 0 = Q.1.witAt var := by
        conv_rhs => rw [hQvv, ← ScalarVal.natCast_val (cs.witAt var)]
        rw [haccv, hb0v, hcast]
        push_cast
        ring
      exact insert_lc_gate_goodState Q.1 Q.2 (b.getD 0 0) 0 0 var 2 1 0 0
        q1 q6 hb0lt h0lt h0lt hQvb hval
  · have hrc : cs.range_check var n_bits
        = (Q.1.insert_lc_gate Q.2 (b.getD 1 0) (b.getD 0 0) 0 var 4 2 1 0, b) := by
      unfold TurboPlonkConstraintSystem.range_check
      dsimp only
      rw [e1]
      dsimp only
      rw [← hQ, hr3]
    have hb0v : Q.1.witAt (b.getD 0 0)
        = ((ScalarVal.val (cs.witAt var) / 2 ^ 0 % 2 : Nat) : F) := by
      rw [hbget 0 (by omega)]
      exact hQbit 0 (by omega)
    have hb1v : Q.1.witAt (b.getD 1 0)
        = ((ScalarVal.val (cs.witAt var) / 2 ^ 1 % 2 : Nat) : F) := by
      rw [hbget 1 (by omega)]
      exact hQbit 1 (by omega)
    have hb0lt : b.getD 0 0 < Q.1.num_vars := by
      rw [hbget 0 (by omega), hQnum]
      omega
    have hb1lt : b.getD 1 0 < Q.1.num_vars := by
      rw [hbget 1 (by omega), hQnum]
      omega
    have hnat : ScalarVal.val (cs.witAt var)
        = 4 * (ScalarVal.val (cs.witAt var) / 2 ^ 2)
          + 2 * (ScalarVal.val (cs.witAt var) / 2 ^ 1 % 2)
          + ScalarVal.val (cs.witAt var) / 2 ^ 0 % 2 := by
      rw [show (2 : Nat) ^ 2 = 4 from by norm_num, pow_one, pow_zero]
      omega
    have hcast : ((ScalarVal.val (cs.witAt var) : Nat) : F)
        = ((4 * (ScalarVal.val (cs.witAt var) / 2 ^ 2)
          + 2 * (ScalarVal.val (cs.witAt var) / 2 ^ 1 % 2)
          + ScalarVal.val (cs.witAt var) / 2 ^ 0 % 2 : Nat) : F) :=
      congrArg (fun t : Nat => (t : F)) hnat
    have hp := insert_lc_gate_isGatePush Q.1 q1.1.1.1 q1.1.1.2.1
      Q.2 (b.getD 1 0) (b.getD 0 0) 0 var 4 2 1 0
    have gwire : (Q.1.insert_lc_gate Q.2 (b.getD 1 0) (b.getD 0 0) 0 var
        4 2 1 0).get_witness_index 4 Q.1.size = var := by
      rw [hp.wire_new q1.1.1.2.1 q1.1.1.2.2.2.1 4 (by omega)]
      rfl
    rw [hrc]
    dsimp only
    refine ⟨?_, ?_, ?_, ?_, a10, ?_, ?_, ?_⟩
    · rw [insert_lc_gate_num_vars, hQnum]
    · rw [insert_lc_gate_size, hQsize]
    · rw [insert_lc_gate_pubc, hQpc]
    · rw [insert_lc_gate_pubw, hQpw]
    · intro k2 hk2
      rw [hbget k2 hk2]
      have hwI : ∀ idx,
          (Q.1.insert_lc_gate Q.2 (b.getD 1 0) (b.getD 0 0) 0 var 4 2 1 0).witAt idx
          = Q.1.witAt idx := fun idx => rfl
      rw [hwI, hQbit k2 hk2, testBit_cast]
    · rw [show cs.size + n_bits + (n_bits - 2) / 3 = Q.1.size from hQsize.symm]
      exact gwire
    · intro hx
      have haccv := q7 hx
      rw [hr3] at haccv
      have hval : (4 : F) * Q.1.witAt Q.2 + 2 * Q.1.witAt (b.getD 1 0)
          + 1 * Q.1.witAt (b.getD 0 0) + 0 * Q.1.witAt 0 = Q.1.witAt var := by
        conv_rhs => rw [hQvv, ← ScalarVal.natCast_val (cs.witAt var)]
        rw [haccv, hb1v, hb0v, hcast]
        push_cast
        ring
      exact insert_lc_gate_goodState Q.1 Q.2 (b.getD 1 0) (b.getD 0 0) 0 var 4 2 1 0
        q1 q6 hb1lt hb0lt h0lt hQvb hval
  · have hr3e : n_bits - 1 - 3 * ((n_bits - 2) / 3) = 3 := by omega
    have hrc : cs.range_check var n_bits
        = (Q.1.insert_lc_gate Q.2 (b.getD 2 0) (b.getD 1 0) (b.getD 0 0) var 8 4 2 1, b) := by
      unfold TurboPlonkConstraintSystem.range_check
      dsimp only
      rw [e1]
      dsimp only
      rw [← hQ, hr3]
      rfl
    have hb0v : Q.1.witAt (b.getD 0 0)
        = ((ScalarVal.val (cs.witAt var) / 2 ^ 0 % 2 : Nat) : F) := by
      rw [hbget 0 (by omega)]
      exact hQbit 0 (by omega)
    have hb1v : Q.1.witAt (b.getD 1 0)
        = ((ScalarVal.val (cs.witAt var) / 2 ^ 1 % 2 : Nat) : F) := by
      rw [hbget 1 (by omega)]
      exact hQbit 1 (by omega)
    have hb2v : Q.1.witAt (b.getD 2 0)
        = ((ScalarVal.val (cs.witAt var) / 2 ^ 2 % 2 : Nat) : F) := by
      rw [hbget 2 (by omega)]
      exact hQbit 2 (by omega)
    have hb0lt : b.getD 0 0 < Q.1.num_vars := by
      rw [hbget 0 (by omega), hQnum]
      omega
    have hb1lt : b.getD 1 0 < Q.1.num_vars := by
      rw [hbget 1 (by omega), hQnum]
      omega
    have hb2lt : b.getD 2 0 < Q.1.num_vars := by
      rw [hbget 2 (by omega), hQnum]
      omega
    have hnat : ScalarVal.val (cs.witAt var)
        = 8 * (ScalarVal.val (cs.witAt var) / 2 ^ 3)
          + 4 * (ScalarVal.val (cs.witAt var) / 2 ^ 2 % 2)
          + 2 * (ScalarVal.val (cs.witAt var) / 2 ^ 1 % 2)
          + ScalarVal.val (cs.witAt var) / 2 ^ 0 % 2 := by
      rw [show (2 : Nat) ^ 3 = 8 from by norm_num,
        show (2 : Nat) ^ 2 = 4 from by norm_num, pow_one, pow_zero]
      omega
    have hcast : ((ScalarVal.val (cs.witAt var) : Nat) : F)
        = ((8 * (ScalarVal.val (cs.witAt var) / 2 ^ 3)
          + 4 * (ScalarVal.val (cs.witAt var) / 2 ^ 2 % 2)
          + 2 * (ScalarVal.val (cs.witAt var) / 2 ^ 1 % 2)
          + ScalarVal.val (cs.witAt var) / 2 ^ 0 % 2 : Nat) : F) :=
      congrArg (fun t : Nat => (t : F)) hnat
    have hp := insert_lc_gate_isGatePush Q.1 q1.1.1.1 q1.1.1.2.1
      Q.2 (b.getD 2 0) (b.getD 1 0) (b.getD 0 0) var 8 4 2 1
    have gwire : (Q.1.insert_lc_gate Q.2 (b.getD 2 0) (b.getD 1 0) (b.getD 0 0) var
        8 4 2 1).get_witness_index 4 Q.1.size = var := by
      rw [hp.wire_new q1.1.1.2.1 q1.1.1.2.2.2.1 4 (by omega)]
      rfl
    rw [hrc]
    dsimp only
    refine ⟨?_, ?_, ?_, ?_, a10, ?_, ?_, ?_⟩
    · rw [insert_lc_gate_num_vars, hQnum]
    · rw [insert_lc_gate_size, hQsize]
    · rw [insert_lc_gate_pubc, hQpc]
    · rw [insert_lc_gate_pubw, hQpw]
    · intro k2 hk2
      rw [hbget k2 hk2]
      have hwI : ∀ idx,
          (Q.1.insert_lc_gate Q.2 (b.getD 2 0) (b.getD 1 0) (b.getD 0 0)
            var 8 4 2 1).witAt idx = Q.1.witAt idx := fun idx => rfl
      rw [hwI, hQbit k2 hk2, testBit_cast]
    · rw [show cs.size + n_bits + (n_bits - 2) / 3 = Q.1.size from hQsize.symm]
      exact gwire
    · intro hx
      have haccv := q7 hx
      rw [hr3e] at haccv
      have hval : (8 : F) * Q.1.witAt Q.2 + 4 * Q.1.witAt (b.getD 2 0)
          + 2 * Q.1.witAt (b.getD 1 0) + 1 * Q.1.witAt (b.getD 0 0) = Q.1.witAt var := by
        conv_rhs => rw [hQvv, ← ScalarVal.natCast_val (cs.witAt var)]
        rw [haccv, hb2v, hb1v, hb0v, hcast]
        push_cast
        ring
      exact insert_lc_gate_goodState Q.1 Q.2 (b.getD 2 0) (b.getD 1 0) (b.getD 0 0) var
        8 4 2 1 q1 q6 hb2lt hb1lt hb0lt hQvb hval

/-- C4: for every in-range variable and n_bits at least 2, range_check —
unconditionally — allocates exactly n_bits fresh bit variables at consecutive
indices and returns them least-significant first, stores in them the
little-endian bits of the canonical representative of the variable's witness
value, inserts exactly n_bits boolean gates plus floor((n_bits-2)/3) radix-8
fold gates plus one final linear-combination gate, and wires that final
gate's output directly to the original variable var rather than a fresh
variable; when the value is below 2^n_bits, the witness the gadget writes
additionally satisfies every row it inserts, so verify_witness succeeds on
the honest witness when no public inputs are registered. -/
theorem C4_range_check [ScalarVal F] (cs : TPCS F) (var n_bits : Nat)
    (hG : GoodState cs) (hv : var < cs.num_vars) (hn : 2 ≤ n_bits) :
    (cs.range_check var n_bits).2.length = n_bits ∧
    (∀ k, k < n_bits → (cs.range_check var n_bits).2.getD k 0 = cs.num_vars + k) ∧
    (∀ k, k < n_bits → (cs.range_check var n_bits).1.witAt
        ((cs.range_check var n_bits).2.getD k 0)
      = (if (ScalarVal.val (cs.witAt var)).testBit k then (1 : F) else 0)) ∧
    (cs.range_check var n_bits).1.size = cs.size + n_bits + (n_bits - 2) / 3 + 1 ∧
    (cs.range_check var n_bits).1.get_witness_index 4
        ((cs.range_check var n_bits).1.size - 1) = var ∧
    (ScalarVal.val (cs.witAt var) < 2 ^ n_bits →
      GoodState (cs.range_check var n_bits).1 ∧
      (cs.public_vars_constraint_indices = [] →
        cs.public_vars_witness_indices = [] →
        isOkE ((cs.range_check var n_bits).1.verify_witness
          (cs.range_check var n_bits).1.witness []) = true)) := by
  obtain ⟨m1, m2, m3, m4, m5, m6, m7, m8⟩ := range_check_spec cs var n_bits hG hv hn
  refine ⟨?_, ?_, m6, m2, ?_, ?_⟩
  · rw [m5, List.length_range']
  · intro k hk
    rw [m5, getD_range' _ _ _ hk]
  · rw [m2, show cs.size + n_bits + (n_bits - 2) / 3 + 1 - 1
      = cs.size + n_bits + (n_bits - 2) / 3 from by omega]
    exact m7
  · intro hx
    refine ⟨m8 hx, ?_⟩
    intro hpc hpw
    rw [verify_ok_of_goodState _ (m8 hx) (by rw [m3, hpc]) (by rw [m4, hpw])]
    rfl

def exampleRangeCS : TPCS (ZMod 11) :=
  (TurboPlonkConstraintSystem.new.new_variable 5).1

theorem C4_range_check_witness :
    GoodState exampleRangeCS ∧
    (exampleRangeCS.range_check 0 3).2.length = 3 ∧
    (exampleRangeCS.range_check 0 3).1.witAt
      ((exampleRangeCS.range_check 0 3).2.getD 0 0) = 1 ∧
    (exampleRangeCS.range_check 0 3).1.witAt
      ((exampleRangeCS.range_check 0 3).2.getD 1 0) = 0 ∧
    (exampleRangeCS.range_check 0 3).1.witAt
      ((exampleRangeCS.range_check 0 3).2.getD 2 0) = 1 ∧
    (exampleRangeCS.range_check 0 3).1.size = exampleRangeCS.size + 4 ∧
    isOkE ((exampleRangeCS.range_check 0 3).1.verify_witness
        (exampleRangeCS.range_check 0 3).1.witness []) = true := by
  have hGx : GoodState exampleRangeCS := ⟨⟨by decide, by decide, trivial, trivial⟩, by decide⟩
  have h := C4_range_check exampleRangeCS 0 3 hGx (by decide) (by decide)
  refine ⟨hGx, h.1, ?_, ?_, ?_, ?_, (h.2.2.2.2.2 (by decide)).2 rfl rfl⟩
  · have h3 := h.2.2.1 0 (by decide)
    rwa [if_pos (by decide)] at h3
  · have h3 := h.2.2.1 1 (by decide)
    rwa [if_neg (by decide)] at h3
  · have h3 := h.2.2.1 2 (by decide)
    rwa [if_pos (by decide)] at h3
  · have h3 := h.2.2.2.1
    rwa [show exampleRangeCS.size + 3 + (3 - 2) / 3 + 1 = exampleRangeCS.size + 4 from by
      omega] at h3
